import Mathlib

/-!
Verification of the const IRC message parser.

This file gives a shallow embedding of the parser (src/lib.rs, src/tags.rs,
src/source.rs, src/command.rs, src/parameters.rs, src/casemapping.rs,
src/formatting.rs) and proves or refutes the specification claims about it.

Conventions of the embedding:
* A Rust byte slice `&[u8]` is a `List Nat` (all values are below 256 in
  every use, and only equality and comparisons against constants occur,
  so no modular arithmetic is needed).
* A Rust `&str` is the `List Nat` of its UTF-8 bytes.
* Rust `while` loops over an indexed slice become structural recursions on
  the unprocessed suffix of the slice, carrying the current index so that
  positional tests (such as `index == end_of_tags`) stay verbatim; the
  suffix argument always equals `input.drop index` at every call site.
* Fallible functions return `Except`; a function that can panic returns
  `Option`, with `none` for the panic.
-/

/-- Decidable pointwise membership used throughout. -/
abbrev Byte := Nat

deriving instance DecidableEq for Except

/-- Rust `slice::split_at`, which panics when `mid > len`: `none` models the panic. -/
def rustSplitAt (mid : Nat) (l : List Byte) : Option (List Byte × List Byte) :=
  if mid ≤ l.length then some (l.take mid, l.drop mid) else none

/-- `u8::is_ascii_digit`. -/
def isAsciiDigit (b : Byte) : Bool := 48 ≤ b ∧ b ≤ 57

/-- `u8::is_ascii_lowercase`. -/
def isAsciiLowercase (b : Byte) : Bool := 97 ≤ b ∧ b ≤ 122

/-- `u8::is_ascii_uppercase`. -/
def isAsciiUppercase (b : Byte) : Bool := 65 ≤ b ∧ b ≤ 90

/-- `u8::is_ascii_alphabetic`. -/
def isAsciiAlphabetic (b : Byte) : Bool := isAsciiLowercase b ∨ isAsciiUppercase b

/-- `u8::is_ascii_alphanumeric`. -/
def isAsciiAlphanumeric (b : Byte) : Bool := isAsciiAlphabetic b ∨ isAsciiDigit b

/-- `u8::is_ascii_hexdigit`. -/
def isAsciiHexdigit (b : Byte) : Bool :=
  isAsciiDigit b ∨ (97 ≤ b ∧ b ≤ 102) ∨ (65 ≤ b ∧ b ≤ 70)

/-- `u8::to_ascii_uppercase` on a lowercase ASCII letter. -/
def toAsciiUppercase (b : Byte) : Byte := if isAsciiLowercase b then b - 32 else b

/-- `u8::eq_ignore_ascii_case`. -/
def eqIgnoreAsciiCase (a b : Byte) : Bool := toAsciiUppercase a = toAsciiUppercase b

/-- Is a byte a UTF-8 continuation byte in the closed range `lo ..= hi`. -/
def utf8Cont (lo hi b : Byte) : Bool := lo ≤ b ∧ b ≤ hi

/-- `core::str::from_utf8(input).is_ok()`: the standard UTF-8 well-formedness
check (RFC 3629), matching the byte-range table used by Rust core. -/
def isUtf8 : List Byte → Bool
  | [] => true
  | b :: rest =>
    if b ≤ 0x7F then isUtf8 rest
    else if b < 0xC2 then false
    else if b ≤ 0xDF then
      match rest with
      | c :: r => utf8Cont 0x80 0xBF c && isUtf8 r
      | [] => false
    else if b = 0xE0 then
      match rest with
      | c :: d :: r => utf8Cont 0xA0 0xBF c && utf8Cont 0x80 0xBF d && isUtf8 r
      | _ => false
    else if b ≤ 0xEC then
      match rest with
      | c :: d :: r => utf8Cont 0x80 0xBF c && utf8Cont 0x80 0xBF d && isUtf8 r
      | _ => false
    else if b = 0xED then
      match rest with
      | c :: d :: r => utf8Cont 0x80 0x9F c && utf8Cont 0x80 0xBF d && isUtf8 r
      | _ => false
    else if b ≤ 0xEF then
      match rest with
      | c :: d :: r => utf8Cont 0x80 0xBF c && utf8Cont 0x80 0xBF d && isUtf8 r
      | _ => false
    else if b = 0xF0 then
      match rest with
      | c :: d :: e :: r =>
        utf8Cont 0x90 0xBF c && utf8Cont 0x80 0xBF d && utf8Cont 0x80 0xBF e && isUtf8 r
      | _ => false
    else if b ≤ 0xF3 then
      match rest with
      | c :: d :: e :: r =>
        utf8Cont 0x80 0xBF c && utf8Cont 0x80 0xBF d && utf8Cont 0x80 0xBF e && isUtf8 r
      | _ => false
    else if b = 0xF4 then
      match rest with
      | c :: d :: e :: r =>
        utf8Cont 0x80 0x8F c && utf8Cont 0x80 0xBF d && utf8Cont 0x80 0xBF e && isUtf8 r
      | _ => false
    else false

/-- `ContentType` from src/lib.rs: a UTF-8 string slice or a raw byte slice. -/
inductive ContentType where
  | stringSlice (bytes : List Byte)
  | nonUtf8ByteSlice (bytes : List Byte)
deriving DecidableEq, Repr

/-- `ContentType::new`: choose the variant by one UTF-8 validation probe. -/
def ContentType.new (input : List Byte) : ContentType :=
  if isUtf8 input then .stringSlice input else .nonUtf8ByteSlice input

/-- `ContentType::is_valid_utf8`. -/
def ContentType.is_valid_utf8 : ContentType → Bool
  | .stringSlice _ => true
  | .nonUtf8ByteSlice _ => false

/-- `ContentType::as_bytes`. -/
def ContentType.as_bytes : ContentType → List Byte
  | .stringSlice s => s
  | .nonUtf8ByteSlice b => b

/-- Decimal digits (ASCII) of a natural number, as printed by Rust `{}`/`{:?}` for integers. -/
def natDecimalBytes (n : Nat) : List Byte :=
  (Nat.toDigits 10 n).map Char.toNat

/-- The text Rust `{:?}` (derived `Debug`) produces for a `&[u8]` value:
`[` then the decimal bytes separated by `, ` then `]`. -/
def debugBytesList : List Byte → List Byte
  | [] => []
  | [b] => natDecimalBytes b
  | b :: rest => natDecimalBytes b ++ [44, 32] ++ debugBytesList rest

/-- `Display for ContentType` (src/lib.rs): a string slice prints its bytes,
a non-UTF-8 slice prints like derived `Debug` does, e.g. `[1, 2, 3]`. -/
def ContentType.render : ContentType → List Byte
  | .stringSlice s => s
  | .nonUtf8ByteSlice b => 91 :: debugBytesList b ++ [93]

/-! ## src/casemapping.rs -/

/-- `IrcCaseMapping` from src/casemapping.rs. -/
inductive IrcCaseMapping where
  | ascii
  | rfc1459
  | rfc1459Strict
deriving DecidableEq, Repr

/-- `IrcCaseMapping::rfc1459_is_equivalent`. -/
def IrcCaseMapping.rfc1459_is_equivalent (first second : Byte) (strict : Bool) : Bool :=
  if (first = 123 ∧ second = 91) ∨ (first = 91 ∧ second = 123) ∨
     (first = 125 ∧ second = 93) ∨ (first = 93 ∧ second = 125) ∨
     (first = 124 ∧ second = 92) ∨ (first = 92 ∧ second = 124) then true
  else if ((first = 94 ∧ second = 126) ∨ (first = 126 ∧ second = 94)) ∧ ¬strict then true
  else false

/-- The per-index byte loop of `IrcCaseMapping::is_equivalent`, recursing on the
two (equal length) suffixes. -/
def IrcCaseMapping.isEquivalentLoop (m : IrcCaseMapping) : List Byte → List Byte → Bool
  | a :: fs, b :: ss =>
    if isAsciiAlphabetic a ∧ isAsciiAlphabetic b then
      if eqIgnoreAsciiCase a b then false
      else m.isEquivalentLoop fs ss
    else if a ≠ b then
      match m with
      | .ascii => false
      | .rfc1459 => if ¬IrcCaseMapping.rfc1459_is_equivalent a b false then false
                    else m.isEquivalentLoop fs ss
      | .rfc1459Strict => if ¬IrcCaseMapping.rfc1459_is_equivalent a b true then false
                          else m.isEquivalentLoop fs ss
    else m.isEquivalentLoop fs ss
  | _, _ => true

/-- `IrcCaseMapping::is_equivalent` from src/casemapping.rs. -/
def IrcCaseMapping.is_equivalent (m : IrcCaseMapping) (first second : List Byte) : Bool :=
  if first.length ≠ second.length then false
  else m.isEquivalentLoop first second

/-! ## src/formatting.rs -/

/-- `IrcFmtByte` from src/formatting.rs. -/
inductive IrcFmtByte where
  | bold
  | italics
  | underline
  | strikethrough
  | monospace
  | colour
  | hexColour
  | reverseColour
  | reset
deriving DecidableEq, Repr

/-- `IrcFmtByte::detect`. -/
def IrcFmtByte.detect (input : Byte) : Option IrcFmtByte :=
  match input with
  | 2 => some .bold
  | 3 => some .colour
  | 4 => some .hexColour
  | 15 => some .reset
  | 17 => some .monospace
  | 22 => some .reverseColour
  | 29 => some .italics
  | 30 => some .strikethrough
  | 31 => some .underline
  | _ => none

/-- `IrcFmtByte::contains_irc_formatting`. -/
def IrcFmtByte.contains_irc_formatting : List Byte → Bool
  | [] => false
  | b :: rest =>
    if (IrcFmtByte.detect b).isSome then true else IrcFmtByte.contains_irc_formatting rest

/-- `ColourCodeSize` from src/formatting.rs. -/
inductive ColourCodeSize where
  | singleDigit
  | doubleDigit
  | singleAndSingle
  | singleAndDouble
  | doubleAndSingle
  | doubleAndDouble
deriving DecidableEq, Repr

/-- The flag-updating loop of `IrcFmtByte::irc_colour_codes`; the five flags are
(foreground_first, foreground_second, comma, background_first, background_second),
and reaching a `break` returns the flags unchanged. -/
def ircColourCodesLoop (input : List Byte) (index : Nat) (rest : List Byte)
    (ff fs comma bf bs : Bool) : Bool × Bool × Bool × Bool × Bool :=
  match rest with
  | [] => (ff, fs, comma, bf, bs)
  | b :: rest' =>
    match index with
    | 0 => if isAsciiDigit b then ircColourCodesLoop input 1 rest' true fs comma bf bs
           else (ff, fs, comma, bf, bs)
    | 1 => if isAsciiDigit b then ircColourCodesLoop input 2 rest' ff true comma bf bs
           else if b = 44 then ircColourCodesLoop input 2 rest' ff fs true bf bs
           else (ff, fs, comma, bf, bs)
    | 2 => if isAsciiDigit b then ircColourCodesLoop input 3 rest' ff fs comma true bs
           else if b = 44 then ircColourCodesLoop input 3 rest' ff fs true bf bs
           else (ff, fs, comma, bf, bs)
    | 3 => if isAsciiDigit b ∧ ff ∧ fs ∧ comma then ircColourCodesLoop input 4 rest' ff fs comma true bs
           else if isAsciiDigit b ∧ ff ∧ ¬fs ∧ comma ∧ bf then ircColourCodesLoop input 4 rest' ff fs comma bf true
           else (ff, fs, comma, bf, bs)
    | 4 => if isAsciiDigit b then ircColourCodesLoop input 5 rest' ff fs comma bf true
           else (ff, fs, comma, bf, bs)
    | _ => (ff, fs, comma, bf, bs)

/-- `IrcFmtByte::irc_colour_codes`. -/
def IrcFmtByte.irc_colour_codes (input : List Byte) : Option ColourCodeSize :=
  match ircColourCodesLoop input 0 input false false false false false with
  | (true, false, _, false, false) => some .singleDigit
  | (true, true, _, false, false) => some .doubleDigit
  | (true, false, true, true, false) => some .singleAndSingle
  | (true, false, true, true, true) => some .singleAndDouble
  | (true, true, true, true, false) => some .doubleAndSingle
  | (true, true, true, true, true) => some .doubleAndDouble
  | _ => none

/-- `is_hex_colour` from src/formatting.rs. -/
def is_hex_colour : List Byte → Bool
  | [] => true
  | b :: rest => if ¬isAsciiHexdigit b then false else is_hex_colour rest

/-- The type abbreviations `MsgPart`/`OptMsgPart`/`OptIrcColours` of src/formatting.rs. -/
abbrev OptMsgPart := Option (List Byte)

/-- Foreground and optional background colour payloads. -/
abbrev OptIrcColours := Option (List Byte × OptMsgPart)

/-- `IrcFmtByte::one_colour`. -/
def IrcFmtByte.one_colour (after : List Byte) (index : Nat) : OptIrcColours × OptMsgPart :=
  let code := after.take index
  let after_code := after.drop index
  (some (code, none), if after_code = [] then none else some after_code)

/-- `IrcFmtByte::two_colours`. -/
def IrcFmtByte.two_colours (after : List Byte) (first_split last_split : Nat) :
    OptIrcColours × OptMsgPart :=
  let foreground := after.take first_split
  let comma_onwards := after.drop first_split
  let after_comma := comma_onwards.drop 1
  let background := after_comma.take last_split
  let after_codes := after_comma.drop last_split
  (some (foreground, some background), if after_codes = [] then none else some after_codes)

/-- The body run at the first formatting byte found by
`IrcFmtByte::split_at_first_fmt_byte`: `before` is everything before the byte
and `after` everything following it. -/
def splitFmtHit (input : List Byte) (index : Nat) (fb : IrcFmtByte) :
    OptMsgPart × Option IrcFmtByte × OptIrcColours × OptMsgPart :=
  let before := input.take index
  let before' : OptMsgPart := if before = [] then none else some before
  let after := input.drop (index + 1)
  match fb with
  | .bold | .italics | .underline | .strikethrough | .monospace | .reverseColour | .reset =>
    (before', some fb, none, if after = [] then none else some after)
  | .colour =>
    if after = [] then (before', some fb, none, none)
    else
      match IrcFmtByte.irc_colour_codes after with
      | some .singleDigit =>
        let (colours, after_code) := IrcFmtByte.one_colour after 1
        (before', some fb, colours, after_code)
      | some .doubleDigit =>
        let (colours, after_code) := IrcFmtByte.one_colour after 2
        (before', some fb, colours, after_code)
      | some .singleAndSingle =>
        let (colours, after_codes) := IrcFmtByte.two_colours after 1 1
        (before', some fb, colours, after_codes)
      | some .singleAndDouble =>
        let (colours, after_codes) := IrcFmtByte.two_colours after 1 2
        (before', some fb, colours, after_codes)
      | some .doubleAndSingle =>
        let (colours, after_codes) := IrcFmtByte.two_colours after 2 1
        (before', some fb, colours, after_codes)
      | some .doubleAndDouble =>
        let (colours, after_codes) := IrcFmtByte.two_colours after 2 2
        (before', some fb, colours, after_codes)
      | none => (before', some fb, none, some after)
  | .hexColour =>
    if after = [] then (before', some fb, none, none)
    else if after.length > 5 then
      let first_colour := after.take 6
      let comma_onwards := after.drop 6
      if is_hex_colour first_colour then
        if comma_onwards.length > 6 ∧ comma_onwards.getD 0 0 = 44 then
          let after_comma := comma_onwards.drop 1
          let second_colour := after_comma.take 6
          let onwards := after_comma.drop 6
          if is_hex_colour second_colour then
            (before', some fb, some (first_colour, some second_colour),
             if onwards = [] then none else some onwards)
          else (before', some fb, some (first_colour, none),
                if comma_onwards = [] then none else some comma_onwards)
        else (before', some fb, some (first_colour, none),
              if comma_onwards = [] then none else some comma_onwards)
      else (before', some fb, none, some after)
    else (before', some fb, none, some after)

/-- The scanning loop of `IrcFmtByte::split_at_first_fmt_byte`; falling off the
end of the loop reaches the final `Some((Some(input), None, None, None))`. -/
def splitFmtLoop (input : List Byte) (index : Nat) (rest : List Byte) :
    OptMsgPart × Option IrcFmtByte × OptIrcColours × OptMsgPart :=
  match rest with
  | [] => (some input, none, none, none)
  | b :: rest' =>
    match IrcFmtByte.detect b with
    | some fb => splitFmtHit input index fb
    | none => splitFmtLoop input (index + 1) rest'

/-- `IrcFmtByte::split_at_first_fmt_byte` from src/formatting.rs. -/
def IrcFmtByte.split_at_first_fmt_byte (input : List Byte) :
    Option (OptMsgPart × Option IrcFmtByte × OptIrcColours × OptMsgPart) :=
  if input = [] then none
  else if IrcFmtByte.contains_irc_formatting input then some (splitFmtLoop input 0 input)
  else some (some input, none, none, none)

/-! ## src/tags.rs -/

/-- `Tags` from src/tags.rs: a count and the borrowed span (a `&str`, kept as
its UTF-8 bytes). -/
structure Tags where
  amount : Nat
  content : List Byte
deriving DecidableEq, Repr

/-- `TagsError` from src/tags.rs. -/
inductive TagsError where
  | emptyInput
  | invalidStartingPrefix (b : Byte)
  | tagBytesExceededBy (n : Nat)
  | noTags
  | emptyKeyName
  | invalidEscapedValueByte (b : Byte)
  | notUtf8
deriving DecidableEq, Repr

/-- `is_invalid_escaped_value_byte` from src/tags.rs. -/
def is_invalid_escaped_value_byte (input : Byte) : Bool :=
  input = 0 ∨ input = 10 ∨ input = 13 ∨ input = 32

/-- The counting loop of `Tags::parse`: walks the span tracking whether an
escaped value has started and whether the previous segment boundary was a
semicolon. `rest` is `input.drop index` at every call. -/
def tagsCountLoop (input : List Byte) (index : Nat) (rest : List Byte)
    (amount : Nat) (escaped_value_started previous_semicolon : Bool) :
    Except TagsError Nat :=
  match rest with
  | [] => .ok amount
  | b :: rest' =>
    if b = 59 ∨ index = input.length - 1 then
      if previous_semicolon then .error .emptyKeyName
      else tagsCountLoop input (index + 1) rest' (amount + 1) false true
    else if b = 61 ∧ ¬escaped_value_started then
      tagsCountLoop input (index + 1) rest' amount true false
    else if escaped_value_started ∧ is_invalid_escaped_value_byte b then
      .error (.invalidEscapedValueByte b)
    else tagsCountLoop input (index + 1) rest' amount escaped_value_started false

/-- `Tags::parse` from src/tags.rs. -/
def Tags.parse (input : List Byte) : Except TagsError Tags :=
  if input = [] then .error .emptyInput
  else if input.length > 8190 then .error (.tagBytesExceededBy (input.length - 8190))
  else if input.getD 0 0 ≠ 64 then .error (.invalidStartingPrefix (input.getD 0 0))
  else if input.length = 1 then .error .noTags
  else if isUtf8 input then
    match tagsCountLoop input 0 input 0 false true with
    | .ok amount => .ok ⟨amount, input⟩
    | .error e => .error e
  else .error .notUtf8

/-- `Tags::count`. -/
def Tags.count (t : Tags) : Nat := t.amount

/-- `Tag` from src/tags.rs (the `&str` fields are UTF-8 byte lists). -/
structure Tag where
  client_prefix : Bool
  vendor : Option (List Byte)
  key_name : List Byte
  escaped_value : Option (List Byte)
deriving DecidableEq, Repr

/-- State of the extraction loop of `Tags::extract_specific`. -/
structure TagExtractSt where
  current_tag : Nat
  current_tag_start : Nat
  tag : Tag
  copy : List Byte
  offset : Nat
  key_name_start : Nat
deriving Repr

/-- The loop of `Tags::extract_specific`, walking `bytes` from `index` (with
`rest = bytes.drop index`); the `break`s return the accumulated tag, and
`none` models a panicking `split_at`. -/
def tagExtractLoop (bytes : List Byte) (target_index : Nat) (index : Nat)
    (rest : List Byte) (st : TagExtractSt) : Option Tag :=
  match rest with
  | [] => some st.tag
  | b :: rest' =>
    if st.current_tag = target_index then
      if b = 43 then
        tagExtractLoop bytes target_index (index + 1) rest'
          { st with tag := { st.tag with client_prefix := true } }
      else if b = 47 then
        match rustSplitAt (if st.tag.client_prefix then st.current_tag_start + 1
                           else st.current_tag_start) bytes with
        | none => none
        | some (_, copy1) =>
          let offset1 := if st.tag.client_prefix then st.current_tag_start + 1
                         else st.current_tag_start
          match rustSplitAt (index - offset1) copy1 with
          | none => none
          | some (copy2, _) =>
            let tag' := if isUtf8 copy2 then { st.tag with vendor := some copy2 } else st.tag
            match rustSplitAt (index + 1) bytes with
            | none => none
            | some (_, copy3) =>
              tagExtractLoop bytes target_index (index + 1) rest'
                { st with tag := tag', copy := copy3, offset := index + 1,
                          key_name_start := index + 1 }
      else if b = 61 then
        if st.tag.vendor.isSome then
          match rustSplitAt (index - st.offset) st.copy with
          | none => none
          | some (copy1, _) =>
            let tag' := if isUtf8 copy1 then { st.tag with key_name := copy1 } else st.tag
            if index + 1 = bytes.length - 1 then some tag'
            else tagExtractLoop bytes target_index (index + 1) rest'
              { st with tag := tag', copy := copy1, offset := index + 1 }
        else
          match rustSplitAt st.current_tag_start bytes with
          | none => none
          | some (_, copy1) =>
            match rustSplitAt (index - 1) copy1 with
            | none => none
            | some (copy2, _) =>
              let tag' := if isUtf8 copy2 then { st.tag with key_name := copy2 } else st.tag
              if index + 1 = bytes.length - 1 then some tag'
              else tagExtractLoop bytes target_index (index + 1) rest'
                { st with tag := tag', copy := copy2, offset := index + 1 }
      else if b = 59 ∨ index = bytes.length - 1 then
        if st.tag.key_name ≠ [] then
          match rustSplitAt st.offset bytes with
          | none => none
          | some (_, copy1) =>
            let step : Option (List Byte) :=
              if index ≠ bytes.length - 1 then
                match rustSplitAt (index - st.offset) copy1 with
                | none => none
                | some (copy2, _) => some copy2
              else some copy1
            match step with
            | none => none
            | some copy2 =>
              some (if isUtf8 copy2 then { st.tag with escaped_value := some copy2 } else st.tag)
        else if st.tag.vendor.isSome then
          match rustSplitAt st.key_name_start bytes with
          | none => none
          | some (_, copy1) =>
            let step : Option (List Byte) :=
              if index ≠ bytes.length - 1 then
                match rustSplitAt (index - st.key_name_start) copy1 with
                | none => none
                | some (copy2, _) => some copy2
              else some copy1
            match step with
            | none => none
            | some copy2 =>
              some (if isUtf8 copy2 then { st.tag with key_name := copy2 } else st.tag)
        else
          match rustSplitAt st.current_tag_start bytes with
          | none => none
          | some (_, copy1) =>
            let step : Option (List Byte) :=
              if index ≠ bytes.length - 1 then
                match rustSplitAt (index - st.current_tag_start) copy1 with
                | none => none
                | some (copy2, _) => some copy2
              else some copy1
            match step with
            | none => none
            | some copy2 =>
              some (if isUtf8 copy2 then { st.tag with key_name := copy2 } else st.tag)
      else tagExtractLoop bytes target_index (index + 1) rest' st
    else if b = 59 then
      tagExtractLoop bytes target_index (index + 1) rest'
        { st with current_tag := st.current_tag + 1, current_tag_start := index + 1 }
    else tagExtractLoop bytes target_index (index + 1) rest' st

/-- `Tags::extract_specific` from src/tags.rs. The outer `Option` models
panic-freedom (`none` is a panic), the inner one is the Rust return value. -/
def Tags.extract_specific (t : Tags) (target_index : Nat) : Option (Option Tag) :=
  if target_index > t.amount then some none
  else
    let bytes := t.content
    match tagExtractLoop bytes target_index 0 bytes
      ⟨0, 1, ⟨false, none, [], none⟩, bytes, 0, 0⟩ with
    | some tag => some (some tag)
    | none => none

/-! ## src/parameters.rs -/

/-- `Parameters` from src/parameters.rs. -/
structure Parameters where
  amount : Nat
  content : ContentType
deriving DecidableEq, Repr

/-- `ParametersError` from src/parameters.rs. -/
inductive ParametersError where
  | invalidByte (b : Byte)
deriving DecidableEq, Repr

/-- The counting loop of `Parameters::parse`; `rest = input.drop index`. -/
def paramsCountLoop (input : List Byte) (index : Nat) (rest : List Byte)
    (amount : Nat) (previous_char : Byte) (trailing_parameter : Bool) :
    Except ParametersError Nat :=
  match rest with
  | [] => .ok amount
  | b :: rest' =>
    if b = 0 ∨ b = 13 ∨ b = 10 then .error (.invalidByte b)
    else if (previous_char = 32 ∨ index = 0) ∧ b = 58 then
      paramsCountLoop input (index + 1) rest' amount b true
    else if ¬trailing_parameter ∧ b = 32 then
      paramsCountLoop input (index + 1) rest' (amount + 1) b trailing_parameter
    else paramsCountLoop input (index + 1) rest' amount b trailing_parameter

/-- `Parameters::parse` from src/parameters.rs. -/
def Parameters.parse (input : List Byte) : Except ParametersError (Option Parameters) :=
  if input = [] then .ok none
  else
    match paramsCountLoop input 0 input 1 0 false with
    | .ok amount => .ok (some ⟨amount, ContentType.new input⟩)
    | .error e => .error e

/-- `Parameters::count`. -/
def Parameters.count (p : Parameters) : Nat := p.amount

/-- `Parameters::is_valid_uft8` (sic) from src/parameters.rs. -/
def Parameters.is_valid_uft8 (p : Parameters) : Bool :=
  match p.content with
  | .stringSlice _ => true
  | .nonUtf8ByteSlice _ => false

/-- The scanning loop of `Parameters::extract_specific`; returns the loop
variables at `break` or loop exit:
(current_param, param_started, param_start, param_end, last_param). -/
def paramExtractLoop (bytes : List Byte) (target_index : Nat) (index : Nat)
    (rest : List Byte) (current_param : Nat) (param_started : Bool)
    (param_start param_end : Nat) (last_param : Bool) (previous_byte : Byte) :
    Nat × Bool × Nat × Nat × Bool :=
  match rest with
  | [] => (current_param, param_started, param_start, param_end, last_param)
  | b :: rest' =>
    let param_started' := if target_index = current_param - 1 ∧ ¬param_started then true
                          else param_started
    let param_start' := if target_index = current_param - 1 ∧ ¬param_started then index
                        else param_start
    let current_param' := if b = 32 ∧ ¬last_param then current_param + 1 else current_param
    let last_param' := if ¬(b = 32 ∧ ¬last_param) ∧ (b = 58 ∧ (previous_byte = 32 ∨ index = 0))
                       then true else last_param
    if param_started' ∧ current_param' = target_index + 2 then
      (current_param', param_started', param_start', index, last_param')
    else paramExtractLoop bytes target_index (index + 1) rest' current_param'
      param_started' param_start' index last_param' b

/-- `Parameters::extract_specific` from src/parameters.rs. The outer `Option`
models panic-freedom (`none` is the `param[0]` panic on an empty slice),
the inner one is the Rust return value. -/
def Parameters.extract_specific (p : Parameters) (target_index : Nat) :
    Option (Option ContentType) :=
  if target_index > p.amount then some none
  else
    let bytes := p.content.as_bytes
    let (_, _, param_start, param_end0, last_param) :=
      paramExtractLoop bytes target_index 0 bytes 1 false 0 0 false 0
    let rest := bytes.drop param_start
    let param_end := param_end0 - param_start
    let param := if last_param then rest else rest.take param_end
    match param with
    | [] => none
    | b :: tail =>
      if b = 58 then some (some (ContentType.new tail))
      else some (some (ContentType.new param))

/-! ## src/source.rs -/

/-- `SourceError` from src/source.rs. -/
inductive SourceError where
  | emptyInput
  | invalidStartingPrefix (b : Byte)
  | invalidByte (b : Byte)
  | invalidNickStartingByte (b : Byte)
  | invalidNickByte (b : Byte)
deriving DecidableEq, Repr

/-- `is_invalid_byte` from src/source.rs: null, LF, CR, space. -/
def Source.is_invalid_byte (input : Byte) : Bool :=
  input = 0 ∨ input = 10 ∨ input = 13 ∨ input = 32

/-- `is_invalid_nick_starting_byte` from src/source.rs: `$` and `:`. -/
def is_invalid_nick_starting_byte (input : Byte) : Bool :=
  input = 36 ∨ input = 58

/-- `invalid_nick_byte` from src/source.rs: first of space `!` `*` `,` `?` `@`. -/
def invalid_nick_byte : List Byte → Option Byte
  | [] => none
  | b :: rest =>
    if b = 32 ∨ b = 33 ∨ b = 42 ∨ b = 44 ∨ b = 63 ∨ b = 64 then some b
    else invalid_nick_byte rest

/-- `Servername` from src/source.rs. -/
structure Servername where
  content : ContentType
deriving DecidableEq, Repr

/-- `Nickname` from src/source.rs. -/
structure Nickname where
  nick : ContentType
  user : Option ContentType
  host : Option ContentType
deriving DecidableEq, Repr

/-- `Origin` from src/source.rs. -/
inductive Origin where
  | servername (s : Servername)
  | nickname (n : Nickname)
deriving DecidableEq, Repr

/-- `Origin::is_valid_utf8` from src/source.rs. -/
def Origin.is_valid_utf8 : Origin → Bool
  | .servername s => s.content.is_valid_utf8
  | .nickname n =>
    let valid_user := match n.user with | some u => u.is_valid_utf8 | none => true
    let valid_host := match n.host with | some h => h.is_valid_utf8 | none => true
    n.nick.is_valid_utf8 && valid_user && valid_host

/-- `Source` from src/source.rs; the Rust field `prefix` (always `:`) is named
`prefixChar` because `prefix` is a Lean keyword. -/
structure Source where
  prefixChar : Byte
  origin : Origin
deriving DecidableEq, Repr

/-- The marker-scanning loop of `Source::parse`, computing
(nick_end, user_end, probably_servername, userPfx, hostPfx);
`rest = input.drop index`. -/
def srcScanLoop (input : List Byte) (index : Nat) (rest : List Byte)
    (nick_end user_end : Nat) (probably_servername userPfx hostPfx : Bool) :
    Except SourceError (Nat × Nat × Bool × Bool × Bool) :=
  match rest with
  | [] => .ok (nick_end, user_end, probably_servername, userPfx, hostPfx)
  | b :: rest' =>
    if Source.is_invalid_byte b then .error (.invalidByte b)
    else if b = 33 then
      srcScanLoop input (index + 1) rest' (index - 1) user_end probably_servername true hostPfx
    else if b = 64 ∧ userPfx then
      srcScanLoop input (index + 1) rest' nick_end (index - nick_end - 2) probably_servername userPfx true
    else if b = 64 ∧ ¬userPfx then
      srcScanLoop input (index + 1) rest' (index - 1) user_end probably_servername userPfx true
    else if b = 46 ∧ ¬userPfx ∧ ¬hostPfx then
      srcScanLoop input (index + 1) rest' nick_end user_end true userPfx hostPfx
    else srcScanLoop input (index + 1) rest' nick_end user_end probably_servername userPfx hostPfx

/-- `Source::parse` from src/source.rs. -/
def Source.parse (input : List Byte) : Except SourceError Source :=
  if input = [] then .error .emptyInput
  else if input.getD 0 0 ≠ 58 then .error (.invalidStartingPrefix (input.getD 0 0))
  else
    match srcScanLoop input 0 input 0 0 false false false with
    | .error e => .error e
    | .ok (nick_end, user_end, probably_servername, userPfx, hostPfx) =>
      let inp := input.drop 1
      if probably_servername then
        .ok ⟨58, .servername ⟨ContentType.new inp⟩⟩
      else if userPfx ∧ hostPfx then
        let nick := inp.take nick_end
        let rest := inp.drop nick_end
        if nick = [] then .error (.invalidNickByte 33)
        else if is_invalid_nick_starting_byte (nick.getD 0 0) then
          .error (.invalidNickStartingByte (nick.getD 0 0))
        else
          match invalid_nick_byte nick with
          | some byte => .error (.invalidNickByte byte)
          | none =>
            let rest2 := rest.drop 1
            let u := rest2.take user_end
            let rest3 := rest2.drop user_end
            if u = [] then .error (.invalidNickByte 33)
            else
              let rest4 := rest3.drop 1
              if rest4 = [] then .error (.invalidNickByte 64)
              else .ok ⟨58, .nickname ⟨ContentType.new nick, some (ContentType.new u),
                                        some (ContentType.new rest4)⟩⟩
      else if userPfx then
        let nick := inp.take nick_end
        let rest := inp.drop nick_end
        if nick = [] then .error (.invalidNickByte 33)
        else if is_invalid_nick_starting_byte (nick.getD 0 0) then
          .error (.invalidNickStartingByte (nick.getD 0 0))
        else
          match invalid_nick_byte nick with
          | some byte => .error (.invalidNickByte byte)
          | none =>
            let rest2 := rest.drop 1
            if rest2 = [] then .error (.invalidNickByte 33)
            else .ok ⟨58, .nickname ⟨ContentType.new nick, some (ContentType.new rest2), none⟩⟩
      else if hostPfx then
        let nick := inp.take nick_end
        let rest := inp.drop nick_end
        if nick = [] then .error (.invalidNickByte 64)
        else if is_invalid_nick_starting_byte (nick.getD 0 0) then
          .error (.invalidNickStartingByte (nick.getD 0 0))
        else
          match invalid_nick_byte nick with
          | some byte => .error (.invalidNickByte byte)
          | none =>
            let rest2 := rest.drop 1
            if rest2 = [] then .error (.invalidNickByte 64)
            else .ok ⟨58, .nickname ⟨ContentType.new nick, none, some (ContentType.new rest2)⟩⟩
      else
        if is_invalid_nick_starting_byte (inp.getD 0 0) then
          .error (.invalidNickStartingByte (inp.getD 0 0))
        else
          match invalid_nick_byte inp with
          | some byte => .error (.invalidNickByte byte)
          | none => .ok ⟨58, .nickname ⟨ContentType.new inp, none, none⟩⟩

/-- `Display for Nickname` (src/source.rs): nick, then `!user` and `@host`
as present, every `ContentType` through its own `Display`. -/
def Nickname.render (n : Nickname) : List Byte :=
  match n.user, n.host with
  | some u, some h => n.nick.render ++ 33 :: u.render ++ 64 :: h.render
  | some u, none => n.nick.render ++ 33 :: u.render
  | none, some h => n.nick.render ++ 64 :: h.render
  | none, none => n.nick.render

/-- `Display for Origin` (src/source.rs). -/
def Origin.render : Origin → List Byte
  | .servername s => s.content.render
  | .nickname n => n.render

/-- `Display for Source` (src/source.rs): the prefix `:` then the origin. -/
def Source.render (s : Source) : List Byte :=
  s.prefixChar :: s.origin.render

/-! ## src/command.rs -/

/-- `Command` from src/command.rs (the `&str` payloads as UTF-8 byte lists). -/
inductive Command where
  | named (s : List Byte)
  | numeric (s : List Byte)
deriving DecidableEq, Repr

/-- `CommandError` from src/command.rs. -/
inductive CommandError where
  | emptyInput
  | invalidByte (b : Byte)
  | numberInNamedCommand (s : List Byte)
  | minimumArgsRequired (min : Nat) (s : List Byte)
  | unhandledNumeric (s : List Byte)
  | unhandledNamed (s : List Byte)
deriving DecidableEq, Repr

/-- `is_invalid_char` from src/command.rs. -/
def is_invalid_char (input : Byte) : Bool := ¬isAsciiAlphanumeric input

/-- The validation loop at the start of `Command::parse`: rejects the first
non-alphanumeric byte and otherwise counts ASCII digits. -/
def cmdScanLoop : List Byte → Nat → Except CommandError Nat
  | [], number_count => .ok number_count
  | b :: rest, number_count =>
    if is_invalid_char b then .error (.invalidByte b)
    else if isAsciiDigit b then cmdScanLoop rest (number_count + 1)
    else cmdScanLoop rest number_count

/-- The closed numeric command table of Command.parse: 3-digit code bytes and minimum parameter count, transcribed from the numeric match in src/command.rs. -/
def numericTable : List (List Nat × Nat) := [
  ([48, 48, 54], 1),  -- 006
  ([48, 48, 55], 1),  -- 007
  ([48, 48, 56], 1),  -- 008
  ([48, 48, 57], 1),  -- 009
  ([48, 49, 52], 1),  -- 014
  ([48, 49, 53], 1),  -- 015
  ([48, 49, 54], 1),  -- 016
  ([48, 49, 55], 1),  -- 017
  ([48, 51, 48], 1),  -- 030
  ([48, 51, 49], 1),  -- 031
  ([48, 51, 50], 1),  -- 032
  ([48, 52, 50], 1),  -- 042
  ([48, 53, 48], 1),  -- 050
  ([48, 53, 49], 1),  -- 051
  ([50, 49, 48], 1),  -- 210
  ([50, 49, 55], 1),  -- 217
  ([50, 50, 48], 1),  -- 220
  ([50, 50, 50], 1),  -- 222
  ([50, 50, 51], 1),  -- 223
  ([50, 50, 52], 1),  -- 224
  ([50, 50, 53], 1),  -- 225
  ([50, 50, 54], 1),  -- 226
  ([50, 50, 55], 1),  -- 227
  ([50, 50, 56], 1),  -- 228
  ([50, 50, 57], 1),  -- 229
  ([50, 51, 48], 1),  -- 230
  ([50, 51, 49], 1),  -- 231
  ([50, 51, 50], 1),  -- 232
  ([50, 51, 51], 1),  -- 233
  ([50, 51, 54], 1),  -- 236
  ([50, 51, 55], 1),  -- 237
  ([50, 51, 56], 1),  -- 238
  ([50, 51, 57], 1),  -- 239
  ([50, 52, 48], 1),  -- 240
  ([50, 52, 53], 1),  -- 245
  ([50, 52, 54], 1),  -- 246
  ([50, 52, 55], 1),  -- 247
  ([50, 52, 56], 1),  -- 248
  ([50, 52, 57], 1),  -- 249
  ([50, 53, 48], 1),  -- 250
  ([50, 54, 52], 1),  -- 264
  ([50, 54, 55], 1),  -- 267
  ([50, 54, 56], 1),  -- 268
  ([50, 54, 57], 1),  -- 269
  ([50, 55, 48], 1),  -- 270
  ([50, 55, 51], 1),  -- 273
  ([50, 55, 52], 1),  -- 274
  ([50, 55, 53], 1),  -- 275
  ([50, 55, 55], 1),  -- 277
  ([50, 55, 56], 1),  -- 278
  ([50, 56, 48], 1),  -- 280
  ([50, 56, 51], 1),  -- 283
  ([50, 56, 52], 1),  -- 284
  ([50, 56, 53], 1),  -- 285
  ([50, 56, 54], 1),  -- 286
  ([50, 56, 55], 1),  -- 287
  ([50, 56, 56], 1),  -- 288
  ([50, 56, 57], 1),  -- 289
  ([50, 57, 48], 1),  -- 290
  ([50, 57, 49], 1),  -- 291
  ([50, 57, 50], 1),  -- 292
  ([50, 57, 51], 1),  -- 293
  ([50, 57, 52], 1),  -- 294
  ([50, 57, 53], 1),  -- 295
  ([50, 57, 54], 1),  -- 296
  ([50, 57, 57], 1),  -- 299
  ([51, 48, 48], 1),  -- 300
  ([51, 48, 50], 1),  -- 302
  ([51, 48, 51], 1),  -- 303
  ([51, 48, 56], 1),  -- 308
  ([51, 48, 57], 1),  -- 309
  ([51, 49, 48], 1),  -- 310
  ([51, 49, 54], 1),  -- 316
  ([51, 50, 54], 1),  -- 326
  ([51, 50, 55], 1),  -- 327
  ([51, 50, 56], 1),  -- 328
  ([51, 51, 52], 1),  -- 334
  ([51, 51, 57], 1),  -- 339
  ([51, 52, 51], 1),  -- 343
  ([51, 52, 52], 1),  -- 344
  ([51, 52, 53], 1),  -- 345
  ([51, 53, 53], 1),  -- 355
  ([51, 53, 55], 1),  -- 357
  ([51, 53, 56], 1),  -- 358
  ([51, 53, 57], 1),  -- 359
  ([51, 54, 48], 1),  -- 360
  ([51, 54, 49], 1),  -- 361
  ([51, 54, 50], 1),  -- 362
  ([51, 54, 51], 1),  -- 363
  ([51, 55, 51], 1),  -- 373
  ([51, 55, 55], 1),  -- 377
  ([51, 56, 48], 1),  -- 380
  ([51, 56, 51], 1),  -- 383
  ([51, 56, 52], 1),  -- 384
  ([51, 56, 53], 1),  -- 385
  ([51, 56, 54], 1),  -- 386
  ([51, 56, 55], 1),  -- 387
  ([51, 56, 56], 1),  -- 388
  ([51, 56, 57], 1),  -- 389
  ([51, 57, 56], 1),  -- 398
  ([51, 57, 57], 1),  -- 399
  ([52, 49, 57], 1),  -- 419
  ([52, 50, 53], 1),  -- 425
  ([52, 50, 57], 1),  -- 429
  ([52, 51, 48], 1),  -- 430
  ([52, 51, 52], 1),  -- 434
  ([52, 51, 53], 1),  -- 435
  ([52, 51, 56], 1),  -- 438
  ([52, 51, 57], 1),  -- 439
  ([52, 52, 48], 1),  -- 440
  ([52, 52, 55], 1),  -- 447
  ([52, 52, 57], 1),  -- 449
  ([52, 53, 50], 1),  -- 452
  ([52, 53, 51], 1),  -- 453
  ([52, 53, 53], 1),  -- 455
  ([52, 53, 57], 1),  -- 459
  ([52, 54, 48], 1),  -- 460
  ([52, 54, 54], 1),  -- 466
  ([52, 54, 56], 1),  -- 468
  ([52, 54, 57], 1),  -- 469
  ([52, 55, 48], 1),  -- 470
  ([52, 55, 57], 1),  -- 479
  ([52, 56, 48], 1),  -- 480
  ([52, 56, 54], 1),  -- 486
  ([52, 56, 55], 1),  -- 487
  ([52, 56, 56], 1),  -- 488
  ([52, 56, 57], 1),  -- 489
  ([52, 57, 48], 1),  -- 490
  ([52, 57, 50], 1),  -- 492
  ([52, 57, 51], 1),  -- 493
  ([52, 57, 52], 1),  -- 494
  ([52, 57, 53], 1),  -- 495
  ([52, 57, 54], 1),  -- 496
  ([52, 57, 55], 1),  -- 497
  ([52, 57, 56], 1),  -- 498
  ([52, 57, 57], 1),  -- 499
  ([53, 48, 48], 1),  -- 500
  ([53, 48, 52], 1),  -- 504
  ([53, 48, 53], 1),  -- 505
  ([53, 49, 50], 1),  -- 512
  ([53, 49, 51], 1),  -- 513
  ([53, 49, 52], 1),  -- 514
  ([53, 49, 53], 1),  -- 515
  ([53, 49, 54], 1),  -- 516
  ([53, 49, 56], 1),  -- 518
  ([53, 49, 57], 1),  -- 519
  ([53, 50, 48], 1),  -- 520
  ([53, 50, 49], 1),  -- 521
  ([53, 50, 50], 1),  -- 522
  ([53, 50, 52], 1),  -- 524
  ([53, 50, 53], 1),  -- 525
  ([53, 51, 48], 1),  -- 530
  ([53, 53, 48], 1),  -- 550
  ([53, 53, 49], 1),  -- 551
  ([53, 53, 50], 1),  -- 552
  ([53, 53, 51], 1),  -- 553
  ([53, 54, 48], 1),  -- 560
  ([53, 54, 49], 1),  -- 561
  ([53, 54, 50], 1),  -- 562
  ([53, 54, 51], 1),  -- 563
  ([53, 54, 52], 1),  -- 564
  ([53, 54, 53], 1),  -- 565
  ([53, 54, 54], 1),  -- 566
  ([53, 54, 55], 1),  -- 567
  ([53, 54, 56], 1),  -- 568
  ([53, 55, 51], 1),  -- 573
  ([53, 57, 55], 1),  -- 597
  ([54, 48, 51], 1),  -- 603
  ([54, 48, 54], 1),  -- 606
  ([54, 48, 55], 1),  -- 607
  ([54, 48, 56], 1),  -- 608
  ([54, 49, 48], 1),  -- 610
  ([54, 49, 49], 1),  -- 611
  ([54, 49, 50], 1),  -- 612
  ([54, 49, 51], 1),  -- 613
  ([54, 49, 53], 1),  -- 615
  ([54, 49, 54], 1),  -- 616
  ([54, 49, 55], 1),  -- 617
  ([54, 49, 56], 1),  -- 618
  ([54, 49, 57], 1),  -- 619
  ([54, 50, 48], 1),  -- 620
  ([54, 50, 49], 1),  -- 621
  ([54, 50, 50], 1),  -- 622
  ([54, 50, 51], 1),  -- 623
  ([54, 50, 52], 1),  -- 624
  ([54, 50, 53], 1),  -- 625
  ([54, 50, 54], 1),  -- 626
  ([54, 51, 48], 1),  -- 630
  ([54, 51, 49], 1),  -- 631
  ([54, 52, 48], 1),  -- 640
  ([54, 52, 49], 1),  -- 641
  ([54, 52, 50], 1),  -- 642
  ([54, 56, 55], 1),  -- 687
  ([55, 50, 55], 1),  -- 727
  ([55, 50, 56], 1),  -- 728
  ([55, 52, 52], 1),  -- 744
  ([55, 54, 50], 1),  -- 762
  ([55, 55, 49], 1),  -- 771
  ([55, 55, 51], 1),  -- 773
  ([55, 55, 52], 1),  -- 774
  ([56, 48, 50], 1),  -- 802
  ([57, 55, 53], 1),  -- 975
  ([57, 56, 49], 1),  -- 981
  ([57, 56, 50], 1),  -- 982
  ([57, 57, 57], 1),  -- 999
  ([48, 48, 49], 2),  -- 001
  ([48, 48, 50], 2),  -- 002
  ([48, 48, 51], 2),  -- 003
  ([48, 48, 53], 2),  -- 005
  ([48, 49, 56], 2),  -- 018
  ([48, 50, 48], 2),  -- 020
  ([49, 48, 53], 2),  -- 105
  ([50, 48, 51], 2),  -- 203
  ([50, 50, 49], 2),  -- 221
  ([50, 52, 50], 2),  -- 242
  ([50, 53, 49], 2),  -- 251
  ([50, 53, 53], 2),  -- 255
  ([50, 53, 54], 2),  -- 256
  ([50, 53, 55], 2),  -- 257
  ([50, 53, 56], 2),  -- 258
  ([50, 53, 57], 2),  -- 259
  ([50, 54, 53], 2),  -- 265
  ([50, 54, 54], 2),  -- 266
  ([50, 55, 49], 2),  -- 271
  ([50, 55, 50], 2),  -- 272
  ([50, 56, 49], 2),  -- 281
  ([50, 56, 50], 2),  -- 282
  ([51, 48, 52], 2),  -- 304
  ([51, 48, 53], 2),  -- 305
  ([51, 48, 54], 2),  -- 306
  ([51, 50, 49], 2),  -- 321
  ([51, 50, 51], 2),  -- 323
  ([51, 51, 54], 2),  -- 336
  ([51, 51, 55], 2),  -- 337
  ([51, 52, 48], 2),  -- 340
  ([51, 53, 52], 2),  -- 354
  ([51, 55, 49], 2),  -- 371
  ([51, 55, 50], 2),  -- 372
  ([51, 55, 52], 2),  -- 374
  ([51, 55, 53], 2),  -- 375
  ([51, 55, 54], 2),  -- 376
  ([51, 56, 49], 2),  -- 381
  ([51, 57, 50], 2),  -- 392
  ([51, 57, 51], 2),  -- 393
  ([51, 57, 52], 2),  -- 394
  ([51, 57, 53], 2),  -- 395
  ([52, 48, 54], 2),  -- 406
  ([52, 48, 57], 2),  -- 409
  ([52, 49, 48], 2),  -- 410
  ([52, 49, 49], 2),  -- 411
  ([52, 49, 50], 2),  -- 412
  ([52, 49, 55], 2),  -- 417
  ([52, 50, 48], 2),  -- 420
  ([52, 50, 50], 2),  -- 422
  ([52, 50, 52], 2),  -- 424
  ([52, 51, 49], 2),  -- 431
  ([52, 51, 54], 2),  -- 436
  ([52, 52, 53], 2),  -- 445
  ([52, 52, 54], 2),  -- 446
  ([52, 52, 56], 2),  -- 448
  ([52, 53, 49], 2),  -- 451
  ([52, 53, 54], 2),  -- 456
  ([52, 54, 50], 2),  -- 462
  ([52, 54, 51], 2),  -- 463
  ([52, 54, 52], 2),  -- 464
  ([52, 54, 53], 2),  -- 465
  ([52, 56, 49], 2),  -- 481
  ([52, 56, 51], 2),  -- 483
  ([52, 56, 52], 2),  -- 484
  ([52, 56, 53], 2),  -- 485
  ([52, 57, 49], 2),  -- 491
  ([53, 48, 49], 2),  -- 501
  ([53, 48, 50], 2),  -- 502
  ([53, 48, 51], 2),  -- 503
  ([53, 49, 49], 2),  -- 511
  ([53, 50, 51], 2),  -- 523
  ([53, 50, 54], 2),  -- 526
  ([54, 53, 51], 2),  -- 653
  ([54, 55, 48], 2),  -- 670
  ([54, 55, 50], 2),  -- 672
  ([54, 55, 51], 2),  -- 673
  ([54, 55, 52], 2),  -- 674
  ([54, 57, 48], 2),  -- 690
  ([54, 57, 49], 2),  -- 691
  ([55, 48, 48], 2),  -- 700
  ([55, 48, 49], 2),  -- 701
  ([55, 48, 50], 2),  -- 702
  ([55, 48, 51], 2),  -- 703
  ([55, 49, 53], 2),  -- 715
  ([55, 49, 54], 2),  -- 716
  ([55, 49, 55], 2),  -- 717
  ([55, 50, 48], 2),  -- 720
  ([55, 50, 49], 2),  -- 721
  ([55, 50, 50], 2),  -- 722
  ([55, 51, 48], 2),  -- 730
  ([55, 51, 49], 2),  -- 731
  ([55, 51, 50], 2),  -- 732
  ([55, 51, 51], 2),  -- 733
  ([55, 52, 48], 2),  -- 740
  ([55, 52, 49], 2),  -- 741
  ([55, 53, 48], 2),  -- 750
  ([55, 53, 57], 2),  -- 759
  ([55, 54, 52], 2),  -- 764
  ([55, 54, 53], 2),  -- 765
  ([55, 54, 55], 2),  -- 767
  ([57, 48, 50], 2),  -- 902
  ([57, 48, 51], 2),  -- 903
  ([57, 48, 52], 2),  -- 904
  ([57, 48, 53], 2),  -- 905
  ([57, 48, 54], 2),  -- 906
  ([57, 48, 55], 2),  -- 907
  ([57, 52, 52], 2),  -- 944
  ([57, 52, 56], 2),  -- 948
  ([57, 54, 49], 2),  -- 961
  ([57, 57, 48], 2),  -- 990
  ([57, 57, 50], 2),  -- 992
  ([57, 57, 56], 2),  -- 998
  ([48, 52, 51], 3),  -- 043
  ([50, 48, 48], 3),  -- 200
  ([50, 48, 49], 3),  -- 201
  ([50, 48, 50], 3),  -- 202
  ([50, 48, 52], 3),  -- 204
  ([50, 48, 53], 3),  -- 205
  ([50, 48, 56], 3),  -- 208
  ([50, 48, 57], 3),  -- 209
  ([50, 49, 50], 3),  -- 212
  ([50, 49, 57], 3),  -- 219
  ([50, 53, 50], 3),  -- 252
  ([50, 53, 51], 3),  -- 253
  ([50, 53, 52], 3),  -- 254
  ([50, 54, 49], 3),  -- 261
  ([50, 54, 51], 3),  -- 263
  ([50, 55, 54], 3),  -- 276
  ([51, 48, 49], 3),  -- 301
  ([51, 48, 55], 3),  -- 307
  ([51, 49, 51], 3),  -- 313
  ([51, 49, 53], 3),  -- 315
  ([51, 49, 56], 3),  -- 318
  ([51, 49, 57], 3),  -- 319
  ([51, 50, 48], 3),  -- 320
  ([51, 50, 52], 3),  -- 324
  ([51, 50, 53], 3),  -- 325
  ([51, 50, 57], 3),  -- 329
  ([51, 51, 49], 3),  -- 331
  ([51, 51, 50], 3),  -- 332
  ([51, 51, 51], 3),  -- 333
  ([51, 51, 53], 3),  -- 335
  ([51, 51, 56], 3),  -- 338
  ([51, 52, 49], 3),  -- 341
  ([51, 52, 50], 3),  -- 342
  ([51, 52, 54], 3),  -- 346
  ([51, 52, 55], 3),  -- 347
  ([51, 52, 56], 3),  -- 348
  ([51, 52, 57], 3),  -- 349
  ([51, 54, 53], 3),  -- 365
  ([51, 54, 54], 3),  -- 366
  ([51, 54, 55], 3),  -- 367
  ([51, 54, 56], 3),  -- 368
  ([51, 54, 57], 3),  -- 369
  ([51, 55, 56], 3),  -- 378
  ([51, 55, 57], 3),  -- 379
  ([51, 56, 50], 3),  -- 382
  ([51, 57, 49], 3),  -- 391
  ([51, 57, 54], 3),  -- 396
  ([52, 48, 48], 3),  -- 400
  ([52, 48, 49], 3),  -- 401
  ([52, 48, 50], 3),  -- 402
  ([52, 48, 51], 3),  -- 403
  ([52, 48, 52], 3),  -- 404
  ([52, 48, 53], 3),  -- 405
  ([52, 48, 55], 3),  -- 407
  ([52, 48, 56], 3),  -- 408
  ([52, 49, 51], 3),  -- 413
  ([52, 49, 52], 3),  -- 414
  ([52, 49, 53], 3),  -- 415
  ([52, 49, 54], 3),  -- 416
  ([52, 50, 49], 3),  -- 421
  ([52, 50, 51], 3),  -- 423
  ([52, 51, 50], 3),  -- 432
  ([52, 51, 51], 3),  -- 433
  ([52, 51, 55], 3),  -- 437
  ([52, 52, 50], 3),  -- 442
  ([52, 52, 52], 3),  -- 444
  ([52, 53, 55], 3),  -- 457
  ([52, 53, 56], 3),  -- 458
  ([52, 54, 49], 3),  -- 461
  ([52, 54, 55], 3),  -- 467
  ([52, 55, 49], 3),  -- 471
  ([52, 55, 50], 3),  -- 472
  ([52, 55, 51], 3),  -- 473
  ([52, 55, 52], 3),  -- 474
  ([52, 55, 53], 3),  -- 475
  ([52, 55, 54], 3),  -- 476
  ([52, 55, 55], 3),  -- 477
  ([52, 55, 56], 3),  -- 478
  ([52, 56, 50], 3),  -- 482
  ([53, 49, 55], 3),  -- 517
  ([53, 51, 49], 3),  -- 531
  ([54, 53, 48], 3),  -- 650
  ([54, 53, 49], 3),  -- 651
  ([54, 53, 50], 3),  -- 652
  ([54, 53, 57], 3),  -- 659
  ([54, 55, 49], 3),  -- 671
  ([55, 48, 52], 3),  -- 704
  ([55, 48, 53], 3),  -- 705
  ([55, 48, 54], 3),  -- 706
  ([55, 48, 55], 3),  -- 707
  ([55, 49, 48], 3),  -- 710
  ([55, 49, 49], 3),  -- 711
  ([55, 49, 50], 3),  -- 712
  ([55, 49, 51], 3),  -- 713
  ([55, 49, 52], 3),  -- 714
  ([55, 49, 56], 3),  -- 718
  ([55, 50, 51], 3),  -- 723
  ([55, 50, 54], 3),  -- 726
  ([55, 54, 49], 3),  -- 761
  ([55, 54, 54], 3),  -- 766
  ([55, 54, 56], 3),  -- 768
  ([55, 54, 57], 3),  -- 769
  ([56, 48, 49], 3),  -- 801
  ([57, 48, 49], 3),  -- 901
  ([57, 48, 56], 3),  -- 908
  ([57, 49, 48], 3),  -- 910
  ([57, 49, 49], 3),  -- 911
  ([57, 50, 54], 3),  -- 926
  ([57, 51, 55], 3),  -- 937
  ([57, 51, 56], 3),  -- 938
  ([57, 51, 57], 3),  -- 939
  ([57, 52, 48], 3),  -- 940
  ([57, 52, 50], 3),  -- 942
  ([57, 52, 53], 3),  -- 945
  ([57, 52, 54], 3),  -- 946
  ([57, 52, 55], 3),  -- 947
  ([57, 53, 48], 3),  -- 950
  ([57, 53, 49], 3),  -- 951
  ([57, 53, 50], 3),  -- 952
  ([57, 53, 51], 3),  -- 953
  ([57, 54, 48], 3),  -- 960
  ([57, 55, 50], 3),  -- 972
  ([57, 55, 51], 3),  -- 973
  ([57, 55, 52], 3),  -- 974
  ([57, 56, 56], 3),  -- 988
  ([57, 56, 57], 3),  -- 989
  ([57, 57, 49], 3),  -- 991
  ([57, 57, 51], 3),  -- 993
  ([57, 57, 52], 3),  -- 994
  ([57, 57, 53], 3),  -- 995
  ([57, 57, 54], 3),  -- 996
  ([57, 57, 55], 3),  -- 997
  ([48, 49, 48], 4),  -- 010
  ([50, 51, 53], 4),  -- 235
  ([50, 54, 50], 4),  -- 262
  ([51, 49, 50], 4),  -- 312
  ([51, 50, 50], 4),  -- 322
  ([51, 51, 48], 4),  -- 330
  ([51, 53, 48], 4),  -- 350
  ([51, 53, 49], 4),  -- 351
  ([51, 53, 51], 4),  -- 353
  ([51, 54, 52], 4),  -- 364
  ([52, 52, 49], 4),  -- 441
  ([52, 52, 51], 4),  -- 443
  ([53, 54, 57], 4),  -- 569
  ([55, 50, 57], 4),  -- 729
  ([55, 51, 52], 4),  -- 734
  ([55, 52, 50], 4),  -- 742
  ([55, 52, 51], 4),  -- 743
  ([55, 54, 48], 4),  -- 760
  ([56, 48, 51], 4),  -- 803
  ([56, 48, 52], 4),  -- 804
  ([57, 48, 48], 4),  -- 900
  ([57, 51, 54], 4),  -- 936
  ([48, 48, 52], 5),  -- 004
  ([50, 48, 54], 5),  -- 206
  ([50, 48, 55], 5),  -- 207
  ([50, 52, 52], 5),  -- 244
  ([51, 49, 55], 5),  -- 317
  ([53, 57, 56], 5),  -- 598
  ([53, 57, 57], 5),  -- 599
  ([54, 48, 48], 5),  -- 600
  ([54, 48, 49], 5),  -- 601
  ([54, 48, 50], 5),  -- 602
  ([54, 48, 52], 5),  -- 604
  ([54, 48, 53], 5),  -- 605
  ([54, 48, 57], 5),  -- 609
  ([54, 57, 54], 5),  -- 696
  ([54, 57, 55], 5),  -- 697
  ([54, 57, 56], 5),  -- 698
  ([55, 50, 52], 5),  -- 724
  ([55, 50, 53], 5),  -- 725
  ([57, 52, 49], 5),  -- 941
  ([57, 53, 52], 5),  -- 954
  ([50, 49, 56], 6),  -- 218
  ([50, 52, 49], 6),  -- 241
  ([50, 52, 51], 6),  -- 243
  ([51, 49, 49], 6),  -- 311
  ([51, 49, 52], 6),  -- 314
  ([50, 49, 51], 7),  -- 213
  ([50, 49, 52], 7),  -- 214
  ([50, 49, 53], 7),  -- 215
  ([50, 49, 54], 7),  -- 216
  ([50, 51, 52], 7),  -- 234
  ([55, 48, 57], 7),  -- 709
  ([55, 53, 49], 7),  -- 751
  ([50, 49, 49], 8),  -- 211
  ([51, 53, 50], 8),  -- 352
  ([55, 48, 56], 8)  -- 708
  ]

/-- The named command table of Command.parse: 12-byte uppercase zero-padded key, canonical spelling bytes and minimum parameter count, transcribed from the named match in src/command.rs. -/
def namedTable : List (List Nat × List Nat × Nat) := [
  ([73, 78, 70, 79, 48, 48, 48, 48, 48, 48, 48, 48], [73, 78, 70, 79], 0),  -- INFO
  ([76, 85, 83, 69, 82, 83, 48, 48, 48, 48, 48, 48], [76, 85, 83, 69, 82, 83], 0),  -- LUSERS
  ([82, 69, 72, 65, 83, 72, 48, 48, 48, 48, 48, 48], [82, 69, 72, 65, 83, 72], 0),  -- REHASH
  ([82, 69, 83, 84, 65, 82, 84, 48, 48, 48, 48, 48], [82, 69, 83, 84, 65, 82, 84], 0),  -- RESTART
  ([76, 73, 78, 75, 83, 48, 48, 48, 48, 48, 48, 48], [76, 73, 78, 75, 83], 0),  -- LINKS
  ([81, 85, 73, 84, 48, 48, 48, 48, 48, 48, 48, 48], [81, 85, 73, 84], 0),  -- QUIT
  ([77, 79, 84, 68, 48, 48, 48, 48, 48, 48, 48, 48], [77, 79, 84, 68], 0),  -- MOTD
  ([86, 69, 82, 83, 73, 79, 78, 48, 48, 48, 48, 48], [86, 69, 82, 83, 73, 79, 78], 0),  -- VERSION
  ([65, 68, 77, 73, 78, 48, 48, 48, 48, 48, 48, 48], [65, 68, 77, 73, 78], 0),  -- ADMIN
  ([84, 73, 77, 69, 48, 48, 48, 48, 48, 48, 48, 48], [84, 73, 77, 69], 0),  -- TIME
  ([72, 69, 76, 80, 48, 48, 48, 48, 48, 48, 48, 48], [72, 69, 76, 80], 0),  -- HELP
  ([65, 87, 65, 89, 48, 48, 48, 48, 48, 48, 48, 48], [65, 87, 65, 89], 0),  -- AWAY
  ([76, 73, 83, 84, 48, 48, 48, 48, 48, 48, 48, 48], [76, 73, 83, 84], 0),  -- LIST
  ([65, 67, 75, 48, 48, 48, 48, 48, 48, 48, 48, 48], [65, 67, 75], 0),  -- ACK
  ([65, 67, 67, 69, 80, 84, 48, 48, 48, 48, 48, 48], [65, 67, 67, 69, 80, 84], 0),  -- ACCEPT
  ([83, 73, 76, 69, 78, 67, 69, 48, 48, 48, 48, 48], [83, 73, 76, 69, 78, 67, 69], 0),  -- SILENCE
  ([68, 73, 69, 48, 48, 48, 48, 48, 48, 48, 48, 48], [68, 73, 69], 0),  -- DIE
  ([84, 82, 65, 67, 69, 48, 48, 48, 48, 48, 48, 48], [84, 82, 65, 67, 69], 0),  -- TRACE
  ([69, 84, 82, 65, 67, 69, 48, 48, 48, 48, 48, 48], [69, 84, 82, 65, 67, 69], 0),  -- ETRACE
  ([83, 69, 82, 86, 76, 73, 83, 84, 48, 48, 48, 48], [83, 69, 82, 86, 76, 73, 83, 84], 0),  -- SERVLIST
  ([85, 83, 69, 82, 83, 48, 48, 48, 48, 48, 48, 48], [85, 83, 69, 82, 83], 0),  -- USERS
  ([77, 65, 80, 48, 48, 48, 48, 48, 48, 48, 48, 48], [77, 65, 80], 0),  -- MAP
  ([80, 65, 83, 83, 48, 48, 48, 48, 48, 48, 48, 48], [80, 65, 83, 83], 1),  -- PASS
  ([78, 73, 67, 75, 48, 48, 48, 48, 48, 48, 48, 48], [78, 73, 67, 75], 1),  -- NICK
  ([80, 73, 78, 71, 48, 48, 48, 48, 48, 48, 48, 48], [80, 73, 78, 71], 1),  -- PING
  ([69, 82, 82, 79, 82, 48, 48, 48, 48, 48, 48, 48], [69, 82, 82, 79, 82], 1),  -- ERROR
  ([78, 65, 77, 69, 83, 48, 48, 48, 48, 48, 48, 48], [78, 65, 77, 69, 83], 1),  -- NAMES
  ([87, 72, 79, 48, 48, 48, 48, 48, 48, 48, 48, 48], [87, 72, 79], 1),  -- WHO
  ([87, 65, 76, 76, 79, 80, 83, 48, 48, 48, 48, 48], [87, 65, 76, 76, 79, 80, 83], 1),  -- WALLOPS
  ([65, 85, 84, 72, 69, 78, 84, 73, 67, 65, 84, 69], [65, 85, 84, 72, 69, 78, 84, 73, 67, 65, 84, 69], 1),  -- AUTHENTICATE
  ([65, 67, 67, 79, 85, 78, 84, 48, 48, 48, 48, 48], [65, 67, 67, 79, 85, 78, 84], 1),  -- ACCOUNT
  ([67, 65, 80, 48, 48, 48, 48, 48, 48, 48, 48, 48], [67, 65, 80], 1),  -- CAP
  ([77, 79, 68, 69, 48, 48, 48, 48, 48, 48, 48, 48], [77, 79, 68, 69], 1),  -- MODE
  ([80, 79, 78, 71, 48, 48, 48, 48, 48, 48, 48, 48], [80, 79, 78, 71], 1),  -- PONG
  ([74, 79, 73, 78, 48, 48, 48, 48, 48, 48, 48, 48], [74, 79, 73, 78], 1),  -- JOIN
  ([80, 65, 82, 84, 48, 48, 48, 48, 48, 48, 48, 48], [80, 65, 82, 84], 1),  -- PART
  ([84, 79, 80, 73, 67, 48, 48, 48, 48, 48, 48, 48], [84, 79, 80, 73, 67], 1),  -- TOPIC
  ([83, 84, 65, 84, 83, 48, 48, 48, 48, 48, 48, 48], [83, 84, 65, 84, 83], 1),  -- STATS
  ([87, 72, 79, 73, 83, 48, 48, 48, 48, 48, 48, 48], [87, 72, 79, 73, 83], 1),  -- WHOIS
  ([87, 72, 79, 87, 65, 83, 48, 48, 48, 48, 48, 48], [87, 72, 79, 87, 65, 83], 1),  -- WHOWAS
  ([67, 79, 78, 78, 69, 67, 84, 48, 48, 48, 48, 48], [67, 79, 78, 78, 69, 67, 84], 1),  -- CONNECT
  ([85, 83, 69, 82, 72, 79, 83, 84, 48, 48, 48, 48], [85, 83, 69, 82, 72, 79, 83, 84], 1),  -- USERHOST
  ([84, 65, 71, 77, 83, 71, 48, 48, 48, 48, 48, 48], [84, 65, 71, 77, 83, 71], 1),  -- TAGMSG
  ([66, 65, 84, 67, 72, 48, 48, 48, 48, 48, 48, 48], [66, 65, 84, 67, 72], 1),  -- BATCH
  ([83, 69, 84, 78, 65, 77, 69, 48, 48, 48, 48, 48], [83, 69, 84, 78, 65, 77, 69], 1),  -- SETNAME
  ([77, 79, 78, 73, 84, 79, 82, 48, 48, 48, 48, 48], [77, 79, 78, 73, 84, 79, 82], 1),  -- MONITOR
  ([73, 83, 79, 78, 48, 48, 48, 48, 48, 48, 48, 48], [73, 83, 79, 78], 1),  -- ISON
  ([75, 78, 79, 67, 75, 48, 48, 48, 48, 48, 48, 48], [75, 78, 79, 67, 75], 1),  -- KNOCK
  ([83, 85, 77, 77, 79, 78, 48, 48, 48, 48, 48, 48], [83, 85, 77, 77, 79, 78], 1),  -- SUMMON
  ([85, 83, 69, 82, 73, 80, 48, 48, 48, 48, 48, 48], [85, 83, 69, 82, 73, 80], 1),  -- USERIP
  ([87, 65, 84, 67, 72, 48, 48, 48, 48, 48, 48, 48], [87, 65, 84, 67, 72], 1),  -- WATCH
  ([79, 80, 69, 82, 48, 48, 48, 48, 48, 48, 48, 48], [79, 80, 69, 82], 2),  -- OPER
  ([73, 78, 86, 73, 84, 69, 48, 48, 48, 48, 48, 48], [73, 78, 86, 73, 84, 69], 2),  -- INVITE
  ([80, 82, 73, 86, 77, 83, 71, 48, 48, 48, 48, 48], [80, 82, 73, 86, 77, 83, 71], 2),  -- PRIVMSG
  ([78, 79, 84, 73, 67, 69, 48, 48, 48, 48, 48, 48], [78, 79, 84, 73, 67, 69], 2),  -- NOTICE
  ([75, 73, 76, 76, 48, 48, 48, 48, 48, 48, 48, 48], [75, 73, 76, 76], 2),  -- KILL
  ([83, 81, 85, 73, 84, 48, 48, 48, 48, 48, 48, 48], [83, 81, 85, 73, 84], 2),  -- SQUIT
  ([75, 73, 67, 75, 48, 48, 48, 48, 48, 48, 48, 48], [75, 73, 67, 75], 2),  -- KICK
  ([67, 72, 71, 72, 79, 83, 84, 48, 48, 48, 48, 48], [67, 72, 71, 72, 79, 83, 84], 2),  -- CHGHOST
  ([69, 78, 67, 65, 80, 48, 48, 48, 48, 48, 48, 48], [69, 78, 67, 65, 80], 2),  -- ENCAP
  ([83, 81, 85, 69, 82, 89, 48, 48, 48, 48, 48, 48], [83, 81, 85, 69, 82, 89], 2),  -- SQUERY
  ([77, 69, 84, 65, 68, 65, 84, 65, 48, 48, 48, 48], [77, 69, 84, 65, 68, 65, 84, 65], 2),  -- METADATA
  ([70, 65, 73, 76, 48, 48, 48, 48, 48, 48, 48, 48], [70, 65, 73, 76], 3),  -- FAIL
  ([87, 65, 82, 78, 48, 48, 48, 48, 48, 48, 48, 48], [87, 65, 82, 78], 3),  -- WARN
  ([78, 79, 84, 69, 48, 48, 48, 48, 48, 48, 48, 48], [78, 79, 84, 69], 3),  -- NOTE
  ([67, 80, 82, 73, 86, 77, 83, 71, 48, 48, 48, 48], [67, 80, 82, 73, 86, 77, 83, 71], 3),  -- CPRIVMSG
  ([67, 78, 79, 84, 73, 67, 69, 48, 48, 48, 48, 48], [67, 78, 79, 84, 73, 67, 69], 3),  -- CNOTICE
  ([83, 69, 82, 86, 69, 82, 48, 48, 48, 48, 48, 48], [83, 69, 82, 86, 69, 82], 3),  -- SERVER
  ([85, 83, 69, 82, 48, 48, 48, 48, 48, 48, 48, 48], [85, 83, 69, 82], 4),  -- USER
  ([87, 69, 66, 73, 82, 67, 48, 48, 48, 48, 48, 48], [87, 69, 66, 73, 82, 67], 4),  -- WEBIRC
  ([83, 69, 82, 86, 73, 67, 69, 48, 48, 48, 48, 48], [83, 69, 82, 86, 73, 67, 69], 6)  -- SERVICE
  ]

/-- `command_to_uppercase_bytes` from src/command.rs: uppercases into a
12-byte buffer prefilled with ASCII `0`; writing past the buffer (an input
longer than 12 bytes) is an out-of-bounds panic, modelled by `none`. -/
def command_to_uppercase_bytes (input : List Byte) : Option (List Byte) :=
  if input.length > 12 then none
  else some (input.map toAsciiUppercase ++ List.replicate (12 - input.length) 48)

/-- `Command::parse` from src/command.rs; `none` models a panic. -/
def Command.parse (input : List Byte) (params_amount : Nat) :
    Option (Except CommandError Command) :=
  if input = [] then some (.error .emptyInput)
  else
    match cmdScanLoop input 0 with
    | .error e => some (.error e)
    | .ok number_count =>
      if input.length = 3 ∧ number_count = 3 then
        match numericTable.lookup input with
        | none => some (.error (.unhandledNumeric input))
        | some min =>
          if params_amount < min then some (.error (.minimumArgsRequired min input))
          else some (.ok (.numeric input))
      else if number_count > 0 then some (.error (.numberInNamedCommand input))
      else
        match command_to_uppercase_bytes input with
        | none => none
        | some upper =>
          match namedTable.lookup upper with
          | none => some (.error (.unhandledNamed input))
          | some (canonical, min) =>
            if params_amount < min then some (.error (.minimumArgsRequired min input))
            else some (.ok (.named canonical))

/-- `Display for Command` (src/command.rs): both variants print the inner text. -/
def Command.render : Command → List Byte
  | .named s => s
  | .numeric s => s

/-! ## src/lib.rs -/

/-- `IrcMsg` from src/lib.rs. -/
structure IrcMsg where
  tags : Option Tags
  source : Option Source
  command : Command
  parameters : Option Parameters
deriving DecidableEq, Repr

/-- `IrcMsgError` from src/lib.rs. -/
inductive IrcMsgError where
  | tags (e : TagsError)
  | source (e : SourceError)
  | command (e : CommandError)
  | parameters (e : ParametersError)
  | nonUtf8Message
  | emptyInput
deriving DecidableEq, Repr

/-- `remove_possible_leading_space` from src/lib.rs (never called on an empty
slice, where Rust would panic on `input[0]`). -/
def remove_possible_leading_space (input : List Byte) : List Byte :=
  match input with
  | 32 :: rest => rest
  | l => l

/-- The mutable locals of the scanning loop of `IrcMsg::parse`. -/
structure AsmSt where
  tags : Option Tags
  tag_present : Bool
  after_tag_end : Nat
  tag_finished : Bool
  source : Option Source
  source_present : Bool
  after_source_end : Nat
  source_finished : Bool
  command_started : Bool
  after_command_end : Nat
  parameters_started : Bool
  copy : List Byte
deriving Repr

/-- The scanning loop of `IrcMsg::parse` (src/lib.rs lines 64-102): one
else-if chain per byte, in source order; the final `parameters_started`
branch is the `break`. `rest = input.drop index` at every call. -/
def asmLoop (input : List Byte) (index : Nat) (rest : List Byte) (st : AsmSt) :
    Except IrcMsgError AsmSt :=
  match rest with
  | [] => .ok st
  | b :: rest' =>
    if index = 0 ∧ b = 64 then
      asmLoop input (index + 1) rest' { st with tag_present := true }
    else if index = 0 ∧ b = 58 then
      asmLoop input (index + 1) rest' { st with source_present := true }
    else if index = 0 ∧ b ≠ 58 ∧ b ≠ 64 then
      asmLoop input (index + 1) rest' { st with command_started := true }
    else if st.tag_finished ∧ ¬st.command_started ∧ ¬st.source_present ∧ b = 58 then
      asmLoop input (index + 1) rest' { st with source_present := true }
    else if st.tag_present ∧ ¬st.tag_finished ∧ b = 32 then
      let t := input.take index
      let rest0 := input.drop index
      let copy := remove_possible_leading_space rest0
      match Tags.parse t with
      | .ok all_tags =>
        asmLoop input (index + 1) rest'
          { st with tag_finished := true, after_tag_end := index + 1,
                    copy := copy, tags := some all_tags }
      | .error e => .error (.tags e)
    else if st.source_present ∧ ¬st.source_finished ∧ b = 32 then
      let s := st.copy.take (index - st.after_tag_end)
      let rest0 := st.copy.drop (index - st.after_tag_end)
      let copy := remove_possible_leading_space rest0
      match Source.parse s with
      | .ok src =>
        asmLoop input (index + 1) rest'
          { st with source_finished := true, after_source_end := index + 1,
                    copy := copy, source := some src, command_started := true }
      | .error e => .error (.source e)
    else if st.command_started ∧ ¬st.parameters_started ∧ b = 32 then
      let c := if st.source_present then st.copy.take (index - st.after_source_end)
               else st.copy.take (index - st.after_tag_end)
      asmLoop input (index + 1) rest'
        { st with parameters_started := true, copy := c, after_command_end := index + 1 }
    else if st.tag_finished ∧ ¬st.source_present ∧ ¬st.command_started then
      asmLoop input (index + 1) rest' { st with command_started := true }
    else if st.parameters_started then
      .ok st
    else
      asmLoop input (index + 1) rest' st

/-- The initial state of the scanning loop of `IrcMsg::parse`. -/
def asmInit (input : List Byte) : AsmSt :=
  ⟨none, false, 0, false, none, false, 0, false, false, 0, false, input⟩

/-- `IrcMsg::parse` from src/lib.rs; `none` models a panic (the
`unreachable!()` hit when the parameter span is empty, or a panic inside
`Command::parse`). -/
def IrcMsg.parse (input : List Byte) : Option (Except IrcMsgError IrcMsg) :=
  if input = [] then some (.error .emptyInput)
  else
    match asmLoop input 0 input (asmInit input) with
    | .error e => some (.error e)
    | .ok st =>
      if st.parameters_started then
        let p := input.drop st.after_command_end
        match Parameters.parse p with
        | .error e => some (.error (.parameters e))
        | .ok none => none
        | .ok (some params) =>
          match Command.parse st.copy params.amount with
          | none => none
          | some (.error e) => some (.error (.command e))
          | some (.ok cmd) => some (.ok ⟨st.tags, st.source, cmd, some params⟩)
      else
        match Command.parse st.copy 0 with
        | none => none
        | some (.error e) => some (.error (.command e))
        | some (.ok cmd) => some (.ok ⟨st.tags, st.source, cmd, none⟩)

/-- `IrcMsg::parse_utf8_only` from src/lib.rs. -/
def IrcMsg.parse_utf8_only (input : List Byte) : Option (Except IrcMsgError IrcMsg) :=
  match IrcMsg.parse input with
  | some (.ok msg) =>
    match ContentType.new input with
    | .stringSlice _ => some (.ok msg)
    | .nonUtf8ByteSlice _ => some (.error .nonUtf8Message)
  | other => other

/-- `IrcMsg::strip_tags` from src/lib.rs. -/
def IrcMsg.strip_tags (m : IrcMsg) : IrcMsg :=
  if m.tags.isSome then { m with tags := none } else m

/-- `Display for Tags` (src/tags.rs): the content verbatim. -/
def Tags.render (t : Tags) : List Byte := t.content

/-- `Display for Parameters` (src/parameters.rs): the content through
`Display for ContentType`. -/
def Parameters.render (p : Parameters) : List Byte := p.content.render

/-- `Display for IrcMsg` (src/lib.rs): tags and source each followed by one
space when present, then the command text, then a space and the parameters
when present. -/
def IrcMsg.render (m : IrcMsg) : List Byte :=
  (match m.tags with | some t => t.render ++ [32] | none => []) ++
  (match m.source with | some s => s.render ++ [32] | none => []) ++
  m.command.render ++
  (match m.parameters with | some p => 32 :: p.render | none => [])

/-! ## Concrete values used by counterexamples and witnesses -/

/-- The byte string `"PRIVMSG #a :\x9f"`: a structurally valid message whose
trailing parameter contains the lone continuation byte `0x9f` (not UTF-8). -/
def c2Input : List Byte := [80, 82, 73, 86, 77, 83, 71, 32, 35, 97, 32, 58, 159]

/-- The message `IrcMsg::parse` produces for `c2Input`. -/
def c2Msg : IrcMsg :=
  ⟨none, none, .named [80, 82, 73, 86, 77, 83, 71],
   some ⟨2, .nonUtf8ByteSlice [35, 97, 32, 58, 159]⟩⟩

/-- The message `IrcMsg::parse` produces for `"INFO"`. -/
def infoMsg : IrcMsg := ⟨none, none, .named [73, 78, 70, 79], none⟩

/-! ## Claim theorems: the evaluation-based claims -/

/-- C1: the claim says `IrcMsg::parse` never panics on any byte input, but the
code panics: on `"INFO "` (a trailing space makes the parameter span empty, so
`Parameters::parse` returns `Ok(None)` and the assembler hits `unreachable!()`),
and on the 13-letter command `"ABCDEFGHIJKLM"` (whose uppercasing writes past
the 12-byte buffer of `command_to_uppercase_bytes`). `none` is the panic. -/
theorem c1_parse_panics : IrcMsg.parse [73, 78, 70, 79, 32] = none ∧
    IrcMsg.parse [65, 66, 67, 68, 69, 70, 71, 72, 73, 74, 75, 76, 77] = none := by
  constructor <;> rfl

/-- C4: the claim (and the crate's own test `is_equal_ascii`) says ASCII
letters compare case-insensitively, but the letter-versus-letter branch of
`IrcCaseMapping::is_equivalent` is inverted: it returns `false` exactly when
the letters agree ignoring case, so `"bob"` and `"BOB"` compare unequal under
`Ascii` while `"a"` and `"b"` compare equal. -/
theorem c4_is_equivalent_inverted :
    IrcCaseMapping.is_equivalent .ascii [98, 111, 98] [66, 79, 66] = false ∧
    IrcCaseMapping.is_equivalent .ascii [97] [98] = true := by
  constructor <;> rfl

/-- C3: the claim says `extract_specific(i)` is `Some` for `i < count` and
`None` for `i ≥ count`, but the bound check uses `>` instead of `>=`:
for the parsed tags `"@a"` (count 1), index 1 returns `Some` (an empty `Tag`)
instead of `None`; and for the parsed parameters `"a  b"` (count 3, with an
empty middle parameter), index 1 < count panics (`none` here) on `param[0]`
instead of returning `Some`. -/
theorem c3_extract_specific_bounds :
    Tags.parse [64, 97] = .ok ⟨1, [64, 97]⟩ ∧
    Tags.extract_specific ⟨1, [64, 97]⟩ 1 = some (some ⟨false, none, [], none⟩) ∧
    Parameters.parse [97, 32, 32, 98] = .ok (some ⟨3, .stringSlice [97, 32, 32, 98]⟩) ∧
    Parameters.extract_specific ⟨3, .stringSlice [97, 32, 32, 98]⟩ 1 = none := by
  refine ⟨rfl, rfl, ?_, rfl⟩
  rfl

/-- C5: the claim says an unmatched named token fails with `UnhandledNamed`,
but a digit-free token longer than 12 bytes (here 13 letters `A`, a named
token matched by no table entry) makes `Command::parse` panic in
`command_to_uppercase_bytes` instead; `none` is the panic. -/
theorem c5_unmatched_named_panics :
    Command.parse (List.replicate 13 65) 0 = none ∧
    (List.replicate 13 65).all (fun b => isAsciiAlphanumeric b) = true := by
  constructor <;> rfl

/-- C9: `IrcMsg::strip_tags` clears the tags field and leaves source, command
and parameters unchanged. -/
theorem c9_strip_tags (m : IrcMsg) :
    m.strip_tags.tags = none ∧ m.strip_tags.source = m.source ∧
    m.strip_tags.command = m.command ∧ m.strip_tags.parameters = m.parameters := by
  unfold IrcMsg.strip_tags
  cases h : m.tags <;> simp [Option.isSome, h]

/-- C2 (counterexample): parsing `"PRIVMSG #a :\x9f"` succeeds with a
non-UTF-8 trailing span, but `Display` prints that span through the `Debug`
fallback (`[35, 97, 32, 58, 159]`), so re-parsing the rendering yields a
different message: `parse(render(M)) ≠ Ok(M)`. -/
theorem c2_roundtrip_fails_nonutf8 :
    IrcMsg.parse c2Input = some (.ok c2Msg) ∧
    IrcMsg.parse c2Msg.render ≠ some (.ok c2Msg) := by
  constructor
  · rfl
  · intro h
    exact absurd (Option.some.inj h) (by decide)

/-! ## C10: split_at_first_fmt_byte on empty and formatting-free input -/

/-- C10: `split_at_first_fmt_byte` returns `None` exactly on the empty span,
and on a non-empty span with no formatting byte it returns the whole span as
the before-part with no formatting byte, no colours and no after-part. -/
theorem c10_split_at_first_fmt_byte (input : List Byte) :
    (IrcFmtByte.split_at_first_fmt_byte input = none ↔ input = []) ∧
    (input ≠ [] → IrcFmtByte.contains_irc_formatting input = false →
      IrcFmtByte.split_at_first_fmt_byte input = some (some input, none, none, none)) := by
  refine ⟨⟨fun h => ?_, fun h => by rw [h]; rfl⟩, fun h1 h2 => ?_⟩
  · by_contra hne
    unfold IrcFmtByte.split_at_first_fmt_byte at h
    rw [if_neg hne] at h
    split at h <;> simp at h
  · unfold IrcFmtByte.split_at_first_fmt_byte
    rw [if_neg h1, h2]
    simp

/-- Witness for C10 at the one-byte span `"H"`. -/
theorem c10_witness :
    IrcFmtByte.split_at_first_fmt_byte [72] = some (some [72], none, none, none) :=
  (c10_split_at_first_fmt_byte [72]).2 (by decide) (by decide)

/-! ## C8: the servername heuristic wins -/

/-- Once `probably_servername` is set, the scan of `Source::parse` keeps it. -/
theorem srcScanLoop_ps_mono (input : List Byte) :
    ∀ (rest : List Byte) (index ne ue : Nat) (up hp : Bool) (out : Nat × Nat × Bool × Bool × Bool),
      srcScanLoop input index rest ne ue true up hp = .ok out → out.2.2.1 = true := by
  intro rest
  induction rest with
  | nil => intro i ne ue up hp out h; cases h; rfl
  | cons b rest ih =>
    intro i ne ue up hp out h
    unfold srcScanLoop at h
    split at h
    · exact absurd h (by simp)
    · split at h
      · exact ih _ _ _ _ _ _ h
      · split at h
        · exact ih _ _ _ _ _ _ h
        · split at h
          · exact ih _ _ _ _ _ _ h
          · split at h
            · exact ih _ _ _ _ _ _ h
            · exact ih _ _ _ _ _ _ h

/-- If the scan of `Source::parse` meets a `.` before any `!` or `@`, the
final `probably_servername` flag is set. -/
theorem srcScanLoop_dot (input : List Byte) :
    ∀ (seg : List Byte) (index ne ue : Nat) (ps : Bool) (post : List Byte)
      (out : Nat × Nat × Bool × Bool × Bool),
      (∀ b ∈ seg, b ≠ 33 ∧ b ≠ 64) →
      srcScanLoop input index (seg ++ 46 :: post) ne ue ps false false = .ok out →
      out.2.2.1 = true := by
  intro seg
  induction seg with
  | nil =>
    intro i ne ue ps post out _ h
    unfold srcScanLoop at h
    simp only [List.nil_append] at h
    split at h
    · exact absurd h (by simp)
    · split at h
      · simp at *
      · split at h
        · simp at *
        · split at h
          · simp at *
          · split at h
            · exact srcScanLoop_ps_mono input _ _ _ _ _ _ _ h
            · simp [Source.is_invalid_byte] at *
  | cons c seg ih =>
    intro i ne ue ps post out hseg h
    have hc := hseg c (by simp)
    unfold srcScanLoop at h
    simp only [List.cons_append] at h
    split at h
    · exact absurd h (by simp)
    · split at h
      · exact absurd ‹c = 33› hc.1
      · split at h
        · exact absurd ‹c = 64 ∧ _›.1 hc.2
        · split at h
          · exact absurd ‹c = 64 ∧ _›.1 hc.2
          · split at h
            · exact srcScanLoop_ps_mono input _ _ _ _ _ _ _ h
            · exact ih _ _ _ _ _ _ (fun b hb => hseg b (by simp [hb])) h

/-- C8: for every span accepted by `Source::parse` in which a `.` occurs
before any `!` or `@`, the resulting origin is a servername — the heuristic
takes precedence over the nick/user/host decomposition. -/
theorem c8_servername_heuristic (s : List Byte) (src : Source)
    (pre post : List Byte) (hdec : s = pre ++ 46 :: post)
    (hpre : ∀ b ∈ pre, b ≠ 33 ∧ b ≠ 64)
    (h : Source.parse s = .ok src) :
    ∃ sv, src.origin = .servername sv := by
  unfold Source.parse at h
  split at h
  · exact absurd h (by simp)
  · split at h
    · exact absurd h (by simp)
    · split at h
      · exact absurd h (by simp)
      · rename_i ne ue ps up hp heq
        have hps : ps = true := by
          have := srcScanLoop_dot s pre 0 0 0 false post (ne, ue, ps, up, hp) hpre
            (by rw [← hdec]; exact heq)
          simpa using this
        subst hps
        simp only [if_pos rfl] at h
        cases h
        exact ⟨_, rfl⟩

/-- Witness for C8 at the span `":a.b"`. -/
theorem c8_witness :
    ∃ sv, (Source.mk 58 (.servername ⟨.stringSlice [97, 46, 98]⟩)).origin = .servername sv :=
  c8_servername_heuristic [58, 97, 46, 98] ⟨58, .servername ⟨.stringSlice [97, 46, 98]⟩⟩
    [58, 97] [98] (by decide) (by decide) (by rfl)

/-! ## C6: Parameters::parse characterization -/

/-- Spec-side count for C6, following the claim wording: the number of space
bytes occurring strictly before the first trailing-parameter marker, where a
marker is a `:` that is the first byte of the span or immediately follows a
space (the initial flag is true), and no space after the marker counts. -/
def specSpacesBeforeTrailing : Bool → List Byte → Nat
  | _, [] => 0
  | prevSpace, b :: rest =>
    if b = 58 ∧ prevSpace then 0
    else (if b = 32 then 1 else 0) + specSpacesBeforeTrailing (b = 32) rest

/-- A byte `Parameters::parse` rejects: null, CR or LF. -/
def isParamBadByte (b : Byte) : Prop := b = 0 ∨ b = 13 ∨ b = 10

instance (b : Byte) : Decidable (isParamBadByte b) := by
  unfold isParamBadByte; infer_instance

/-- Once inside the trailing parameter, the count loop of `Parameters::parse`
never changes the count. -/
theorem paramsCountLoop_trailing (input : List Byte) :
    ∀ (rest : List Byte) (i amount : Nat) (prev : Byte),
      (∀ b ∈ rest, ¬isParamBadByte b) →
      paramsCountLoop input i rest amount prev true = .ok amount := by
  intro rest
  induction rest with
  | nil => intro i amount prev _; rfl
  | cons b rest ih =>
    intro i amount prev hgood
    have hb := hgood b (by simp)
    have hrest : ∀ c ∈ rest, ¬isParamBadByte c := fun c hc => hgood c (by simp [hc])
    unfold paramsCountLoop
    rw [if_neg (by rw [isParamBadByte] at hb; exact hb)]
    by_cases hmark : (prev = 32 ∨ i = 0) ∧ b = 58
    · rw [if_pos hmark]
      exact ih _ _ _ hrest
    · rw [if_neg hmark, if_neg (by simp)]
      exact ih _ _ _ hrest

/-- The count loop of `Parameters::parse` computes, on clean input, the start
count plus the number of spaces before the first trailing marker. -/
theorem paramsCountLoop_ok (input : List Byte) :
    ∀ (rest : List Byte) (i amount : Nat) (prev : Byte) (ps : Bool),
      (ps = true ↔ (prev = 32 ∨ i = 0)) →
      (∀ b ∈ rest, ¬isParamBadByte b) →
      paramsCountLoop input i rest amount prev false =
        .ok (amount + specSpacesBeforeTrailing ps rest) := by
  intro rest
  induction rest with
  | nil => intro i amount prev ps _ _; rfl
  | cons b rest ih =>
    intro i amount prev ps hps hgood
    have hb := hgood b (by simp)
    have hrest : ∀ c ∈ rest, ¬isParamBadByte c := fun c hc => hgood c (by simp [hc])
    unfold paramsCountLoop
    rw [if_neg (by rw [isParamBadByte] at hb; exact hb)]
    by_cases hmark : (prev = 32 ∨ i = 0) ∧ b = 58
    · rw [if_pos hmark]
      rw [paramsCountLoop_trailing input rest (i + 1) amount b hrest]
      unfold specSpacesBeforeTrailing
      rw [if_pos ⟨hmark.2, hps.mpr hmark.1⟩]
      simp
    · rw [if_neg hmark]
      have hnm : ¬(b = 58 ∧ ps = true) := fun hc => hmark ⟨hps.mp hc.2, hc.1⟩
      unfold specSpacesBeforeTrailing
      rw [if_neg hnm]
      by_cases hsp : b = 32
      · rw [if_pos ⟨by simp, hsp⟩, if_pos hsp,
            ih (i + 1) (amount + 1) b (decide (b = 32)) (by simp [hsp]) hrest]
        congr 1
        omega
      · rw [if_neg (fun hc => hsp hc.2), if_neg hsp,
            ih (i + 1) amount b (decide (b = 32)) (by simp [hsp]) hrest]
        congr 1
        omega

/-- On input containing a bad byte, the count loop fails. -/
theorem paramsCountLoop_bad (input : List Byte) :
    ∀ (rest : List Byte) (i amount : Nat) (prev : Byte) (trailing : Bool),
      (∃ b ∈ rest, isParamBadByte b) →
      ∃ b, paramsCountLoop input i rest amount prev trailing = .error (.invalidByte b) := by
  intro rest
  induction rest with
  | nil => intro _ _ _ _ h; simp at h
  | cons b rest ih =>
    intro i amount prev trailing h
    unfold paramsCountLoop
    by_cases hb : isParamBadByte b
    · exact ⟨b, by rw [if_pos (by rw [isParamBadByte] at hb; exact hb)]⟩
    · have hr : ∃ c ∈ rest, isParamBadByte c := by
        rcases h with ⟨c, hc, hbad⟩
        rcases List.mem_cons.1 hc with rfl | hc
        · exact absurd hbad hb
        · exact ⟨c, hc, hbad⟩
      rw [if_neg (by rw [isParamBadByte] at hb; exact hb)]
      by_cases hmark : (prev = 32 ∨ i = 0) ∧ b = 58
      · rw [if_pos hmark]; exact ih _ _ _ _ hr
      · rw [if_neg hmark]
        by_cases hsp : ¬trailing = true ∧ b = 32
        · rw [if_pos hsp]; exact ih _ _ _ _ hr
        · rw [if_neg hsp]; exact ih _ _ _ _ hr

/-- If the count loop fails, the input contained a bad byte. -/
theorem paramsCountLoop_error (input : List Byte) :
    ∀ (rest : List Byte) (i amount : Nat) (prev : Byte) (trailing : Bool) (e : ParametersError),
      paramsCountLoop input i rest amount prev trailing = .error e →
      ∃ b ∈ rest, isParamBadByte b := by
  intro rest
  induction rest with
  | nil => intro _ _ _ _ e h; exact absurd h (by simp [paramsCountLoop])
  | cons b rest ih =>
    intro i amount prev trailing e h
    unfold paramsCountLoop at h
    split at h
    · refine ⟨b, by simp, ?_⟩
      rw [isParamBadByte]
      assumption
    · split at h
      · rcases ih _ _ _ _ _ h with ⟨c, hc, hbad⟩
        exact ⟨c, by simp [hc], hbad⟩
      · split at h
        · rcases ih _ _ _ _ _ h with ⟨c, hc, hbad⟩
          exact ⟨c, by simp [hc], hbad⟩
        · rcases ih _ _ _ _ _ h with ⟨c, hc, hbad⟩
          exact ⟨c, by simp [hc], hbad⟩

/-- C6: `Parameters::parse` returns `Ok(None)` exactly on the empty span,
fails with `InvalidByte` exactly when the span contains a null, LF or CR
byte, and otherwise counts one plus the spaces that occur before the first
trailing-parameter marker (a `:` that is the first byte or directly follows
a space), spaces after the marker not counting. -/
theorem c6_parameters_parse (input : List Byte) :
    (Parameters.parse input = .ok none ↔ input = []) ∧
    ((∃ b, Parameters.parse input = .error (.invalidByte b)) ↔
      ∃ b ∈ input, isParamBadByte b) ∧
    (input ≠ [] → (∀ b ∈ input, ¬isParamBadByte b) →
      Parameters.parse input =
        .ok (some ⟨1 + specSpacesBeforeTrailing true input, ContentType.new input⟩)) := by
  refine ⟨⟨fun h => ?_, fun h => by rw [h]; rfl⟩, ⟨fun h => ?_, fun h => ?_⟩, fun h1 h2 => ?_⟩
  · by_contra hne
    unfold Parameters.parse at h
    rw [if_neg hne] at h
    split at h <;> simp at h
  · rcases h with ⟨b, h⟩
    unfold Parameters.parse at h
    split at h
    · simp at h
    · split at h
      · simp at h
      · rename_i e heq
        exact paramsCountLoop_error input input 0 1 0 false e heq
  · have hne : input ≠ [] := by
      rcases h with ⟨b, hb, _⟩
      exact fun hnil => by simp [hnil] at hb
    rcases paramsCountLoop_bad input input 0 1 0 false h with ⟨b, hb⟩
    refine ⟨b, ?_⟩
    unfold Parameters.parse
    rw [if_neg hne, hb]
  · unfold Parameters.parse
    rw [if_neg h1, paramsCountLoop_ok input input 0 1 0 true (by simp) h2]

/-- Witness for C6 at the span `"a :b"`: two parameters. -/
theorem c6_witness :
    Parameters.parse [97, 32, 58, 98] =
      .ok (some ⟨1 + specSpacesBeforeTrailing true [97, 32, 58, 98],
                 ContentType.new [97, 32, 58, 98]⟩) :=
  (c6_parameters_parse [97, 32, 58, 98]).2.2 (by decide) (by decide)

/-! ## C7: Tags::parse characterization -/

/-- Claim-side predicate for C7: some `;`-separated segment after the leading
`@` has an empty key name (the part before the segment's first `=`). -/
def claimHasEmptyKey (input : List Byte) : Prop :=
  ∃ seg ∈ (input.drop 1).splitOn 59, seg.takeWhile (fun b => b ≠ 61) = []

instance (input : List Byte) : Decidable (claimHasEmptyKey input) := by
  unfold claimHasEmptyKey; infer_instance

/-- Claim-side predicate for C7: some segment's escaped value (the part after
its first `=`) contains a null, LF, CR or space byte. -/
def claimHasBadEscaped (input : List Byte) : Prop :=
  ∃ seg ∈ (input.drop 1).splitOn 59,
    ∃ b ∈ (seg.dropWhile (fun b => b ≠ 61)).drop 1, is_invalid_escaped_value_byte b = true

instance (input : List Byte) : Decidable (claimHasBadEscaped input) := by
  unfold claimHasBadEscaped; infer_instance

/-- C7 (counterexample): `"@a;b"` satisfies none of the claimed failure
conditions — its keys `a` and `b` are nonempty, it is nonempty, short,
`@`-prefixed, more than a lone `@`, UTF-8, with no escaped values at all —
yet `Tags::parse` fails with `EmptyKeyName`, because the scanner flags a
single-byte final segment that directly follows a `;`. -/
theorem c7_counterexample :
    Tags.parse [64, 97, 59, 98] = .error .emptyKeyName ∧
    ¬claimHasEmptyKey [64, 97, 59, 98] ∧ ¬claimHasBadEscaped [64, 97, 59, 98] ∧
    [64, 97, 59, 98] ≠ [] ∧ ¬[64, 97, 59, 98].length > 8190 ∧
    [64, 97, 59, 98].getD 0 0 = 64 ∧ [64, 97, 59, 98].length ≠ 1 ∧
    isUtf8 [64, 97, 59, 98] = true := by
  exact ⟨rfl, by decide, by decide, by decide, by decide, rfl, by decide, rfl⟩

/-- The scan of `Tags::parse` is in escaped-value state at position `i` iff
some earlier `=` has no `;` between it and `i`. -/
def escapedAt (input : List Byte) (i : Nat) : Prop :=
  ∃ j, j < i ∧ input.getD j 0 = 61 ∧ ∀ k, k < i → j < k → input.getD k 0 ≠ 59

instance (input : List Byte) (i : Nat) : Decidable (escapedAt input i) := by
  unfold escapedAt; infer_instance

/-- Position at which the scan of `Tags::parse` raises `EmptyKeyName`: a `;`
or the final byte directly following a `;`. -/
def scanEmptyKeyAt (input : List Byte) (i : Nat) : Prop :=
  i < input.length ∧ 1 ≤ i ∧ input.getD (i - 1) 0 = 59 ∧
  (input.getD i 0 = 59 ∨ i = input.length - 1)

instance (input : List Byte) (i : Nat) : Decidable (scanEmptyKeyAt input i) := by
  unfold scanEmptyKeyAt; infer_instance

/-- Position at which the scan of `Tags::parse` raises
`InvalidEscapedValueByte`: a disallowed byte inside an escaped value, not at
the final position of the span. -/
def scanBadEscAt (input : List Byte) (i : Nat) : Prop :=
  i < input.length ∧ i ≠ input.length - 1 ∧ escapedAt input i ∧
  is_invalid_escaped_value_byte (input.getD i 0) = true

instance (input : List Byte) (i : Nat) : Decidable (scanBadEscAt input i) := by
  unfold scanBadEscAt; infer_instance

/-- A position at which the scan of `Tags::parse` raises either error. -/
def scanErrAt (input : List Byte) (i : Nat) : Prop :=
  scanEmptyKeyAt input i ∨ scanBadEscAt input i

instance (input : List Byte) (i : Nat) : Decidable (scanErrAt input i) := by
  unfold scanErrAt; infer_instance

/-- `getD` at the split point of `drop`. -/
theorem getD_of_drop {l : List Byte} : ∀ {i : Nat} {b : Byte} {r : List Byte},
    l.drop i = b :: r → l.getD i 0 = b := by
  induction l with
  | nil => intro i b r h; simp at h
  | cons x l ih =>
    intro i b r h
    cases i with
    | zero => simp at h; simp [h.1]
    | succ i => exact ih h

/-- The suffix after one more step of `drop`. -/
theorem drop_succ_of_drop {l : List Byte} {i : Nat} {b : Byte} {r : List Byte}
    (h : l.drop i = b :: r) : l.drop (i + 1) = r := by
  have := List.tail_drop l i
  rw [h] at this
  simpa using this.symm

/-- The counting loop of `Tags::parse`, characterized: on an `@`-led span of
at least two bytes it succeeds when no scan-error position exists, and
otherwise reports the first scan-error position, `EmptyKeyName` or
`InvalidEscapedValueByte` according to that position's kind. -/
theorem tagsCountLoop_char (input : List Byte) (h0 : input.getD 0 0 = 64)
    (hlen : 2 ≤ input.length) :
    ∀ (rest : List Byte) (i amount : Nat) (esc pS : Bool),
      rest = input.drop i →
      (pS = true ↔ (i = 0 ∨ (1 ≤ i ∧ input.getD (i - 1) 0 = 59))) →
      (esc = true ↔ escapedAt input i) →
      (∀ j, j < i → ¬scanErrAt input j) →
      ((∀ j, j < input.length → ¬scanErrAt input j) →
          ∃ a, tagsCountLoop input i rest amount esc pS = .ok a) ∧
      (∀ k, scanErrAt input k → (∀ j, j < k → ¬scanErrAt input j) →
          tagsCountLoop input i rest amount esc pS =
            (if scanEmptyKeyAt input k then .error .emptyKeyName
             else .error (.invalidEscapedValueByte (input.getD k 0)))) := by
  intro rest
  induction rest with
  | nil =>
    intro i amount esc pS hrest _ _ hpfx
    have hi : input.length ≤ i := by
      by_contra hlt
      push_neg at hlt
      have := List.drop_eq_nil_iff.1 hrest.symm
      omega
    constructor
    · intro _; exact ⟨amount, rfl⟩
    · intro k hk hkf
      exact absurd hk (hpfx k (by rcases hk with ⟨h, _⟩ | ⟨h, _⟩ <;> omega))
  | cons b rest' ih =>
    intro i amount esc pS hrest hpS hesc hpfx
    have hb : input.getD i 0 = b := getD_of_drop hrest.symm
    have hrest' : rest' = input.drop (i + 1) := (drop_succ_of_drop hrest.symm).symm
    have hilt : i < input.length := by
      by_contra hge
      push_neg at hge
      have : input.drop i = [] := List.drop_eq_nil_iff.2 (by omega)
      rw [this] at hrest
      simp at hrest
    by_cases h1 : b = 59 ∨ i = input.length - 1
    · by_cases hps1 : pS = true
      · -- EmptyKeyName is raised here
        have hne0 : i ≠ 0 := by
          intro h'
          subst h'
          rcases h1 with h1 | h1
          · exact absurd ((h0.symm.trans hb).trans h1) (by decide)
          · exact absurd h1 (by omega)
        have hiek : scanEmptyKeyAt input i := by
          rcases hpS.1 hps1 with h' | h'
          · exact absurd h' hne0
          · exact ⟨hilt, h'.1, h'.2, by rw [hb]; exact h1⟩
        have herr : scanErrAt input i := Or.inl hiek
        constructor
        · intro hnone
          exact absurd herr (hnone i hilt)
        · intro k hk hkf
          have hki : k = i := by
            by_contra hne
            rcases Nat.lt_or_ge k i with hlt | hge
            · exact hpfx k hlt hk
            · exact hkf i (by omega) herr
          subst hki
          rw [if_pos hiek]
          unfold tagsCountLoop
          rw [if_pos h1, if_pos hps1]
      · -- the boundary is consumed without error
        have hnerr : ¬scanErrAt input i := by
          rintro (⟨_, hge1, hsemi, _⟩ | ⟨_, hnend, _, hinv⟩)
          · exact hps1 (hpS.2 (Or.inr ⟨hge1, hsemi⟩))
          · rcases h1 with h159 | h1end
            · rw [hb, h159] at hinv
              simp [is_invalid_escaped_value_byte] at hinv
            · exact hnend h1end
        have hpfx' : ∀ j, j < i + 1 → ¬scanErrAt input j := by
          intro j hj
          rcases Nat.lt_or_ge j i with hlt | hge
          · exact hpfx j hlt
          · have : j = i := by omega
            subst this
            exact hnerr
        by_cases hb59 : b = 59
        · have hpS' : (true = true) ↔ (i + 1 = 0 ∨ (1 ≤ i + 1 ∧ input.getD (i + 1 - 1) 0 = 59)) := by
            simp only [Nat.add_sub_cancel]
            rw [hb, hb59]
            simp
          have hesc' : (false = true) ↔ escapedAt input (i + 1) := by
            constructor
            · intro h'; simp at h'
            · rintro ⟨j, hj, hjeq, hnos⟩
              rcases Nat.lt_or_ge j i with hlt | hge
              · exact (hnos i (by omega) hlt (by rw [hb]; exact hb59)).elim
              · have hji : j = i := by omega
                rw [hji, hb, hb59] at hjeq
                exact absurd hjeq (by decide)
          have ihx := ih (i + 1) (amount + 1) false true hrest' hpS' hesc' hpfx'
          unfold tagsCountLoop
          rw [if_pos h1, if_neg hps1]
          exact ihx
        · have hend : i = input.length - 1 := h1.resolve_left hb59
          have hrestnil : rest' = [] := by
            rw [hrest']
            exact List.drop_eq_nil_iff.2 (by omega)
          constructor
          · intro _
            refine ⟨amount + 1, ?_⟩
            unfold tagsCountLoop
            rw [if_pos h1, if_neg hps1, hrestnil]
            rfl
          · intro k hk hkf
            exfalso
            rcases Nat.lt_or_ge k i with hlt | hge
            · exact hpfx k hlt hk
            · rcases Nat.eq_or_lt_of_le hge with heq | hgt
              · exact hnerr (heq ▸ hk)
              · have hklt : k < input.length := by
                  rcases hk with ⟨h, _⟩ | ⟨h, _⟩ <;> exact h
                omega
    · by_cases h2 : b = 61 ∧ ¬esc = true
      · -- an '=' opens the escaped value
        have hnerr : ¬scanErrAt input i := by
          rintro (⟨_, _, _, hcond⟩ | ⟨_, _, _, hinv⟩)
          · exact h1 (by rw [← hb]; exact hcond)
          · rw [hb, h2.1] at hinv
            simp [is_invalid_escaped_value_byte] at hinv
        have hpfx' : ∀ j, j < i + 1 → ¬scanErrAt input j := by
          intro j hj
          rcases Nat.lt_or_ge j i with hlt | hge
          · exact hpfx j hlt
          · have : j = i := by omega
            subst this
            exact hnerr
        have hpS' : (false = true) ↔ (i + 1 = 0 ∨ (1 ≤ i + 1 ∧ input.getD (i + 1 - 1) 0 = 59)) := by
          simp only [Nat.add_sub_cancel]
          rw [hb, h2.1]
          simp
        have hesc' : (true = true) ↔ escapedAt input (i + 1) := by
          constructor
          · intro _
            exact ⟨i, by omega, by rw [hb]; exact h2.1, fun k hk1 hk2 => by omega⟩
          · intro _; rfl
        have ihx := ih (i + 1) amount true false hrest' hpS' hesc' hpfx'
        unfold tagsCountLoop
        rw [if_neg h1, if_pos h2]
        exact ihx
      · by_cases h3 : esc = true ∧ is_invalid_escaped_value_byte b = true
        · -- InvalidEscapedValueByte is raised here
          have hbad : scanBadEscAt input i :=
            ⟨hilt, fun hcond => h1 (Or.inr hcond), hesc.1 h3.1, by rw [hb]; exact h3.2⟩
          have hnek : ¬scanEmptyKeyAt input i := by
            rintro ⟨_, _, _, hcond⟩
            exact h1 (by rw [← hb]; exact hcond)
          have herr : scanErrAt input i := Or.inr hbad
          constructor
          · intro hnone
            exact absurd herr (hnone i hilt)
          · intro k hk hkf
            have hki : k = i := by
              by_contra hne
              rcases Nat.lt_or_ge k i with hlt | hge
              · exact hpfx k hlt hk
              · exact hkf i (by omega) herr
            subst hki
            rw [if_neg hnek, hb]
            unfold tagsCountLoop
            rw [if_neg h1, if_neg h2, if_pos h3]
        · -- an ordinary byte
          have hnerr : ¬scanErrAt input i := by
            rintro (⟨_, _, _, hcond⟩ | ⟨_, _, hescAt, hinv⟩)
            · exact h1 (by rw [← hb]; exact hcond)
            · exact h3 ⟨hesc.2 hescAt, by rw [← hb]; exact hinv⟩
          have hpfx' : ∀ j, j < i + 1 → ¬scanErrAt input j := by
            intro j hj
            rcases Nat.lt_or_ge j i with hlt | hge
            · exact hpfx j hlt
            · have : j = i := by omega
              subst this
              exact hnerr
          have hb59 : b ≠ 59 := fun hc => h1 (Or.inl hc)
          have hpS' : (false = true) ↔ (i + 1 = 0 ∨ (1 ≤ i + 1 ∧ input.getD (i + 1 - 1) 0 = 59)) := by
            simp only [Nat.add_sub_cancel]
            rw [hb]
            simp [hb59]
          have hesc' : (esc = true) ↔ escapedAt input (i + 1) := by
            constructor
            · intro h'
              rcases hesc.1 h' with ⟨j, hj, hjeq, hnos⟩
              refine ⟨j, by omega, hjeq, fun k hk1 hk2 => ?_⟩
              rcases Nat.lt_or_ge k i with hlt | hge
              · exact hnos k hlt hk2
              · have : k = i := by omega
                subst this
                rw [hb]
                exact hb59
            · rintro ⟨j, hj, hjeq, hnos⟩
              rcases Nat.lt_or_ge j i with hlt | hge
              · exact hesc.2 ⟨j, hlt, hjeq, fun k hk1 hk2 => hnos k (by omega) hk2⟩
              · have : j = i := by omega
                subst this
                rw [hb] at hjeq
                by_contra hescf
                exact h2 ⟨hjeq, hescf⟩
          have ihx := ih (i + 1) amount esc false hrest' hpS' hesc' hpfx'
          unfold tagsCountLoop
          rw [if_neg h1, if_neg h2, if_neg h3]
          exact ihx

/-- C7 (amended): `Tags::parse` fails with `EmptyInput` on an empty span,
`TagBytesExceededBy(len - 8190)` past 8190 bytes, `InvalidStartingPrefix`
when the first byte is not `@`, `NoTags` on a lone `@`, `NotUtf8` on
non-UTF-8 bytes; after those checks the scan reports, at the first
scan-error position, `EmptyKeyName` when a `;` or the final byte directly
follows a `;`, and `InvalidEscapedValueByte` when a null, LF, CR or space
byte sits inside an escaped value anywhere but the final position; on any
other input it succeeds. -/
theorem c7_tags_parse_amended (input : List Byte) :
    (input = [] → Tags.parse input = .error .emptyInput) ∧
    (input ≠ [] → input.length > 8190 →
      Tags.parse input = .error (.tagBytesExceededBy (input.length - 8190))) ∧
    (input ≠ [] → ¬input.length > 8190 → input.getD 0 0 ≠ 64 →
      Tags.parse input = .error (.invalidStartingPrefix (input.getD 0 0))) ∧
    (input ≠ [] → ¬input.length > 8190 → input.getD 0 0 = 64 → input.length = 1 →
      Tags.parse input = .error .noTags) ∧
    (input ≠ [] → ¬input.length > 8190 → input.getD 0 0 = 64 → input.length ≠ 1 →
      ¬isUtf8 input → Tags.parse input = .error .notUtf8) ∧
    (input ≠ [] → ¬input.length > 8190 → input.getD 0 0 = 64 → input.length ≠ 1 →
      isUtf8 input →
      ∀ k, scanErrAt input k → (∀ j, j < k → ¬scanErrAt input j) →
        Tags.parse input = (if scanEmptyKeyAt input k then .error .emptyKeyName
                            else .error (.invalidEscapedValueByte (input.getD k 0)))) ∧
    (input ≠ [] → ¬input.length > 8190 → input.getD 0 0 = 64 → input.length ≠ 1 →
      isUtf8 input → (∀ j, j < input.length → ¬scanErrAt input j) →
      ∃ a, Tags.parse input = .ok ⟨a, input⟩) := by
  refine ⟨fun h => by rw [h]; rfl, fun h1 h2 => ?_, fun h1 h2 h3 => ?_,
          fun h1 h2 h3 h4 => ?_, fun h1 h2 h3 h4 h5 => ?_,
          fun h1 h2 h3 h4 h5 => ?_, fun h1 h2 h3 h4 h5 h6 => ?_⟩
  · unfold Tags.parse
    rw [if_neg h1, if_pos h2]
  · unfold Tags.parse
    rw [if_neg h1, if_neg h2, if_pos h3]
  · unfold Tags.parse
    rw [if_neg h1, if_neg h2, if_neg (not_not_intro h3), if_pos h4]
  · unfold Tags.parse
    rw [if_neg h1, if_neg h2, if_neg (not_not_intro h3), if_neg h4, if_neg h5]
  · intro k hk hkf
    have hlen2 : 2 ≤ input.length := by
      have := List.length_pos.2 h1
      omega
    have hchar := tagsCountLoop_char input h3 hlen2 input 0 0 false true rfl
      (by simp) (⟨fun h' => by simp at h', fun h' => by
        rcases h' with ⟨j, hj, _, _⟩; omega⟩) (fun j hj => absurd hj (by omega))
    have heq := hchar.2 k hk hkf
    unfold Tags.parse
    rw [if_neg h1, if_neg h2, if_neg (not_not_intro h3), if_neg h4, if_pos h5, heq]
    by_cases hek : scanEmptyKeyAt input k
    · rw [if_pos hek, if_pos hek]
    · rw [if_neg hek, if_neg hek]
  · have hlen2 : 2 ≤ input.length := by
      have := List.length_pos.2 h1
      omega
    have hchar := tagsCountLoop_char input h3 hlen2 input 0 0 false true rfl
      (by simp) (⟨fun h' => by simp at h', fun h' => by
        rcases h' with ⟨j, hj, _, _⟩; omega⟩) (fun j hj => absurd hj (by omega))
    rcases hchar.1 h6 with ⟨a, heq⟩
    refine ⟨a, ?_⟩
    unfold Tags.parse
    rw [if_neg h1, if_neg h2, if_neg (not_not_intro h3), if_neg h4, if_pos h5, heq]

/-- Witness for C7 at the span `"@a=b"`: one tag, key `a`, value `b`. -/
theorem c7_witness : ∃ a, Tags.parse [64, 97, 61, 98] = .ok ⟨a, [64, 97, 61, 98]⟩ :=
  (c7_tags_parse_amended [64, 97, 61, 98]).2.2.2.2.2.2 (by decide) (by decide)
    (by rfl) (by decide) (by rfl) (by decide)

/-! ## C2: auxiliary facts about the sub-parsers -/

/-- `ContentType::new` keeps the bytes. -/
theorem ContentType.as_bytes_new (input : List Byte) :
    (ContentType.new input).as_bytes = input := by
  unfold ContentType.new
  split <;> rfl

/-- A UTF-8 `ContentType` renders as its raw bytes. -/
theorem ContentType.render_of_valid {c : ContentType} (h : c.is_valid_utf8 = true) :
    c.render = c.as_bytes := by
  cases c with
  | stringSlice s => rfl
  | nonUtf8ByteSlice b => simp [ContentType.is_valid_utf8] at h

/-- Inversion of a successful `Tags::parse`: the content is stored verbatim
and the guard checks passed. -/
theorem tags_parse_ok_inv {t : List Byte} {tg : Tags} (h : Tags.parse t = .ok tg) :
    tg.content = t ∧ t ≠ [] ∧ t.getD 0 0 = 64 ∧ 2 ≤ t.length ∧ t.length ≤ 8190 := by
  unfold Tags.parse at h
  by_cases h1 : t = []
  · rw [if_pos h1] at h; simp at h
  rw [if_neg h1] at h
  by_cases h2 : t.length > 8190
  · rw [if_pos h2] at h; simp at h
  rw [if_neg h2] at h
  by_cases h3 : t.getD 0 0 ≠ 64
  · rw [if_pos h3] at h; simp at h
  rw [if_neg h3] at h
  push_neg at h3
  by_cases h4 : t.length = 1
  · rw [if_pos h4] at h; simp at h
  rw [if_neg h4] at h
  by_cases h5 : isUtf8 t
  · rw [if_pos h5] at h
    cases hcl : tagsCountLoop t 0 t 0 false true with
    | ok a =>
      rw [hcl] at h
      cases h
      refine ⟨rfl, h1, h3, ?_, by omega⟩
      have := List.length_pos.2 h1
      omega
    | error e => rw [hcl] at h; simp at h
  · rw [if_neg h5] at h; simp at h

/-- Inversion of a successful non-empty `Parameters::parse`. -/
theorem params_parse_ok_inv {p : List Byte} {pm : Parameters}
    (h : Parameters.parse p = .ok (some pm)) :
    pm.content = ContentType.new p ∧ p ≠ [] := by
  unfold Parameters.parse at h
  by_cases h1 : p = []
  · rw [if_pos h1] at h; simp at h
  rw [if_neg h1] at h
  cases hcl : paramsCountLoop p 0 p 1 0 false with
  | ok a => rw [hcl] at h; cases h; exact ⟨rfl, h1⟩
  | error e => rw [hcl] at h; simp at h

/-- Reparsing the stored parameter bytes reproduces the same value. -/
theorem params_reparse {p : List Byte} {pm : Parameters}
    (h : Parameters.parse p = .ok (some pm)) :
    Parameters.parse pm.content.as_bytes = .ok (some pm) := by
  have hinv := params_parse_ok_inv h
  rw [hinv.1, ContentType.as_bytes_new]
  exact h

/-- A nonempty list whose head is known, in cons form. -/
theorem eq_cons_of_getD {s : List Byte} {b : Byte} (hne : s ≠ [])
    (h : s.getD 0 0 = b) : s = b :: s.drop 1 := by
  cases s with
  | nil => exact absurd rfl hne
  | cons x tl => simp at h; simp [h]

/-- A `getD` hit different from the default is inside the list. -/
theorem lt_length_of_getD {s : List Byte} {i : Nat} {b : Byte}
    (h : s.getD i 0 = b) (hb : b ≠ 0) : i < s.length := by
  by_contra hge
  push_neg at hge
  rw [List.getD_eq_default _ _ (by omega)] at h
  exact hb h.symm

/-- `getD` of a member position yields a member. -/
theorem getD_mem {s : List Byte} {i : Nat} (h : i < s.length) :
    s.getD i 0 ∈ s := by
  rw [List.getD_eq_getElem _ _ h]
  exact List.getElem_mem h

/-- `getD` inside the taken prefix. -/
theorem getD_take {s : List Byte} {n i : Nat} (h : i < n) :
    (s.take n).getD i 0 = s.getD i 0 := by
  rcases Nat.lt_or_ge i s.length with hi | hi
  · rw [List.getD_eq_getElem _ _ (by simp; omega), List.getD_eq_getElem _ _ hi]
    simp
  · rw [List.getD_eq_default _ _ (by simp; omega), List.getD_eq_default _ _ (by omega)]

/-- `getD` through `drop`. -/
theorem getD_drop (s : List Byte) (n i : Nat) :
    (s.drop n).getD i 0 = s.getD (n + i) 0 := by
  rcases Nat.lt_or_ge (n + i) s.length with hi | hi
  · rw [List.getD_eq_getElem _ _ (by simp; omega), List.getD_eq_getElem _ _ hi]
    simp
  · rw [List.getD_eq_default _ _ (by simp; omega), List.getD_eq_default _ _ (by omega)]

/-- Invariants the marker scan of `Source::parse` maintains while at index
`i`: `nick_end + 1` is the position of the `!` (or, without `!`, the `@`)
most recently recorded, strictly before `i`; with both markers, either
`nick_end + user_end + 2` is the position of the recorded `@`, or an earlier
marker byte is buried inside the nick prefix. -/
def SrcInv (input : List Byte) (i ne ue : Nat) (up hp : Bool) : Prop :=
  (up = true → input.getD (ne + 1) 0 = 33 ∧ ne + 1 < i) ∧
  (up = false → hp = true → input.getD (ne + 1) 0 = 64 ∧ ne + 1 < i) ∧
  (up = true → hp = true →
    (input.getD (ne + ue + 2) 0 = 64 ∨
     ∃ j, 1 ≤ j ∧ j ≤ ne ∧ (input.getD j 0 = 33 ∨ input.getD j 0 = 64)))

/-- The index-free residue of `SrcInv` at loop exit. -/
def SrcOut (input : List Byte) (ne ue : Nat) (up hp : Bool) : Prop :=
  (up = true → input.getD (ne + 1) 0 = 33) ∧
  (up = false → hp = true → input.getD (ne + 1) 0 = 64) ∧
  (up = true → hp = true →
    (input.getD (ne + ue + 2) 0 = 64 ∨
     ∃ j, 1 ≤ j ∧ j ≤ ne ∧ (input.getD j 0 = 33 ∨ input.getD j 0 = 64)))

/-- The marker scan of `Source::parse` preserves `SrcInv` and hands `SrcOut`
to the caller. -/
theorem srcScanLoop_inv (input : List Byte) :
    ∀ (rest : List Byte) (i ne ue : Nat) (ps up hp : Bool)
      (out : Nat × Nat × Bool × Bool × Bool),
      rest = input.drop i → 1 ≤ i →
      SrcInv input i ne ue up hp →
      srcScanLoop input i rest ne ue ps up hp = .ok out →
      SrcOut input out.1 out.2.1 out.2.2.2.1 out.2.2.2.2 := by
  intro rest
  induction rest with
  | nil =>
    intro i ne ue ps up hp out _ _ hinv h
    cases h
    exact ⟨fun hu => (hinv.1 hu).1, fun hu hh => (hinv.2.1 hu hh).1, hinv.2.2⟩
  | cons b rest' ih =>
    intro i ne ue ps up hp out hrest hpos hinv h
    have hb : input.getD i 0 = b := getD_of_drop hrest.symm
    have hrest' : rest' = input.drop (i + 1) := (drop_succ_of_drop hrest.symm).symm
    unfold srcScanLoop at h
    by_cases hc1 : Source.is_invalid_byte b = true
    · rw [if_pos hc1] at h; simp at h
    rw [if_neg hc1] at h
    by_cases hc2 : b = 33
    · rw [if_pos hc2] at h
      refine ih (i + 1) (i - 1) ue ps true hp out hrest' (by omega) ⟨?_, ?_, ?_⟩ h
      · intro _
        constructor
        · rw [show i - 1 + 1 = i by omega, hb]
          exact hc2
        · omega
      · intro hu; simp at hu
      · intro _ hh
        right
        rcases hu : up with _ | _
        · rcases hinv.2.1 hu hh with ⟨hpos64, hlt⟩
          exact ⟨ne + 1, by omega, by omega, Or.inr hpos64⟩
        · rcases hinv.1 hu with ⟨hpos33, hlt⟩
          exact ⟨ne + 1, by omega, by omega, Or.inl hpos33⟩
    rw [if_neg hc2] at h
    by_cases hc3 : b = 64 ∧ up = true
    · rw [if_pos hc3] at h
      rcases hinv.1 hc3.2 with ⟨hpos33, hlt⟩
      refine ih (i + 1) ne (i - ne - 2) ps up true out hrest' (by omega) ⟨?_, ?_, ?_⟩ h
      · intro _; exact ⟨hpos33, by omega⟩
      · intro hu; rw [hu] at hc3; simp at hc3
      · intro _ _
        left
        rw [show ne + (i - ne - 2) + 2 = i by omega, hb]
        exact hc3.1
    rw [if_neg hc3] at h
    by_cases hc4 : b = 64 ∧ ¬up = true
    · rw [if_pos hc4] at h
      refine ih (i + 1) (i - 1) ue ps up true out hrest' (by omega) ⟨?_, ?_, ?_⟩ h
      · intro hu; exact absurd hu hc4.2
      · intro _ _
        constructor
        · rw [show i - 1 + 1 = i by omega, hb]
          exact hc4.1
        · omega
      · intro hu; exact absurd hu hc4.2
    rw [if_neg hc4] at h
    have hweak : SrcInv input (i + 1) ne ue up hp :=
      ⟨fun hu => ⟨(hinv.1 hu).1, by have := (hinv.1 hu).2; omega⟩,
       fun hu hh => ⟨(hinv.2.1 hu hh).1, by have := (hinv.2.1 hu hh).2; omega⟩,
       hinv.2.2⟩
    by_cases hc5 : b = 46 ∧ ¬up = true ∧ ¬hp = true
    · rw [if_pos hc5] at h
      exact ih (i + 1) ne ue true up hp out hrest' (by omega) hweak h
    · rw [if_neg hc5] at h
      exact ih (i + 1) ne ue ps up hp out hrest' (by omega) hweak h

/-- A successful marker scan saw no invalid byte. -/
theorem srcScanLoop_ok_valid (input : List Byte) :
    ∀ (rest : List Byte) (i ne ue : Nat) (ps up hp : Bool)
      (out : Nat × Nat × Bool × Bool × Bool),
      srcScanLoop input i rest ne ue ps up hp = .ok out →
      ∀ b ∈ rest, Source.is_invalid_byte b = false := by
  intro rest
  induction rest with
  | nil => intro _ _ _ _ _ _ _ _ b hb; simp at hb
  | cons b rest' ih =>
    intro i ne ue ps up hp out h c hc
    unfold srcScanLoop at h
    by_cases hc1 : Source.is_invalid_byte b = true
    · rw [if_pos hc1] at h; simp at h
    rw [if_neg hc1] at h
    rcases List.mem_cons.1 hc with rfl | hc
    · exact Bool.not_eq_true _ ▸ eq_false_of_ne_true hc1
    · split at h
      · exact ih _ _ _ _ _ _ _ h c hc
      · split at h
        · exact ih _ _ _ _ _ _ _ h c hc
        · split at h
          · exact ih _ _ _ _ _ _ _ h c hc
          · split at h
            · exact ih _ _ _ _ _ _ _ h c hc
            · exact ih _ _ _ _ _ _ _ h c hc

/-- The first step of the marker scan on the mandatory `:`. -/
theorem srcScanLoop_step0 (input tl : List Byte) (h : input = 58 :: tl) :
    srcScanLoop input 0 input 0 0 false false false =
    srcScanLoop input 1 tl 0 0 false false false := by
  rw [h]
  rfl

/-- A clean `invalid_nick_byte` scan means no marker bytes in the nick. -/
theorem invalid_nick_byte_none {l : List Byte} (h : invalid_nick_byte l = none) :
    ∀ b ∈ l, b ≠ 33 ∧ b ≠ 64 := by
  induction l with
  | nil => intro b hb; simp at hb
  | cons x l ih =>
    intro b hb
    unfold invalid_nick_byte at h
    by_cases hx : x = 32 ∨ x = 33 ∨ x = 42 ∨ x = 44 ∨ x = 63 ∨ x = 64
    · rw [if_pos hx] at h; simp at h
    · rw [if_neg hx] at h
      rcases List.mem_cons.1 hb with rfl | hb
      · push_neg at hx
        exact ⟨hx.2.1, hx.2.2.2.2.2⟩
      · exact ih h b hb

/-- Rendering a source accepted by `Source::parse` reproduces the exact span
it was parsed from, provided every rendered field is valid UTF-8. -/
theorem Source.parse_render {s : List Byte} {src : Source}
    (h : Source.parse s = .ok src) (hutf8 : src.origin.is_valid_utf8 = true) :
    src.render = s := by
  unfold Source.parse at h
  by_cases h1 : s = []
  · rw [if_pos h1] at h; simp at h
  rw [if_neg h1] at h
  by_cases h2 : s.getD 0 0 ≠ 58
  · rw [if_pos h2] at h; simp at h
  rw [if_neg h2] at h
  push_neg at h2
  have hs : s = 58 :: s.drop 1 := eq_cons_of_getD h1 h2
  cases hscan : srcScanLoop s 0 s 0 0 false false false with
  | error e => rw [hscan] at h; simp at h
  | ok out =>
    obtain ⟨ne, ue, ps, up, hp⟩ := out
    rw [hscan] at h
    have hout : SrcOut s ne ue up hp := by
      rw [srcScanLoop_step0 s (s.drop 1) hs] at hscan
      exact srcScanLoop_inv s (s.drop 1) 1 0 0 false false false _ rfl (by omega)
        ⟨fun hu => by simp at hu, fun _ hh => by simp at hh,
         fun hu => absurd hu (by simp)⟩ hscan
    have htl0 : ∀ n, (s.drop 1).getD n 0 = s.getD (n + 1) 0 := by
      intro n
      rw [getD_drop, Nat.add_comm]
    have e1 : (s.drop 1).take ne ++ (s.drop 1).drop ne = s.drop 1 :=
      List.take_append_drop ne (s.drop 1)
    dsimp only at h
    by_cases hps : ps = true
    · rw [if_pos hps] at h
      injection h with h
      subst h
      simp only [Origin.is_valid_utf8] at hutf8
      show (58 : Byte) :: (ContentType.new (s.drop 1)).render = s
      rw [ContentType.render_of_valid hutf8, ContentType.as_bytes_new]
      exact hs.symm
    rw [if_neg hps] at h
    by_cases huh : up = true ∧ hp = true
    · rw [if_pos huh] at h
      by_cases hn1 : (s.drop 1).take ne = []
      · rw [if_pos hn1] at h; simp at h
      rw [if_neg hn1] at h
      by_cases hn2 : is_invalid_nick_starting_byte (((s.drop 1).take ne).getD 0 0) = true
      · rw [if_pos hn2] at h; simp at h
      rw [if_neg hn2] at h
      cases hnick : invalid_nick_byte ((s.drop 1).take ne) with
      | some byte => rw [hnick] at h; simp at h
      | none =>
        rw [hnick] at h
        by_cases hu1 : (((s.drop 1).drop ne).drop 1).take ue = []
        · rw [if_pos hu1] at h; simp at h
        rw [if_neg hu1] at h
        by_cases hh1 : ((((s.drop 1).drop ne).drop 1).drop ue).drop 1 = []
        · rw [if_pos hh1] at h; simp at h
        rw [if_neg hh1] at h
        injection h with h
        subst h
        simp only [Origin.is_valid_utf8, Bool.and_eq_true] at hutf8
        obtain ⟨⟨hv1, hv2⟩, hv3⟩ := hutf8
        have h33 : ((s.drop 1).drop ne).getD 0 0 = 33 := by
          rw [getD_drop, Nat.add_zero, htl0]
          exact hout.1 huh.1
        have e2 : (s.drop 1).drop ne = 33 :: ((s.drop 1).drop ne).drop 1 :=
          eq_cons_of_getD (by
            intro hnil
            rw [hnil] at h33
            simp at h33) h33
        have e3 : (((s.drop 1).drop ne).drop 1).take ue ++
            (((s.drop 1).drop ne).drop 1).drop ue = ((s.drop 1).drop ne).drop 1 :=
          List.take_append_drop ue (((s.drop 1).drop ne).drop 1)
        have h64 : ((((s.drop 1).drop ne).drop 1).drop ue).getD 0 0 = 64 := by
          rcases hout.2.2 huh.1 huh.2 with h64 | ⟨j, hj1, hjne, hmark⟩
          · rw [getD_drop, getD_drop, getD_drop, getD_drop,
                show (1 : Nat) + (ne + (1 + (ue + 0))) = ne + ue + 2 by omega]
            exact h64
          · exfalso
            have hmarkne : s.getD j 0 ≠ 0 := by
              rcases hmark with hm | hm <;> rw [hm] <;> decide
            have hjlt : j < s.length := lt_length_of_getD rfl hmarkne
            have hnicklen : j - 1 < ((s.drop 1).take ne).length := by
              simp only [List.length_take, List.length_drop]
              omega
            have hnickval : ((s.drop 1).take ne).getD (j - 1) 0 = s.getD j 0 := by
              rw [getD_take (by omega), htl0, show j - 1 + 1 = j by omega]
            have hbmem := getD_mem hnicklen
            rw [hnickval] at hbmem
            have hnomark := invalid_nick_byte_none hnick _ hbmem
            rcases hmark with hm | hm
            · exact hnomark.1 hm
            · exact hnomark.2 hm
        have e4 : (((s.drop 1).drop ne).drop 1).drop ue =
            64 :: ((((s.drop 1).drop ne).drop 1).drop ue).drop 1 :=
          eq_cons_of_getD (by
            intro hnil
            rw [hnil] at h64
            simp at h64) h64
        simp only [Source.render, Origin.render, Nickname.render]
        rw [ContentType.render_of_valid hv1, ContentType.render_of_valid hv2,
            ContentType.render_of_valid hv3, ContentType.as_bytes_new,
            ContentType.as_bytes_new, ContentType.as_bytes_new,
            List.append_assoc, List.cons_append, ← e4, e3, ← e2, e1]
        exact hs.symm
    rw [if_neg huh] at h
    by_cases hup : up = true
    · rw [if_pos hup] at h
      by_cases hn1 : (s.drop 1).take ne = []
      · rw [if_pos hn1] at h; simp at h
      rw [if_neg hn1] at h
      by_cases hn2 : is_invalid_nick_starting_byte (((s.drop 1).take ne).getD 0 0) = true
      · rw [if_pos hn2] at h; simp at h
      rw [if_neg hn2] at h
      cases hnick : invalid_nick_byte ((s.drop 1).take ne) with
      | some byte => rw [hnick] at h; simp at h
      | none =>
        rw [hnick] at h
        by_cases hu1 : ((s.drop 1).drop ne).drop 1 = []
        · rw [if_pos hu1] at h; simp at h
        rw [if_neg hu1] at h
        injection h with h
        subst h
        simp only [Origin.is_valid_utf8, Bool.and_eq_true] at hutf8
        obtain ⟨⟨hv1, hv2⟩, _⟩ := hutf8
        have h33 : ((s.drop 1).drop ne).getD 0 0 = 33 := by
          rw [getD_drop, Nat.add_zero, htl0]
          exact hout.1 hup
        have e2 : (s.drop 1).drop ne = 33 :: ((s.drop 1).drop ne).drop 1 :=
          eq_cons_of_getD (by
            intro hnil
            rw [hnil] at h33
            simp at h33) h33
        simp only [Source.render, Origin.render, Nickname.render]
        rw [ContentType.render_of_valid hv1, ContentType.render_of_valid hv2,
            ContentType.as_bytes_new, ContentType.as_bytes_new, ← e2, e1]
        exact hs.symm
    rw [if_neg hup] at h
    by_cases hhp : hp = true
    · rw [if_pos hhp] at h
      by_cases hn1 : (s.drop 1).take ne = []
      · rw [if_pos hn1] at h; simp at h
      rw [if_neg hn1] at h
      by_cases hn2 : is_invalid_nick_starting_byte (((s.drop 1).take ne).getD 0 0) = true
      · rw [if_pos hn2] at h; simp at h
      rw [if_neg hn2] at h
      cases hnick : invalid_nick_byte ((s.drop 1).take ne) with
      | some byte => rw [hnick] at h; simp at h
      | none =>
        rw [hnick] at h
        by_cases hu1 : ((s.drop 1).drop ne).drop 1 = []
        · rw [if_pos hu1] at h; simp at h
        rw [if_neg hu1] at h
        injection h with h
        subst h
        simp only [Origin.is_valid_utf8, Bool.and_eq_true] at hutf8
        obtain ⟨⟨hv1, _⟩, hv3⟩ := hutf8
        have h64 : ((s.drop 1).drop ne).getD 0 0 = 64 := by
          rw [getD_drop, Nat.add_zero, htl0]
          exact hout.2.1 (by simpa using hup) hhp
        have e2 : (s.drop 1).drop ne = 64 :: ((s.drop 1).drop ne).drop 1 :=
          eq_cons_of_getD (by
            intro hnil
            rw [hnil] at h64
            simp at h64) h64
        simp only [Source.render, Origin.render, Nickname.render]
        rw [ContentType.render_of_valid hv1, ContentType.render_of_valid hv3,
            ContentType.as_bytes_new, ContentType.as_bytes_new, ← e2, e1]
        exact hs.symm
    · rw [if_neg hhp] at h
      by_cases hn2 : is_invalid_nick_starting_byte ((s.drop 1).getD 0 0) = true
      · rw [if_pos hn2] at h; simp at h
      rw [if_neg hn2] at h
      cases hnick : invalid_nick_byte (s.drop 1) with
      | some byte => rw [hnick] at h; simp at h
      | none =>
        rw [hnick] at h
        injection h with h
        subst h
        simp only [Origin.is_valid_utf8, Bool.and_eq_true] at hutf8
        obtain ⟨⟨hv1, _⟩, _⟩ := hutf8
        simp only [Source.render, Origin.render, Nickname.render]
        rw [ContentType.render_of_valid hv1, ContentType.as_bytes_new]
        exact hs.symm

/-- Structural facts of a successful `Source::parse`: the span is nonempty,
starts with `:` and contains no null, LF, CR or space byte. -/
theorem source_parse_ok_facts {s : List Byte} {src : Source}
    (h : Source.parse s = .ok src) :
    s ≠ [] ∧ s.getD 0 0 = 58 ∧ ∀ b ∈ s, Source.is_invalid_byte b = false := by
  unfold Source.parse at h
  by_cases h1 : s = []
  · rw [if_pos h1] at h; simp at h
  rw [if_neg h1] at h
  by_cases h2 : s.getD 0 0 ≠ 58
  · rw [if_pos h2] at h; simp at h
  rw [if_neg h2] at h
  push_neg at h2
  cases hscan : srcScanLoop s 0 s 0 0 false false false with
  | error e => rw [hscan] at h; simp at h
  | ok out => exact ⟨h1, h2, srcScanLoop_ok_valid s s 0 0 0 false false false out hscan⟩

/-- The validation loop of `Command::parse` on alphanumeric input counts its
digits. -/
theorem cmdScanLoop_alnum : ∀ (l : List Byte) (n : Nat),
    (∀ b ∈ l, isAsciiAlphanumeric b = true) →
    cmdScanLoop l n = .ok (n + l.countP (fun b => isAsciiDigit b)) := by
  intro l
  induction l with
  | nil => intro n _; simp [cmdScanLoop]
  | cons b l ih =>
    intro n hal
    have hb := hal b (by simp)
    have hcount : List.countP (fun x => isAsciiDigit x) (b :: l) =
        List.countP (fun x => isAsciiDigit x) l + (if isAsciiDigit b then 1 else 0) := by
      rw [List.countP_cons]
    unfold cmdScanLoop
    rw [if_neg (by simp [is_invalid_char, hb]), hcount]
    by_cases hd : isAsciiDigit b = true
    · rw [if_pos hd, ih (n + 1) (fun c hc => hal c (by simp [hc])), if_pos hd]
      congr 1
      omega
    · rw [if_neg hd, ih n (fun c hc => hal c (by simp [hc])), if_neg hd]
      simp

/-- A successful validation loop of `Command::parse` saw only alphanumerics. -/
theorem cmdScanLoop_ok_alnum : ∀ (l : List Byte) (n d : Nat),
    cmdScanLoop l n = .ok d → ∀ b ∈ l, isAsciiAlphanumeric b = true := by
  intro l
  induction l with
  | nil => intro n d _ b hb; simp at hb
  | cons c l ih =>
    intro n d h b hb
    unfold cmdScanLoop at h
    by_cases hc : is_invalid_char c = true
    · rw [if_pos hc] at h; simp at h
    rw [if_neg hc] at h
    rcases List.mem_cons.1 hb with rfl | hb
    · simp [is_invalid_char] at hc
      exact hc
    · by_cases hd : isAsciiDigit c = true
      · rw [if_pos hd] at h; exact ih _ _ h b hb
      · rw [if_neg hd] at h; exact ih _ _ h b hb

/-- A `lookup` hit is a member of the association list. -/
theorem lookup_mem {α β : Type} [BEq α] [LawfulBEq α] {k : α} {v : β} :
    ∀ {l : List (α × β)}, List.lookup k l = some v → (k, v) ∈ l := by
  intro l
  induction l with
  | nil => intro h; simp [List.lookup] at h
  | cons e l ih =>
    obtain ⟨kk, vv⟩ := e
    intro h
    by_cases hk : (k == kk) = true
    · have hkk : k = kk := eq_of_beq hk
      subst hkk
      simp [List.lookup] at h
      subst h
      exact List.mem_cons_self _ _
    · simp only [List.lookup, Bool.not_eq_true] at h
      rw [eq_false_of_ne_true hk] at h
      exact List.mem_cons_of_mem _ (ih h)

/-- Well-formedness of the named command table: every canonical spelling is a
nonempty, digit-free, alphanumeric token of at most 12 bytes whose zero-padded
uppercasing is exactly its key. -/
theorem namedTable_wf : ∀ e ∈ namedTable, e.2.1 ≠ [] ∧
    (∀ b ∈ e.2.1, isAsciiAlphanumeric b = true) ∧
    e.2.1.countP (fun b => isAsciiDigit b) = 0 ∧
    command_to_uppercase_bytes e.2.1 = some e.1 := by
  decide

/-- Inversion of a successful `Command::parse`: either a numeric hit or a
named-table hit, with the facts each branch established. -/
theorem command_parse_ok_inv {input : List Byte} {n : Nat} {cmd : Command}
    (h : Command.parse input n = some (.ok cmd)) :
    (cmd = .numeric input ∧ input.length = 3 ∧ cmdScanLoop input 0 = .ok 3 ∧
      ∃ min, numericTable.lookup input = some min ∧ ¬ n < min) ∨
    (∃ upper canonical min, cmd = .named canonical ∧ input ≠ [] ∧
      cmdScanLoop input 0 = .ok 0 ∧
      command_to_uppercase_bytes input = some upper ∧
      namedTable.lookup upper = some (canonical, min) ∧ ¬ n < min) := by
  unfold Command.parse at h
  by_cases he : input = []
  · rw [if_pos he] at h; simp at h
  rw [if_neg he] at h
  cases hscan : cmdScanLoop input 0 with
  | error e => simp only [hscan] at h; simp at h
  | ok nc =>
    simp only [hscan] at h
    by_cases h3 : input.length = 3 ∧ nc = 3
    · rw [if_pos h3] at h
      cases hlk : numericTable.lookup input with
      | none => simp only [hlk] at h; simp at h
      | some min =>
        simp only [hlk] at h
        by_cases hm : n < min
        · rw [if_pos hm] at h; simp at h
        · rw [if_neg hm] at h
          simp at h
          obtain ⟨hlen, hnc⟩ := h3
          subst hnc
          refine .inl ⟨?_, hlen, rfl, min, rfl, hm⟩
          first
          | exact h
          | exact h.symm
    · rw [if_neg h3] at h
      by_cases hg : nc > 0
      · rw [if_pos hg] at h; simp at h
      rw [if_neg hg] at h
      cases hup : command_to_uppercase_bytes input with
      | none => simp only [hup] at h; simp at h
      | some upper =>
        simp only [hup] at h
        cases hlk : namedTable.lookup upper with
        | none => simp only [hlk] at h; simp at h
        | some p =>
          obtain ⟨canonical, min⟩ := p
          simp only [hlk] at h
          by_cases hm : n < min
          · rw [if_pos hm] at h; simp at h
          · rw [if_neg hm] at h
            simp at h
            have hnc : nc = 0 := by omega
            subst hnc
            refine .inr ⟨upper, canonical, min, ?_, he, rfl, rfl, hlk, hm⟩
            first
            | exact h
            | exact h.symm

/-- Replaying `Command::parse` on a canonical named spelling that hits the
table reproduces that command. -/
theorem Command.parse_named_hit {canonical upper : List Byte} {min n : Nat}
    (hne : canonical ≠ [])
    (hal : ∀ b ∈ canonical, isAsciiAlphanumeric b = true)
    (hcnt : canonical.countP (fun b => isAsciiDigit b) = 0)
    (hup : command_to_uppercase_bytes canonical = some upper)
    (hlk : namedTable.lookup upper = some (canonical, min))
    (hmin : ¬ n < min) :
    Command.parse canonical n = some (.ok (.named canonical)) := by
  have hscan : cmdScanLoop canonical 0 = .ok 0 := by
    have h := cmdScanLoop_alnum canonical 0 hal
    rw [hcnt] at h
    exact h
  unfold Command.parse
  rw [if_neg hne]
  simp only [hscan, hup, hlk]
  rw [if_neg (show ¬(canonical.length = 3 ∧ (0:Nat) = 3) by simp),
    if_neg (show ¬(0:Nat) > 0 by simp), if_neg hmin]

/-- Re-parsing the rendering of a successfully parsed command, with the same
parameter count, reproduces the command. -/
theorem Command.parse_idem {input : List Byte} {n : Nat} {cmd : Command}
    (h : Command.parse input n = some (.ok cmd)) :
    Command.parse cmd.render n = some (.ok cmd) := by
  rcases command_parse_ok_inv h with ⟨rfl, _⟩ |
    ⟨upper, canonical, min, rfl, _, _, _, hlk, hmin⟩
  · exact h
  · have hwf := namedTable_wf _ (lookup_mem hlk)
    obtain ⟨hne, hal, hcnt, hup2⟩ := hwf
    exact Command.parse_named_hit hne hal hcnt hup2 hlk hmin

/-- The rendering of a successfully parsed command is a nonempty, purely
alphanumeric byte string. -/
theorem command_parse_ok_facts {input : List Byte} {n : Nat} {cmd : Command}
    (h : Command.parse input n = some (.ok cmd)) :
    cmd.render ≠ [] ∧ ∀ b ∈ cmd.render, isAsciiAlphanumeric b = true := by
  rcases command_parse_ok_inv h with ⟨rfl, hlen, hscan, _⟩ |
    ⟨upper, canonical, min, rfl, _, _, _, hlk, _⟩
  · constructor
    · intro hnil
      rw [show Command.render (.numeric input) = input from rfl] at hnil
      rw [hnil] at hlen
      simp at hlen
    · exact fun b hb => cmdScanLoop_ok_alnum input 0 3 hscan b hb
  · have hwf := namedTable_wf _ (lookup_mem hlk)
    exact ⟨hwf.1, hwf.2.1⟩

/-- Taking one more element, given the drop at that position. -/
theorem take_succ_of_drop : ∀ (input : List Byte) (index : Nat) (b : Byte)
    (r : List Byte), input.drop index = b :: r →
    input.take (index + 1) = input.take index ++ [b] := by
  intro input
  induction input with
  | nil => intro index b r h; simp at h
  | cons c l ih =>
    intro index b r h
    cases index with
    | zero =>
      simp at h
      simp [h.1]
    | succ n =>
      rw [List.drop_succ_cons] at h
      simp only [List.take_succ_cons, ih n b r h, List.cons_append]

/-- The facts about the scanning-loop state of `IrcMsg::parse` that the
round-trip argument needs: every stored tags value re-parses to itself from
its own content, which holds no space, and every stored source came from some
successfully parsed span. -/
def AsmOut (st : AsmSt) : Prop :=
  (∀ tg, st.tags = some tg → Tags.parse tg.content = .ok tg ∧ 32 ∉ tg.content) ∧
  (∀ src, st.source = some src → ∃ s, Source.parse s = .ok src)

/-- The invariant of the scanning loop of `IrcMsg::parse` that establishes
`AsmOut`. -/
def AsmInv (input : List Byte) (index : Nat) (st : AsmSt) : Prop :=
  (st.tag_present = true → 1 ≤ index) ∧
  (st.tag_present = true → st.tag_finished = false → 32 ∉ input.take index) ∧
  AsmOut st

/-- The scanning loop of `IrcMsg::parse` preserves `AsmInv` and so its
successful final state satisfies `AsmOut`. -/
theorem asmLoop_inv {input : List Byte} : ∀ (rest : List Byte) (index : Nat)
    (st st' : AsmSt), rest = input.drop index → AsmInv input index st →
    asmLoop input index rest st = .ok st' → AsmOut st' := by
  intro rest
  induction rest with
  | nil =>
    intro index st st' _ hinv h
    unfold asmLoop at h
    cases h
    exact hinv.2.2
  | cons b rest' ih =>
    intro index st st' hrest hinv h
    have hrest' : rest' = input.drop (index + 1) := (drop_succ_of_drop hrest.symm).symm
    have htake : input.take (index + 1) = input.take index ++ [b] :=
      take_succ_of_drop input index b rest' hrest.symm
    obtain ⟨h1i, h32, hout⟩ := hinv
    unfold asmLoop at h
    by_cases c1 : index = 0 ∧ b = 64
    · rw [if_pos c1] at h
      obtain ⟨hi0, hb⟩ := c1
      subst hi0
      subst hb
      refine ih 1 { st with tag_present := true } st' hrest'
        ⟨fun _ => le_refl 1, ?_, hout⟩ h
      intro _ _
      rw [show (0:Nat) + 1 = 1 from rfl] at htake
      rw [htake]
      simp
    rw [if_neg c1] at h
    by_cases c2 : index = 0 ∧ b = 58
    · rw [if_pos c2] at h
      refine ih (index + 1) { st with source_present := true } st' hrest'
        ⟨fun _ => by omega, ?_, hout⟩ h
      intro hp _
      exact absurd (h1i hp) (by omega)
    rw [if_neg c2] at h
    by_cases c3 : index = 0 ∧ b ≠ 58 ∧ b ≠ 64
    · rw [if_pos c3] at h
      refine ih (index + 1) { st with command_started := true } st' hrest'
        ⟨fun _ => by omega, ?_, hout⟩ h
      intro hp _
      exact absurd (h1i hp) (by rw [c3.1]; omega)
    rw [if_neg c3] at h
    by_cases c4 : st.tag_finished ∧ ¬st.command_started ∧ ¬st.source_present ∧ b = 58
    · rw [if_pos c4] at h
      refine ih (index + 1) { st with source_present := true } st' hrest'
        ⟨fun hp => by have := h1i hp; omega, ?_, hout⟩ h
      intro _ hf
      rw [hf] at c4
      exact absurd c4.1 (by simp)
    rw [if_neg c4] at h
    by_cases c5 : st.tag_present ∧ ¬st.tag_finished ∧ b = 32
    · rw [if_pos c5] at h
      cases htg : Tags.parse (input.take index) with
      | error e => simp only [htg] at h; simp at h
      | ok all_tags =>
        simp only [htg] at h
        refine ih (index + 1)
          { st with tag_finished := true, after_tag_end := index + 1,
                    copy := remove_possible_leading_space (input.drop index),
                    tags := some all_tags } st' hrest'
          ⟨fun _ => by omega, ?_, ?_, ?_⟩ h
        · intro _ hf; simp at hf
        · intro tg heq
          have : all_tags = tg := by injection heq
          subst this
          have hinv2 := tags_parse_ok_inv htg
          constructor
          · rw [hinv2.1]; exact htg
          · rw [hinv2.1]
            exact h32 c5.1 (eq_false_of_ne_true c5.2.1)
        · exact hout.2
    rw [if_neg c5] at h
    by_cases c6 : st.source_present ∧ ¬st.source_finished ∧ b = 32
    · rw [if_pos c6] at h
      cases hsrc : Source.parse (st.copy.take (index - st.after_tag_end)) with
      | error e => simp only [hsrc] at h; simp at h
      | ok src =>
        simp only [hsrc] at h
        refine ih (index + 1)
          { st with source_finished := true, after_source_end := index + 1,
                    copy := remove_possible_leading_space
                      (st.copy.drop (index - st.after_tag_end)),
                    source := some src, command_started := true } st' hrest'
          ⟨fun hp => by have := h1i hp; omega, ?_, ?_, ?_⟩ h
        · intro hp hf
          have hp' : st.tag_present = true := hp
          have hf' : st.tag_finished = false := hf
          exact absurd ⟨hp', by simp [hf'], c6.2.2⟩ c5
        · exact hout.1
        · intro src' heq
          have : src = src' := by injection heq
          subst this
          exact ⟨st.copy.take (index - st.after_tag_end), hsrc⟩
    rw [if_neg c6] at h
    by_cases c7 : st.command_started ∧ ¬st.parameters_started ∧ b = 32
    · rw [if_pos c7] at h
      refine ih (index + 1)
        { st with parameters_started := true,
                  copy := if st.source_present then
                      st.copy.take (index - st.after_source_end)
                    else st.copy.take (index - st.after_tag_end),
                  after_command_end := index + 1 } st' hrest'
        ⟨fun hp => by have := h1i hp; omega, ?_, hout⟩ h
      intro hp hf
      have hp' : st.tag_present = true := hp
      have hf' : st.tag_finished = false := hf
      exact absurd ⟨hp', by simp [hf'], c7.2.2⟩ c5
    rw [if_neg c7] at h
    by_cases c8 : st.tag_finished ∧ ¬st.source_present ∧ ¬st.command_started
    · rw [if_pos c8] at h
      refine ih (index + 1) { st with command_started := true } st' hrest'
        ⟨fun hp => by have := h1i hp; omega, ?_, hout⟩ h
      intro _ hf
      rw [hf] at c8
      exact absurd c8.1 (by simp)
    rw [if_neg c8] at h
    by_cases c9 : st.parameters_started = true
    · rw [if_pos c9] at h
      cases h
      exact hout
    rw [if_neg c9] at h
    refine ih (index + 1) st st' hrest' ⟨fun hp => by have := h1i hp; omega, ?_, hout⟩ h
    intro hp hf
    rw [htake]
    intro hmem
    rcases List.mem_append.1 hmem with hm | hm
    · exact h32 hp hf hm
    · have hb32 : b = 32 := (List.mem_singleton.1 hm).symm
      exact c5 ⟨hp, by simp [hf], hb32⟩

/-- Inversion of a successful `IrcMsg::parse`: the scanning loop succeeded and
the message's fields come from the final state as the code assembles them. -/
theorem ircmsg_parse_ok_inv {input : List Byte} {M : IrcMsg}
    (h : IrcMsg.parse input = some (.ok M)) :
    ∃ st, asmLoop input 0 input (asmInit input) = .ok st ∧
      M.tags = st.tags ∧ M.source = st.source ∧
      ((∃ pm, M.parameters = some pm ∧
          Parameters.parse (input.drop st.after_command_end) = .ok (some pm) ∧
          Command.parse st.copy pm.amount = some (.ok M.command)) ∨
        (M.parameters = none ∧ Command.parse st.copy 0 = some (.ok M.command))) := by
  unfold IrcMsg.parse at h
  by_cases he : input = []
  · rw [if_pos he] at h; simp at h
  rw [if_neg he] at h
  cases hloop : asmLoop input 0 input (asmInit input) with
  | error e => simp only [hloop] at h; simp at h
  | ok st =>
    simp only [hloop] at h
    refine ⟨st, rfl, ?_⟩
    by_cases hps : st.parameters_started = true
    · rw [if_pos hps] at h
      cases hP : Parameters.parse (input.drop st.after_command_end) with
      | error e => simp only [hP] at h; simp at h
      | ok o =>
        cases o with
        | none => simp only [hP] at h; simp at h
        | some pm =>
          simp only [hP] at h
          cases hC : Command.parse st.copy pm.amount with
          | none => simp only [hC] at h; simp at h
          | some r =>
            cases r with
            | error e => simp only [hC] at h; simp at h
            | ok cmd =>
              simp only [hC] at h
              injection h with h
              injection h with h
              subst h
              exact ⟨rfl, rfl, .inl ⟨pm, rfl, rfl, hC⟩⟩
    · rw [if_neg hps] at h
      cases hC : Command.parse st.copy 0 with
      | none => simp only [hC] at h; simp at h
      | some r =>
        cases r with
        | error e => simp only [hC] at h; simp at h
        | ok cmd =>
          simp only [hC] at h
          injection h with h
          injection h with h
          subst h
          exact ⟨rfl, rfl, .inr ⟨rfl, rfl⟩⟩

/-- A byte on which, at a nonzero index, no branch of the scanning loop of
`IrcMsg::parse` fires: the loop advances with an unchanged state. -/
def asmSkip (st : AsmSt) (b : Byte) : Prop :=
  ¬(st.tag_finished ∧ ¬st.command_started ∧ ¬st.source_present ∧ b = 58) ∧
  ¬(st.tag_present ∧ ¬st.tag_finished ∧ b = 32) ∧
  ¬(st.source_present ∧ ¬st.source_finished ∧ b = 32) ∧
  ¬(st.command_started ∧ ¬st.parameters_started ∧ b = 32) ∧
  ¬(st.tag_finished ∧ ¬st.source_present ∧ ¬st.command_started) ∧
  st.parameters_started = false

/-- Scanning a segment of skippable bytes leaves the state unchanged and
advances the index by the segment's length. -/
theorem asmLoop_skip : ∀ (seg : List Byte) (input : List Byte) (index : Nat)
    (rest2 : List Byte) (st : AsmSt), 1 ≤ index →
    (∀ b ∈ seg, asmSkip st b) →
    asmLoop input index (seg ++ rest2) st =
      asmLoop input (index + seg.length) rest2 st := by
  intro seg
  induction seg with
  | nil => intro input index rest2 st _ _; simp
  | cons b seg ih =>
    intro input index rest2 st hidx hsk
    obtain ⟨h4, h5, h6, h7, h8, h9⟩ := hsk b (by simp)
    show asmLoop input index (b :: (seg ++ rest2)) st = _
    conv_lhs => unfold asmLoop
    rw [if_neg (fun hc => by omega : ¬(index = 0 ∧ b = 64)),
      if_neg (fun hc => by omega : ¬(index = 0 ∧ b = 58)),
      if_neg (fun hc => by omega : ¬(index = 0 ∧ b ≠ 58 ∧ b ≠ 64)),
      if_neg h4, if_neg h5, if_neg h6, if_neg h7, if_neg h8,
      if_neg (by simp [h9] : ¬st.parameters_started = true),
      ih input (index + 1) rest2 st (by omega) (fun c hc => hsk c (by simp [hc]))]
    have hlen : index + 1 + seg.length = index + (b :: seg).length := by
      simp only [List.length_cons]
      omega
    rw [hlen]

/-- An ASCII alphanumeric byte is not a space, a colon or an at sign. -/
theorem alnum_facts {b : Nat} (h : isAsciiAlphanumeric b = true) :
    b ≠ 32 ∧ b ≠ 58 ∧ b ≠ 64 := by
  have h' : (97 ≤ b ∧ b ≤ 122 ∨ 65 ≤ b ∧ b ≤ 90) ∨ (48 ≤ b ∧ b ≤ 57) := by
    simpa [isAsciiAlphanumeric, isAsciiAlphabetic, isAsciiLowercase,
      isAsciiUppercase, isAsciiDigit] using h
  rcases h' with (⟨h1, h2⟩ | ⟨h1, h2⟩) | ⟨h1, h2⟩ <;> exact ⟨by omega, by omega, by omega⟩

/-- Replaying the scanning loop over a leading tags segment `@...` up to and
including its closing space. -/
theorem asmLoop_tags_entry {T1 rest2 : List Byte} {tg : Tags}
    (htg : Tags.parse (64 :: T1) = .ok tg)
    (hns : 32 ∉ T1) :
    asmLoop (64 :: (T1 ++ 32 :: rest2)) 0 (64 :: (T1 ++ 32 :: rest2))
        (asmInit (64 :: (T1 ++ 32 :: rest2))) =
      asmLoop (64 :: (T1 ++ 32 :: rest2)) (T1.length + 2) rest2
        ⟨some tg, true, T1.length + 2, true, none, false, 0, false, false, 0, false,
          rest2⟩ := by
  have e1 : asmLoop (64 :: (T1 ++ 32 :: rest2)) 0 (64 :: (T1 ++ 32 :: rest2))
      (asmInit (64 :: (T1 ++ 32 :: rest2))) =
      asmLoop (64 :: (T1 ++ 32 :: rest2)) 1 (T1 ++ 32 :: rest2)
        ⟨none, true, 0, false, none, false, 0, false, false, 0, false,
          64 :: (T1 ++ 32 :: rest2)⟩ := by
    conv_lhs => unfold asmLoop
    rw [if_pos (⟨rfl, rfl⟩ : (0:Nat) = 0 ∧ (64:Byte) = 64)]
    rfl
  rw [e1]
  have hsk : ∀ b ∈ T1, asmSkip ⟨none, true, 0, false, none, false, 0, false, false, 0,
      false, 64 :: (T1 ++ 32 :: rest2)⟩ b := by
    intro b hb
    refine ⟨by simp, ?_, by simp, by simp, by simp, rfl⟩
    rintro ⟨-, -, hb32⟩
    exact hns (hb32 ▸ hb)
  rw [asmLoop_skip T1 (64 :: (T1 ++ 32 :: rest2)) 1 (32 :: rest2)
    ⟨none, true, 0, false, none, false, 0, false, false, 0, false,
      64 :: (T1 ++ 32 :: rest2)⟩ (by omega) hsk]
  have h1 : 1 + T1.length = T1.length + 1 := by omega
  rw [h1]
  conv_lhs => unfold asmLoop
  rw [if_neg (by omega : ¬(T1.length + 1 = 0 ∧ (32:Byte) = 64)),
    if_neg (by omega : ¬(T1.length + 1 = 0 ∧ (32:Byte) = 58)),
    if_neg (by omega : ¬(T1.length + 1 = 0 ∧ (32:Byte) ≠ 58 ∧ (32:Byte) ≠ 64)),
    if_neg (by simp), if_pos ⟨rfl, by simp, rfl⟩]
  rw [List.take_succ_cons, List.drop_succ_cons, List.take_left, List.drop_left]
  simp only [htg]
  rfl

/-- Replaying the scanning loop over a source segment after its `:` byte was
consumed, up to and including the closing space. -/
theorem asmLoop_source_body {input : List Byte} {tgs : Option Tags} {tp tf : Bool}
    {a : Nat} {S1 rest3 : List Byte} {src : Source}
    (htp : tp = true → tf = true)
    (hsrc : Source.parse (58 :: S1) = .ok src)
    (hS : ∀ b ∈ S1, b ≠ 32) :
    asmLoop input (a + 1) (S1 ++ 32 :: rest3)
        ⟨tgs, tp, a, tf, none, true, 0, false, false, 0, false,
          58 :: (S1 ++ 32 :: rest3)⟩ =
      asmLoop input (a + 1 + S1.length + 1) rest3
        ⟨tgs, tp, a, tf, some src, true, a + 1 + S1.length + 1, true, true, 0, false,
          rest3⟩ := by
  have hsk : ∀ b ∈ S1, asmSkip ⟨tgs, tp, a, tf, none, true, 0, false, false, 0, false,
      58 :: (S1 ++ 32 :: rest3)⟩ b := by
    intro b hb
    refine ⟨by simp, ?_, ?_, by simp, by simp, rfl⟩
    · rintro ⟨h1, h2, -⟩
      exact h2 (htp h1)
    · rintro ⟨-, -, hb32⟩
      exact hS b hb hb32
  rw [asmLoop_skip S1 input (a + 1) (32 :: rest3)
    ⟨tgs, tp, a, tf, none, true, 0, false, false, 0, false,
      58 :: (S1 ++ 32 :: rest3)⟩ (by omega) hsk]
  conv_lhs => unfold asmLoop
  rw [if_neg (by omega : ¬(a + 1 + S1.length = 0 ∧ (32:Byte) = 64)),
    if_neg (by omega : ¬(a + 1 + S1.length = 0 ∧ (32:Byte) = 58)),
    if_neg (by omega : ¬(a + 1 + S1.length = 0 ∧ (32:Byte) ≠ 58 ∧ (32:Byte) ≠ 64)),
    if_neg (by simp),
    if_neg (by rintro ⟨h1, h2, -⟩; exact h2 (htp h1)),
    if_pos ⟨rfl, by simp, rfl⟩]
  have ha : a + 1 + S1.length - a = S1.length + 1 := by omega
  simp only [ha, List.take_succ_cons, List.drop_succ_cons, List.take_left,
    List.drop_left, hsrc]
  rfl

/-- Replaying the scanning loop over a command segment followed by a space and
a nonempty parameter segment: the loop stops with `parameters_started` set. -/
theorem asmLoop_cmd_params {input : List Byte} {st : AsmSt} {Cr C0 P0 : List Byte}
    {idx : Nat}
    (hcs : st.command_started = true) (hps : st.parameters_started = false)
    (htp : st.tag_present = true → st.tag_finished = true)
    (hsp : st.source_present = true → st.source_finished = true)
    (hcopy : st.copy = C0 ++ 32 :: P0)
    (hidx : 1 ≤ idx)
    (halign : idx + Cr.length =
      (if st.source_present then st.after_source_end else st.after_tag_end) + C0.length)
    (hal : ∀ b ∈ Cr, b ≠ 32)
    (hP0 : P0 ≠ []) :
    asmLoop input idx (Cr ++ 32 :: P0) st =
      .ok { st with parameters_started := true, copy := C0,
                    after_command_end := idx + Cr.length + 1 } := by
  have hsk : ∀ b ∈ Cr, asmSkip st b := by
    intro b hb
    refine ⟨?_, ?_, ?_, ?_, ?_, hps⟩
    · rintro ⟨-, h2, -, -⟩; exact h2 hcs
    · rintro ⟨h1, h2, -⟩; exact h2 (htp h1)
    · rintro ⟨h1, h2, -⟩; exact h2 (hsp h1)
    · rintro ⟨-, -, hb32⟩; exact hal b hb hb32
    · rintro ⟨-, -, h3⟩; exact h3 hcs
  rw [asmLoop_skip Cr input idx (32 :: P0) st hidx hsk]
  conv_lhs => unfold asmLoop
  rw [if_neg (by omega : ¬(idx + Cr.length = 0 ∧ (32:Byte) = 64)),
    if_neg (by omega : ¬(idx + Cr.length = 0 ∧ (32:Byte) = 58)),
    if_neg (by omega : ¬(idx + Cr.length = 0 ∧ (32:Byte) ≠ 58 ∧ (32:Byte) ≠ 64)),
    if_neg (by rintro ⟨-, h2, -, -⟩; exact h2 hcs),
    if_neg (by rintro ⟨h1, h2, -⟩; exact h2 (htp h1)),
    if_neg (by rintro ⟨h1, h2, -⟩; exact h2 (hsp h1)),
    if_pos ⟨hcs, by simp [hps], rfl⟩]
  have hc : (if st.source_present then st.copy.take (idx + Cr.length - st.after_source_end)
      else st.copy.take (idx + Cr.length - st.after_tag_end)) = C0 := by
    by_cases hb : st.source_present = true
    · rw [if_pos hb]
      rw [if_pos hb] at halign
      have he : idx + Cr.length - st.after_source_end = C0.length := by omega
      rw [he, hcopy, List.take_left]
    · rw [if_neg hb]
      rw [if_neg hb] at halign
      have he : idx + Cr.length - st.after_tag_end = C0.length := by omega
      rw [he, hcopy, List.take_left]
  rw [hc]
  cases P0 with
  | nil => exact absurd rfl hP0
  | cons p0 P0t =>
    show asmLoop input (idx + Cr.length + 1) (p0 :: P0t)
      { st with parameters_started := true, copy := C0,
                after_command_end := idx + Cr.length + 1 } = _
    conv_lhs => unfold asmLoop
    rw [if_neg (by omega : ¬(idx + Cr.length + 1 = 0 ∧ p0 = 64)),
      if_neg (by omega : ¬(idx + Cr.length + 1 = 0 ∧ p0 = 58)),
      if_neg (by omega : ¬(idx + Cr.length + 1 = 0 ∧ p0 ≠ 58 ∧ p0 ≠ 64)),
      if_neg (by rintro ⟨-, h2, -, -⟩; exact h2 hcs),
      if_neg (by rintro ⟨h1, h2, -⟩; exact h2 (htp h1)),
      if_neg (by rintro ⟨h1, h2, -⟩; exact h2 (hsp h1)),
      if_neg (by rintro ⟨-, h2, -⟩; exact h2 rfl),
      if_neg (by rintro ⟨-, -, h3⟩; exact h3 hcs),
      if_pos rfl]

/-- Replaying the scanning loop over a final command segment with no
parameters: the input ends and the state is returned unchanged. -/
theorem asmLoop_cmd_noparams {input : List Byte} {st : AsmSt} {Cr : List Byte}
    {idx : Nat}
    (hcs : st.command_started = true) (hps : st.parameters_started = false)
    (htp : st.tag_present = true → st.tag_finished = true)
    (hsp : st.source_present = true → st.source_finished = true)
    (hidx : 1 ≤ idx)
    (hal : ∀ b ∈ Cr, b ≠ 32) :
    asmLoop input idx Cr st = .ok st := by
  have hsk : ∀ b ∈ Cr, asmSkip st b := by
    intro b hb
    refine ⟨?_, ?_, ?_, ?_, ?_, hps⟩
    · rintro ⟨-, h2, -, -⟩; exact h2 hcs
    · rintro ⟨h1, h2, -⟩; exact h2 (htp h1)
    · rintro ⟨h1, h2, -⟩; exact h2 (hsp h1)
    · rintro ⟨-, -, hb32⟩; exact hal b hb hb32
    · rintro ⟨-, -, h3⟩; exact h3 hcs
  rw [show Cr = Cr ++ [] from (List.append_nil Cr).symm]
  rw [asmLoop_skip Cr input idx [] st hidx hsk]
  rfl

/-- Dropping a segment plus its following space from the front. -/
theorem drop_seg {A B : List Byte} {n : Nat} (h : n = A.length + 1) :
    (A ++ 32 :: B).drop n = B := by
  subst h
  rw [← List.drop_drop, List.drop_left]
  rfl

/-- Dropping two space-terminated segments from the front. -/
theorem drop_two_segs {A B C : List Byte} {n : Nat}
    (h : n = A.length + 1 + B.length + 1) :
    (A ++ 32 :: (B ++ 32 :: C)).drop n = C := by
  subst h
  rw [show A.length + 1 + B.length + 1 = (A.length + 1) + (B.length + 1) from by omega,
    ← List.drop_drop, drop_seg rfl, drop_seg rfl]

/-- Round trip of a message with neither tags, source nor parameters. -/
theorem reparse_nnn {cmd : Command}
    (hcmd : Command.parse cmd.render 0 = some (.ok cmd)) :
    IrcMsg.parse (IrcMsg.render ⟨none, none, cmd, none⟩) =
      some (.ok ⟨none, none, cmd, none⟩) := by
  have hCf := command_parse_ok_facts hcmd
  obtain ⟨c0, C1, hC0c⟩ := List.exists_cons_of_ne_nil hCf.1
  have hc0 := alnum_facts (hCf.2 c0 (hC0c ▸ List.mem_cons_self c0 C1))
  have hR : IrcMsg.render ⟨none, none, cmd, none⟩ = c0 :: C1 := by
    simp [IrcMsg.render, hC0c]
  rw [hR]
  have e1 : asmLoop (c0 :: C1) 0 (c0 :: C1) (asmInit (c0 :: C1)) =
      asmLoop (c0 :: C1) (0 + 1) C1
        ⟨none, false, 0, false, none, false, 0, false, true, 0, false, c0 :: C1⟩ := by
    conv_lhs => unfold asmLoop
    rw [if_neg (by rintro ⟨-, h⟩; exact hc0.2.2 h),
      if_neg (by rintro ⟨-, h⟩; exact hc0.2.1 h),
      if_pos (⟨rfl, hc0.2.1, hc0.2.2⟩ : (0:Nat) = 0 ∧ c0 ≠ 58 ∧ c0 ≠ 64)]
    rfl
  have e2 : asmLoop (c0 :: C1) (0 + 1) C1
      ⟨none, false, 0, false, none, false, 0, false, true, 0, false, c0 :: C1⟩ =
      .ok ⟨none, false, 0, false, none, false, 0, false, true, 0, false, c0 :: C1⟩ :=
    asmLoop_cmd_noparams rfl rfl (fun h => by simp at h) (fun h => by simp at h)
      (by omega) (fun b hb => (alnum_facts (hCf.2 b (hC0c ▸ List.mem_cons_of_mem c0 hb))).1)
  unfold IrcMsg.parse
  rw [if_neg (by simp : ¬(c0 :: C1 = []))]
  simp only [e1, e2]
  rw [if_neg (by simp)]
  have hcmd2 : Command.parse (c0 :: C1) 0 = some (.ok cmd) := hC0c ▸ hcmd
  simp only [hcmd2]

/-- Round trip of a message with parameters but neither tags nor source. -/
theorem reparse_nns {cmd : Command} {pm : Parameters}
    (hcmd : Command.parse cmd.render pm.amount = some (.ok cmd))
    (hpm : Parameters.parse pm.render = .ok (some pm)) :
    IrcMsg.parse (IrcMsg.render ⟨none, none, cmd, some pm⟩) =
      some (.ok ⟨none, none, cmd, some pm⟩) := by
  have hCf := command_parse_ok_facts hcmd
  obtain ⟨c0, C1, hC0c⟩ := List.exists_cons_of_ne_nil hCf.1
  have hc0 := alnum_facts (hCf.2 c0 (hC0c ▸ List.mem_cons_self c0 C1))
  have hP0ne : pm.render ≠ [] := (params_parse_ok_inv hpm).2
  have hR : IrcMsg.render ⟨none, none, cmd, some pm⟩ =
      c0 :: (C1 ++ 32 :: pm.render) := by
    simp [IrcMsg.render, hC0c]
  rw [hR]
  have e1 : asmLoop (c0 :: (C1 ++ 32 :: pm.render)) 0 (c0 :: (C1 ++ 32 :: pm.render))
      (asmInit (c0 :: (C1 ++ 32 :: pm.render))) =
      asmLoop (c0 :: (C1 ++ 32 :: pm.render)) (0 + 1) (C1 ++ 32 :: pm.render)
        ⟨none, false, 0, false, none, false, 0, false, true, 0, false,
          c0 :: (C1 ++ 32 :: pm.render)⟩ := by
    conv_lhs => unfold asmLoop
    rw [if_neg (by rintro ⟨-, h⟩; exact hc0.2.2 h),
      if_neg (by rintro ⟨-, h⟩; exact hc0.2.1 h),
      if_pos (⟨rfl, hc0.2.1, hc0.2.2⟩ : (0:Nat) = 0 ∧ c0 ≠ 58 ∧ c0 ≠ 64)]
    rfl
  have halign : 0 + 1 + C1.length =
      (if (⟨none, false, 0, false, none, false, 0, false, true, 0, false,
          c0 :: (C1 ++ 32 :: pm.render)⟩ : AsmSt).source_present then
        (⟨none, false, 0, false, none, false, 0, false, true, 0, false,
          c0 :: (C1 ++ 32 :: pm.render)⟩ : AsmSt).after_source_end
      else
        (⟨none, false, 0, false, none, false, 0, false, true, 0, false,
          c0 :: (C1 ++ 32 :: pm.render)⟩ : AsmSt).after_tag_end) +
        cmd.render.length := by
    rw [if_neg (by simp), hC0c, List.length_cons]
    show 0 + 1 + C1.length = 0 + (C1.length + 1)
    omega
  have e2 : asmLoop (c0 :: (C1 ++ 32 :: pm.render)) (0 + 1) (C1 ++ 32 :: pm.render)
      ⟨none, false, 0, false, none, false, 0, false, true, 0, false,
        c0 :: (C1 ++ 32 :: pm.render)⟩ =
      .ok ⟨none, false, 0, false, none, false, 0, false, true,
            0 + 1 + C1.length + 1, true, cmd.render⟩ :=
    asmLoop_cmd_params rfl rfl (fun h => by simp at h) (fun h => by simp at h)
      (by rw [hC0c, List.cons_append])
      (by omega) halign
      (fun b hb => (alnum_facts (hCf.2 b (hC0c ▸ List.mem_cons_of_mem c0 hb))).1)
      hP0ne
  unfold IrcMsg.parse
  rw [if_neg (by simp : ¬(c0 :: (C1 ++ 32 :: pm.render) = []))]
  simp only [e1, e2]
  rw [if_pos trivial]
  have hdrop : (c0 :: (C1 ++ 32 :: pm.render)).drop (0 + 1 + C1.length + 1) =
      pm.render := by
    rw [List.drop_succ_cons, drop_seg (by omega)]
  simp only [hdrop, hpm, hcmd]

/-- Round trip of a message with a source but no tags and no parameters. -/
theorem reparse_nsn {cmd : Command} {src : Source}
    (hcmd : Command.parse cmd.render 0 = some (.ok cmd))
    (hsrcS : Source.parse src.render = .ok src) :
    IrcMsg.parse (IrcMsg.render ⟨none, some src, cmd, none⟩) =
      some (.ok ⟨none, some src, cmd, none⟩) := by
  have hCf := command_parse_ok_facts hcmd
  have hSf := source_parse_ok_facts hsrcS
  obtain ⟨s0, S1, hS0c⟩ := List.exists_cons_of_ne_nil hSf.1
  have hs0 : s0 = 58 := by
    have h := hSf.2.1
    rw [hS0c] at h
    simpa using h
  subst hs0
  have hS1 : ∀ b ∈ S1, b ≠ 32 := by
    intro b hb hb32
    have h := hSf.2.2 b (hS0c ▸ List.mem_cons_of_mem 58 hb)
    rw [hb32] at h
    simp [Source.is_invalid_byte] at h
  have hsrc' : Source.parse (58 :: S1) = .ok src := hS0c ▸ hsrcS
  have hR : IrcMsg.render ⟨none, some src, cmd, none⟩ =
      58 :: (S1 ++ 32 :: cmd.render) := by
    simp [IrcMsg.render, hS0c]
  rw [hR]
  have e1 : asmLoop (58 :: (S1 ++ 32 :: cmd.render)) 0 (58 :: (S1 ++ 32 :: cmd.render))
      (asmInit (58 :: (S1 ++ 32 :: cmd.render))) =
      asmLoop (58 :: (S1 ++ 32 :: cmd.render)) (0 + 1) (S1 ++ 32 :: cmd.render)
        ⟨none, false, 0, false, none, true, 0, false, false, 0, false,
          58 :: (S1 ++ 32 :: cmd.render)⟩ := by
    conv_lhs => unfold asmLoop
    rw [if_neg (by decide : ¬((0:Nat) = 0 ∧ (58:Byte) = 64)),
      if_pos (⟨rfl, rfl⟩ : (0:Nat) = 0 ∧ (58:Byte) = 58)]
    rfl
  have e2 := @asmLoop_source_body (58 :: (S1 ++ 32 :: cmd.render)) none false false 0
    S1 cmd.render src (fun h => by simp at h) hsrc' hS1
  have e3 : asmLoop (58 :: (S1 ++ 32 :: cmd.render)) (0 + 1 + S1.length + 1) cmd.render
      ⟨none, false, 0, false, some src, true, 0 + 1 + S1.length + 1, true, true, 0,
        false, cmd.render⟩ =
      .ok ⟨none, false, 0, false, some src, true, 0 + 1 + S1.length + 1, true, true, 0,
        false, cmd.render⟩ :=
    asmLoop_cmd_noparams rfl rfl (fun h => by simp at h) (fun _ => rfl) (by omega)
      (fun b hb => (alnum_facts (hCf.2 b hb)).1)
  unfold IrcMsg.parse
  rw [if_neg (by simp)]
  simp only [e1, e2, e3]
  rw [if_neg (by simp)]
  simp only [hcmd]

/-- Round trip of a message with a source and parameters but no tags. -/
theorem reparse_nss {cmd : Command} {src : Source} {pm : Parameters}
    (hcmd : Command.parse cmd.render pm.amount = some (.ok cmd))
    (hsrcS : Source.parse src.render = .ok src)
    (hpm : Parameters.parse pm.render = .ok (some pm)) :
    IrcMsg.parse (IrcMsg.render ⟨none, some src, cmd, some pm⟩) =
      some (.ok ⟨none, some src, cmd, some pm⟩) := by
  have hCf := command_parse_ok_facts hcmd
  have hSf := source_parse_ok_facts hsrcS
  have hP0ne : pm.render ≠ [] := (params_parse_ok_inv hpm).2
  obtain ⟨s0, S1, hS0c⟩ := List.exists_cons_of_ne_nil hSf.1
  have hs0 : s0 = 58 := by
    have h := hSf.2.1
    rw [hS0c] at h
    simpa using h
  subst hs0
  have hS1 : ∀ b ∈ S1, b ≠ 32 := by
    intro b hb hb32
    have h := hSf.2.2 b (hS0c ▸ List.mem_cons_of_mem 58 hb)
    rw [hb32] at h
    simp [Source.is_invalid_byte] at h
  have hsrc' : Source.parse (58 :: S1) = .ok src := hS0c ▸ hsrcS
  have hR : IrcMsg.render ⟨none, some src, cmd, some pm⟩ =
      58 :: (S1 ++ 32 :: (cmd.render ++ 32 :: pm.render)) := by
    simp [IrcMsg.render, hS0c]
  rw [hR]
  have e1 : asmLoop (58 :: (S1 ++ 32 :: (cmd.render ++ 32 :: pm.render))) 0
      (58 :: (S1 ++ 32 :: (cmd.render ++ 32 :: pm.render)))
      (asmInit (58 :: (S1 ++ 32 :: (cmd.render ++ 32 :: pm.render)))) =
      asmLoop (58 :: (S1 ++ 32 :: (cmd.render ++ 32 :: pm.render))) (0 + 1)
        (S1 ++ 32 :: (cmd.render ++ 32 :: pm.render))
        ⟨none, false, 0, false, none, true, 0, false, false, 0, false,
          58 :: (S1 ++ 32 :: (cmd.render ++ 32 :: pm.render))⟩ := by
    conv_lhs => unfold asmLoop
    rw [if_neg (by decide : ¬((0:Nat) = 0 ∧ (58:Byte) = 64)),
      if_pos (⟨rfl, rfl⟩ : (0:Nat) = 0 ∧ (58:Byte) = 58)]
    rfl
  have e2 := @asmLoop_source_body
    (58 :: (S1 ++ 32 :: (cmd.render ++ 32 :: pm.render))) none false false 0
    S1 (cmd.render ++ 32 :: pm.render) src (fun h => by simp at h) hsrc' hS1
  have e3 : asmLoop (58 :: (S1 ++ 32 :: (cmd.render ++ 32 :: pm.render)))
      (0 + 1 + S1.length + 1) (cmd.render ++ 32 :: pm.render)
      ⟨none, false, 0, false, some src, true, 0 + 1 + S1.length + 1, true, true, 0,
        false, cmd.render ++ 32 :: pm.render⟩ =
      .ok ⟨none, false, 0, false, some src, true, 0 + 1 + S1.length + 1, true, true,
        0 + 1 + S1.length + 1 + cmd.render.length + 1, true, cmd.render⟩ :=
    asmLoop_cmd_params rfl rfl (fun h => by simp at h) (fun _ => rfl) rfl
      (by omega) (by simp)
      (fun b hb => (alnum_facts (hCf.2 b hb)).1) hP0ne
  unfold IrcMsg.parse
  rw [if_neg (by simp)]
  simp only [e1, e2, e3]
  rw [if_pos trivial]
  have hdrop : (58 :: (S1 ++ 32 :: (cmd.render ++ 32 :: pm.render))).drop
      (0 + 1 + S1.length + 1 + cmd.render.length + 1) = pm.render := by
    rw [List.drop_succ_cons, drop_two_segs (by omega)]
  simp only [hdrop, hpm, hcmd]

/-- Dropping three space-terminated segments from the front. -/
theorem drop_three_segs {A B C D : List Byte} {n : Nat}
    (h : n = A.length + 1 + B.length + 1 + C.length + 1) :
    (A ++ 32 :: (B ++ 32 :: (C ++ 32 :: D))).drop n = D := by
  subst h
  rw [show A.length + 1 + B.length + 1 + C.length + 1
      = (A.length + 1) + (B.length + 1 + C.length + 1) from by omega,
    ← List.drop_drop, drop_seg rfl, drop_two_segs rfl]

/-- Round trip of a message with tags but no source and no parameters. -/
theorem reparse_tnn {cmd : Command} {tg : Tags}
    (hcmd : Command.parse cmd.render 0 = some (.ok cmd))
    (htgS : Tags.parse tg.content = .ok tg)
    (htgNS : 32 ∉ tg.content) :
    IrcMsg.parse (IrcMsg.render ⟨some tg, none, cmd, none⟩) =
      some (.ok ⟨some tg, none, cmd, none⟩) := by
  have hCf := command_parse_ok_facts hcmd
  obtain ⟨c0, C1, hC0c⟩ := List.exists_cons_of_ne_nil hCf.1
  have hc0 := alnum_facts (hCf.2 c0 (hC0c ▸ List.mem_cons_self c0 C1))
  have hTf := tags_parse_ok_inv htgS
  obtain ⟨t0, T1, hT0c⟩ := List.exists_cons_of_ne_nil hTf.2.1
  have ht0 : t0 = 64 := by
    have h := hTf.2.2.1
    rw [hT0c] at h
    simpa using h
  subst ht0
  have hT1ns : 32 ∉ T1 := fun hm => htgNS (hT0c ▸ List.mem_cons_of_mem 64 hm)
  have htg' : Tags.parse (64 :: T1) = .ok tg := hT0c ▸ htgS
  have hR : IrcMsg.render ⟨some tg, none, cmd, none⟩ =
      64 :: (T1 ++ 32 :: (c0 :: C1)) := by
    simp [IrcMsg.render, Tags.render, hT0c, hC0c]
  rw [hR]
  have e1 := @asmLoop_tags_entry T1 (c0 :: C1) tg htg' hT1ns
  have e2 : asmLoop (64 :: (T1 ++ 32 :: (c0 :: C1))) (T1.length + 2) (c0 :: C1)
      ⟨some tg, true, T1.length + 2, true, none, false, 0, false, false, 0, false,
        c0 :: C1⟩ =
      asmLoop (64 :: (T1 ++ 32 :: (c0 :: C1))) (T1.length + 2 + 1) C1
        ⟨some tg, true, T1.length + 2, true, none, false, 0, false, true, 0, false,
          c0 :: C1⟩ := by
    conv_lhs => unfold asmLoop
    rw [if_neg (by omega : ¬(T1.length + 2 = 0 ∧ c0 = 64)),
      if_neg (by omega : ¬(T1.length + 2 = 0 ∧ c0 = 58)),
      if_neg (by omega : ¬(T1.length + 2 = 0 ∧ c0 ≠ 58 ∧ c0 ≠ 64)),
      if_neg (by rintro ⟨-, -, -, h⟩; exact hc0.2.1 h),
      if_neg (by simp), if_neg (by simp), if_neg (by simp),
      if_pos ⟨rfl, by simp, by simp⟩]
  have e3 : asmLoop (64 :: (T1 ++ 32 :: (c0 :: C1))) (T1.length + 2 + 1) C1
      ⟨some tg, true, T1.length + 2, true, none, false, 0, false, true, 0, false,
        c0 :: C1⟩ =
      .ok ⟨some tg, true, T1.length + 2, true, none, false, 0, false, true, 0, false,
        c0 :: C1⟩ :=
    asmLoop_cmd_noparams rfl rfl (fun _ => rfl) (fun h => by simp at h) (by omega)
      (fun b hb => (alnum_facts (hCf.2 b (hC0c ▸ List.mem_cons_of_mem c0 hb))).1)
  unfold IrcMsg.parse
  rw [if_neg (by simp)]
  simp only [e1, e2, e3]
  rw [if_neg (by simp)]
  have hcmd2 : Command.parse (c0 :: C1) 0 = some (.ok cmd) := hC0c ▸ hcmd
  simp only [hcmd2]

/-- Round trip of a message with tags and parameters but no source. -/
theorem reparse_tns {cmd : Command} {tg : Tags} {pm : Parameters}
    (hcmd : Command.parse cmd.render pm.amount = some (.ok cmd))
    (htgS : Tags.parse tg.content = .ok tg)
    (htgNS : 32 ∉ tg.content)
    (hpm : Parameters.parse pm.render = .ok (some pm)) :
    IrcMsg.parse (IrcMsg.render ⟨some tg, none, cmd, some pm⟩) =
      some (.ok ⟨some tg, none, cmd, some pm⟩) := by
  have hCf := command_parse_ok_facts hcmd
  obtain ⟨c0, C1, hC0c⟩ := List.exists_cons_of_ne_nil hCf.1
  have hc0 := alnum_facts (hCf.2 c0 (hC0c ▸ List.mem_cons_self c0 C1))
  have hP0ne : pm.render ≠ [] := (params_parse_ok_inv hpm).2
  have hTf := tags_parse_ok_inv htgS
  obtain ⟨t0, T1, hT0c⟩ := List.exists_cons_of_ne_nil hTf.2.1
  have ht0 : t0 = 64 := by
    have h := hTf.2.2.1
    rw [hT0c] at h
    simpa using h
  subst ht0
  have hT1ns : 32 ∉ T1 := fun hm => htgNS (hT0c ▸ List.mem_cons_of_mem 64 hm)
  have htg' : Tags.parse (64 :: T1) = .ok tg := hT0c ▸ htgS
  have hR : IrcMsg.render ⟨some tg, none, cmd, some pm⟩ =
      64 :: (T1 ++ 32 :: (c0 :: (C1 ++ 32 :: pm.render))) := by
    simp [IrcMsg.render, Tags.render, hT0c, hC0c]
  rw [hR]
  have e1 := @asmLoop_tags_entry T1 (c0 :: (C1 ++ 32 :: pm.render)) tg htg' hT1ns
  have e2 : asmLoop (64 :: (T1 ++ 32 :: (c0 :: (C1 ++ 32 :: pm.render))))
      (T1.length + 2) (c0 :: (C1 ++ 32 :: pm.render))
      ⟨some tg, true, T1.length + 2, true, none, false, 0, false, false, 0, false,
        c0 :: (C1 ++ 32 :: pm.render)⟩ =
      asmLoop (64 :: (T1 ++ 32 :: (c0 :: (C1 ++ 32 :: pm.render))))
        (T1.length + 2 + 1) (C1 ++ 32 :: pm.render)
        ⟨some tg, true, T1.length + 2, true, none, false, 0, false, true, 0, false,
          c0 :: (C1 ++ 32 :: pm.render)⟩ := by
    conv_lhs => unfold asmLoop
    rw [if_neg (by omega : ¬(T1.length + 2 = 0 ∧ c0 = 64)),
      if_neg (by omega : ¬(T1.length + 2 = 0 ∧ c0 = 58)),
      if_neg (by omega : ¬(T1.length + 2 = 0 ∧ c0 ≠ 58 ∧ c0 ≠ 64)),
      if_neg (by rintro ⟨-, -, -, h⟩; exact hc0.2.1 h),
      if_neg (by simp), if_neg (by simp), if_neg (by simp),
      if_pos ⟨rfl, by simp, by simp⟩]
  have e3 : asmLoop (64 :: (T1 ++ 32 :: (c0 :: (C1 ++ 32 :: pm.render))))
      (T1.length + 2 + 1) (C1 ++ 32 :: pm.render)
      ⟨some tg, true, T1.length + 2, true, none, false, 0, false, true, 0, false,
        c0 :: (C1 ++ 32 :: pm.render)⟩ =
      .ok ⟨some tg, true, T1.length + 2, true, none, false, 0, false, true,
        T1.length + 2 + 1 + C1.length + 1, true, cmd.render⟩ :=
    asmLoop_cmd_params rfl rfl (fun _ => rfl) (fun h => by simp at h)
      (by rw [hC0c, List.cons_append])
      (by omega)
      (by rw [if_neg (by simp), hC0c, List.length_cons]
          show T1.length + 2 + 1 + C1.length = T1.length + 2 + (C1.length + 1)
          omega)
      (fun b hb => (alnum_facts (hCf.2 b (hC0c ▸ List.mem_cons_of_mem c0 hb))).1)
      hP0ne
  unfold IrcMsg.parse
  rw [if_neg (by simp)]
  simp only [e1, e2, e3]
  rw [if_pos trivial]
  have hdrop : (64 :: (T1 ++ 32 :: (c0 :: (C1 ++ 32 :: pm.render)))).drop
      (T1.length + 2 + 1 + C1.length + 1) = pm.render := by
    rw [List.drop_succ_cons, ← List.cons_append,
      drop_two_segs (by simp only [List.length_cons]; omega)]
  simp only [hdrop, hpm, hcmd]

/-- Round trip of a message with tags and a source but no parameters. -/
theorem reparse_tsn {cmd : Command} {tg : Tags} {src : Source}
    (hcmd : Command.parse cmd.render 0 = some (.ok cmd))
    (htgS : Tags.parse tg.content = .ok tg)
    (htgNS : 32 ∉ tg.content)
    (hsrcS : Source.parse src.render = .ok src) :
    IrcMsg.parse (IrcMsg.render ⟨some tg, some src, cmd, none⟩) =
      some (.ok ⟨some tg, some src, cmd, none⟩) := by
  have hCf := command_parse_ok_facts hcmd
  have hSf := source_parse_ok_facts hsrcS
  obtain ⟨s0, S1, hS0c⟩ := List.exists_cons_of_ne_nil hSf.1
  have hs0 : s0 = 58 := by
    have h := hSf.2.1
    rw [hS0c] at h
    simpa using h
  subst hs0
  have hS1 : ∀ b ∈ S1, b ≠ 32 := by
    intro b hb hb32
    have h := hSf.2.2 b (hS0c ▸ List.mem_cons_of_mem 58 hb)
    rw [hb32] at h
    simp [Source.is_invalid_byte] at h
  have hsrc' : Source.parse (58 :: S1) = .ok src := hS0c ▸ hsrcS
  have hTf := tags_parse_ok_inv htgS
  obtain ⟨t0, T1, hT0c⟩ := List.exists_cons_of_ne_nil hTf.2.1
  have ht0 : t0 = 64 := by
    have h := hTf.2.2.1
    rw [hT0c] at h
    simpa using h
  subst ht0
  have hT1ns : 32 ∉ T1 := fun hm => htgNS (hT0c ▸ List.mem_cons_of_mem 64 hm)
  have htg' : Tags.parse (64 :: T1) = .ok tg := hT0c ▸ htgS
  have hR : IrcMsg.render ⟨some tg, some src, cmd, none⟩ =
      64 :: (T1 ++ 32 :: (58 :: (S1 ++ 32 :: cmd.render))) := by
    simp [IrcMsg.render, Tags.render, hT0c, hS0c]
  rw [hR]
  have e1 := @asmLoop_tags_entry T1 (58 :: (S1 ++ 32 :: cmd.render)) tg htg' hT1ns
  have e2 : asmLoop (64 :: (T1 ++ 32 :: (58 :: (S1 ++ 32 :: cmd.render))))
      (T1.length + 2) (58 :: (S1 ++ 32 :: cmd.render))
      ⟨some tg, true, T1.length + 2, true, none, false, 0, false, false, 0, false,
        58 :: (S1 ++ 32 :: cmd.render)⟩ =
      asmLoop (64 :: (T1 ++ 32 :: (58 :: (S1 ++ 32 :: cmd.render))))
        (T1.length + 2 + 1) (S1 ++ 32 :: cmd.render)
        ⟨some tg, true, T1.length + 2, true, none, true, 0, false, false, 0, false,
          58 :: (S1 ++ 32 :: cmd.render)⟩ := by
    conv_lhs => unfold asmLoop
    rw [if_neg (by omega : ¬(T1.length + 2 = 0 ∧ (58:Byte) = 64)),
      if_neg (by omega : ¬(T1.length + 2 = 0 ∧ (58:Byte) = 58)),
      if_neg (by omega : ¬(T1.length + 2 = 0 ∧ (58:Byte) ≠ 58 ∧ (58:Byte) ≠ 64)),
      if_pos ⟨rfl, by simp, by simp, rfl⟩]
  have e3 := @asmLoop_source_body (64 :: (T1 ++ 32 :: (58 :: (S1 ++ 32 :: cmd.render))))
    (some tg) true true (T1.length + 2) S1 cmd.render src (fun _ => rfl) hsrc' hS1
  have e4 : asmLoop (64 :: (T1 ++ 32 :: (58 :: (S1 ++ 32 :: cmd.render))))
      (T1.length + 2 + 1 + S1.length + 1) cmd.render
      ⟨some tg, true, T1.length + 2, true, some src, true,
        T1.length + 2 + 1 + S1.length + 1, true, true, 0, false, cmd.render⟩ =
      .ok ⟨some tg, true, T1.length + 2, true, some src, true,
        T1.length + 2 + 1 + S1.length + 1, true, true, 0, false, cmd.render⟩ :=
    asmLoop_cmd_noparams rfl rfl (fun _ => rfl) (fun _ => rfl) (by omega)
      (fun b hb => (alnum_facts (hCf.2 b hb)).1)
  unfold IrcMsg.parse
  rw [if_neg (by simp)]
  simp only [e1, e2, e3, e4]
  rw [if_neg (by simp)]
  simp only [hcmd]

/-- Round trip of a message with tags, a source and parameters. -/
theorem reparse_tss {cmd : Command} {tg : Tags} {src : Source} {pm : Parameters}
    (hcmd : Command.parse cmd.render pm.amount = some (.ok cmd))
    (htgS : Tags.parse tg.content = .ok tg)
    (htgNS : 32 ∉ tg.content)
    (hsrcS : Source.parse src.render = .ok src)
    (hpm : Parameters.parse pm.render = .ok (some pm)) :
    IrcMsg.parse (IrcMsg.render ⟨some tg, some src, cmd, some pm⟩) =
      some (.ok ⟨some tg, some src, cmd, some pm⟩) := by
  have hCf := command_parse_ok_facts hcmd
  have hSf := source_parse_ok_facts hsrcS
  have hP0ne : pm.render ≠ [] := (params_parse_ok_inv hpm).2
  obtain ⟨s0, S1, hS0c⟩ := List.exists_cons_of_ne_nil hSf.1
  have hs0 : s0 = 58 := by
    have h := hSf.2.1
    rw [hS0c] at h
    simpa using h
  subst hs0
  have hS1 : ∀ b ∈ S1, b ≠ 32 := by
    intro b hb hb32
    have h := hSf.2.2 b (hS0c ▸ List.mem_cons_of_mem 58 hb)
    rw [hb32] at h
    simp [Source.is_invalid_byte] at h
  have hsrc' : Source.parse (58 :: S1) = .ok src := hS0c ▸ hsrcS
  have hTf := tags_parse_ok_inv htgS
  obtain ⟨t0, T1, hT0c⟩ := List.exists_cons_of_ne_nil hTf.2.1
  have ht0 : t0 = 64 := by
    have h := hTf.2.2.1
    rw [hT0c] at h
    simpa using h
  subst ht0
  have hT1ns : 32 ∉ T1 := fun hm => htgNS (hT0c ▸ List.mem_cons_of_mem 64 hm)
  have htg' : Tags.parse (64 :: T1) = .ok tg := hT0c ▸ htgS
  have hR : IrcMsg.render ⟨some tg, some src, cmd, some pm⟩ =
      64 :: (T1 ++ 32 :: (58 :: (S1 ++ 32 :: (cmd.render ++ 32 :: pm.render)))) := by
    simp [IrcMsg.render, Tags.render, hT0c, hS0c]
  rw [hR]
  have e1 := @asmLoop_tags_entry T1
    (58 :: (S1 ++ 32 :: (cmd.render ++ 32 :: pm.render))) tg htg' hT1ns
  have e2 : asmLoop
      (64 :: (T1 ++ 32 :: (58 :: (S1 ++ 32 :: (cmd.render ++ 32 :: pm.render)))))
      (T1.length + 2) (58 :: (S1 ++ 32 :: (cmd.render ++ 32 :: pm.render)))
      ⟨some tg, true, T1.length + 2, true, none, false, 0, false, false, 0, false,
        58 :: (S1 ++ 32 :: (cmd.render ++ 32 :: pm.render))⟩ =
      asmLoop
        (64 :: (T1 ++ 32 :: (58 :: (S1 ++ 32 :: (cmd.render ++ 32 :: pm.render)))))
        (T1.length + 2 + 1) (S1 ++ 32 :: (cmd.render ++ 32 :: pm.render))
        ⟨some tg, true, T1.length + 2, true, none, true, 0, false, false, 0, false,
          58 :: (S1 ++ 32 :: (cmd.render ++ 32 :: pm.render))⟩ := by
    conv_lhs => unfold asmLoop
    rw [if_neg (by omega : ¬(T1.length + 2 = 0 ∧ (58:Byte) = 64)),
      if_neg (by omega : ¬(T1.length + 2 = 0 ∧ (58:Byte) = 58)),
      if_neg (by omega : ¬(T1.length + 2 = 0 ∧ (58:Byte) ≠ 58 ∧ (58:Byte) ≠ 64)),
      if_pos ⟨rfl, by simp, by simp, rfl⟩]
  have e3 := @asmLoop_source_body
    (64 :: (T1 ++ 32 :: (58 :: (S1 ++ 32 :: (cmd.render ++ 32 :: pm.render)))))
    (some tg) true true (T1.length + 2) S1 (cmd.render ++ 32 :: pm.render) src
    (fun _ => rfl) hsrc' hS1
  have e4 : asmLoop
      (64 :: (T1 ++ 32 :: (58 :: (S1 ++ 32 :: (cmd.render ++ 32 :: pm.render)))))
      (T1.length + 2 + 1 + S1.length + 1) (cmd.render ++ 32 :: pm.render)
      ⟨some tg, true, T1.length + 2, true, some src, true,
        T1.length + 2 + 1 + S1.length + 1, true, true, 0, false,
        cmd.render ++ 32 :: pm.render⟩ =
      .ok ⟨some tg, true, T1.length + 2, true, some src, true,
        T1.length + 2 + 1 + S1.length + 1, true, true,
        T1.length + 2 + 1 + S1.length + 1 + cmd.render.length + 1, true,
        cmd.render⟩ :=
    asmLoop_cmd_params rfl rfl (fun _ => rfl) (fun _ => rfl) rfl (by omega) (by simp)
      (fun b hb => (alnum_facts (hCf.2 b hb)).1) hP0ne
  unfold IrcMsg.parse
  rw [if_neg (by simp)]
  simp only [e1, e2, e3, e4]
  rw [if_pos trivial]
  have hdrop : (64 :: (T1 ++ 32 ::
      (58 :: (S1 ++ 32 :: (cmd.render ++ 32 :: pm.render))))).drop
      (T1.length + 2 + 1 + S1.length + 1 + cmd.render.length + 1) = pm.render := by
    rw [List.drop_succ_cons, ← List.cons_append,
      drop_three_segs (by simp only [List.length_cons]; omega)]
  simp only [hdrop, hpm, hcmd]

/-- Re-parsing the rendering of a message whose components each re-parse to
themselves reproduces the message. -/
theorem ircmsg_reparse (M : IrcMsg)
    (htg : ∀ tg, M.tags = some tg → Tags.parse tg.content = .ok tg ∧ 32 ∉ tg.content)
    (hsrc : ∀ src, M.source = some src → Source.parse src.render = .ok src)
    (hcmd : Command.parse M.command.render
      (match M.parameters with | some pm => pm.amount | none => 0) =
      some (.ok M.command))
    (hpm : ∀ pm, M.parameters = some pm → Parameters.parse pm.render = .ok (some pm)) :
    IrcMsg.parse M.render = some (.ok M) := by
  obtain ⟨tgs, srcs, cmd, pms⟩ := M
  cases tgs with
  | none =>
    cases srcs with
    | none =>
      cases pms with
      | none => exact reparse_nnn hcmd
      | some pm => exact reparse_nns hcmd (hpm pm rfl)
    | some src =>
      cases pms with
      | none => exact reparse_nsn hcmd (hsrc src rfl)
      | some pm => exact reparse_nss hcmd (hsrc src rfl) (hpm pm rfl)
  | some tg =>
    have ht := htg tg rfl
    cases srcs with
    | none =>
      cases pms with
      | none => exact reparse_tnn hcmd ht.1 ht.2
      | some pm => exact reparse_tns hcmd ht.1 ht.2 (hpm pm rfl)
    | some src =>
      cases pms with
      | none => exact reparse_tsn hcmd ht.1 ht.2 (hsrc src rfl)
      | some pm => exact reparse_tss hcmd ht.1 ht.2 (hsrc src rfl) (hpm pm rfl)

/-- C2 (amended): for every input that `IrcMsg::parse` accepts, if the
resulting message's source origin (when present) and parameters (when
present) are valid UTF-8, then parsing the rendering of the message gives
back the same message. The unamended claim is refuted by
`c2_roundtrip_fails_nonutf8`: a non-UTF-8 component renders through the
`Debug` byte-list form, which does not re-parse to the same message. -/
theorem c2_roundtrip_utf8 (input : List Byte) (M : IrcMsg)
    (h : IrcMsg.parse input = some (.ok M))
    (hsrcU : ∀ src, M.source = some src → src.origin.is_valid_utf8 = true)
    (hpmU : ∀ pm, M.parameters = some pm → pm.is_valid_uft8 = true) :
    IrcMsg.parse M.render = some (.ok M) := by
  obtain ⟨st, hloop, htags, hsource, hrest⟩ := ircmsg_parse_ok_inv h
  have hout : AsmOut st :=
    asmLoop_inv input 0 (asmInit input) st rfl
      ⟨fun hh => by simp [asmInit] at hh, fun hh => by simp [asmInit] at hh,
        fun tg hh => by simp [asmInit] at hh, fun src hh => by simp [asmInit] at hh⟩
      hloop
  apply ircmsg_reparse
  · intro tg htgeq
    exact hout.1 tg (htags ▸ htgeq)
  · intro src hsrceq
    obtain ⟨s, hs⟩ := hout.2 src (hsource ▸ hsrceq)
    have hrender := Source.parse_render hs (hsrcU src hsrceq)
    rw [hrender]
    exact hs
  · rcases hrest with ⟨pm, hPeq, hPparse, hCparse⟩ | ⟨hPeq, hCparse⟩
    · rw [hPeq]
      exact Command.parse_idem hCparse
    · rw [hPeq]
      exact Command.parse_idem hCparse
  · intro pm hPeq
    rcases hrest with ⟨pm', hPeq', hPparse, hCparse⟩ | ⟨hPeq', hCparse⟩
    · rw [hPeq'] at hPeq
      injection hPeq with hpm'
      subst hpm'
      have hvalc : pm'.content.is_valid_utf8 = true := by
        have hv := hpmU pm' hPeq'
        unfold Parameters.is_valid_uft8 at hv
        cases hc : pm'.content with
        | stringSlice s => rfl
        | nonUtf8ByteSlice b => rw [hc] at hv; simp at hv
      have hrend : Parameters.render pm' = pm'.content.as_bytes := by
        unfold Parameters.render
        exact ContentType.render_of_valid hvalc
      rw [hrend]
      exact params_reparse hPparse
    · rw [hPeq'] at hPeq
      simp at hPeq

/-- Witness for C2 (amended) at the concrete input `"INFO"`. -/
theorem c2_roundtrip_utf8_witness :
    IrcMsg.parse [73, 78, 70, 79] = some (.ok infoMsg) ∧
    IrcMsg.parse infoMsg.render = some (.ok infoMsg) :=
  ⟨by decide,
   c2_roundtrip_utf8 [73, 78, 70, 79] infoMsg (by decide)
     (fun src hh => by simp [infoMsg] at hh)
     (fun pm hh => by simp [infoMsg] at hh)⟩
